import Mathlib

/-!
# A shallow embedding of the debug-adapter session engine

The engine lives in `modules/nuclide-debugger-cli/lib/Debugger.js`.  It drives
an adapter through a request/response channel, keeps a breakpoint registry and
a thread registry, and serves source lines.

The embedding is state passing: every engine operation is a function from the
engine state to the state afterwards together with the outcome (`Except Err`),
so that the state left behind by an operation that throws can be read off.
The adapter is an oracle (`VsDebugSession`): a record of functions giving the
response to each request.  Every request issued is appended to the ghost field
`Debugger.requests`, which lets one state that an operation issued no request,
or issued them in a given order.
-/

namespace DebuggerCli

/-! ## Errors -/

/-- A thrown JavaScript value: `new Error(message)` (also the rejection of an
adapter request), the `TypeError` of a property read on `undefined`, a failed
`nullthrows`, or a failed `invariant`. -/
inductive Err where
  | error (message : String)
  | typeError
  | nullthrows
  | invariant
  deriving DecidableEq, Repr

/-! ## Protocol types (`vscode-debugprotocol`) -/

/-- The protocol's `Breakpoint`: the descriptor an adapter returns for a
requested breakpoint.  `id`, `message` and `line` are optional in the protocol,
`verified` is a required boolean. -/
structure AdapterBreakpoint where
  id : Option Nat
  verified : Bool
  message : Option String
  line : Option Nat
  deriving DecidableEq, Repr

/-- The protocol's `SourceBreakpoint`, one entry of a set-breakpoints request.
The single-path push sends `{line}`, the bulk push `{verified: false, line}`. -/
structure SourceBreakpoint where
  line : Nat
  verified : Option Bool
  deriving DecidableEq, Repr

/-- The protocol's `Source`. -/
structure Source where
  name : Option String
  path : Option String
  sourceReference : Option Nat
  deriving DecidableEq, Repr

/-- The protocol's `StackFrame`. -/
structure StackFrame where
  id : Nat
  name : String
  source : Option Source
  line : Int
  deriving DecidableEq, Repr

/-- The protocol's `Scope`. -/
structure Scope where
  name : String
  variablesReference : Nat
  expensive : Bool
  deriving DecidableEq, Repr

/-- The protocol's `Variable`. -/
structure Variable where
  name : String
  value : String
  deriving DecidableEq, Repr

/-- The protocol's `Thread`, an entry of the threads response. -/
structure ProtocolThread where
  id : Nat
  name : String
  deriving DecidableEq, Repr

/-- The protocol's `Capabilities`, as far as the engine reads them. -/
structure Capabilities where
  supportsConfigurationDoneRequest : Bool
  deriving DecidableEq, Repr

/-- A request sent to the adapter, as recorded in the request trace. -/
inductive Request where
  | initializeReq
  | launch
  | attach
  | disconnect
  | setBreakpoints (path : String) (breakpoints : List SourceBreakpoint)
  | setExceptionBreakpoints (filters : List String)
  | configurationDone
  | threads
  | stackTrace (threadId : Nat) (levels : Nat)
  | scopes (frameId : Nat)
  | variablesReq (variablesReference : Nat)
  | continueReq (threadId : Nat)
  | next (threadId : Nat)
  | stepIn (threadId : Nat)
  | pause (threadId : Nat)
  | evaluate (expression : String) (frameId : Option Nat)
  | source (sourceReference : Nat)
  deriving DecidableEq, Repr

/-- The channel to the adapter (`nuclide-debugger-common/VsDebugSession`), as
an oracle: for each request, the response body or the error the request is
rejected with. -/
structure VsDebugSession where
  initializeReq : Except Err Capabilities
  launch : Except Err Unit
  attach : Except Err Unit
  disconnect : Except Err Unit
  setBreakpoints : String → List SourceBreakpoint → Except Err (List AdapterBreakpoint)
  setExceptionBreakpoints : List String → Except Err Unit
  configurationDone : Except Err Unit
  threads : Except Err (Option (List ProtocolThread))
  stackTrace : Nat → Nat → Except Err (List StackFrame)
  scopes : Nat → Except Err (List Scope)
  variablesReq : Nat → Except Err (List Variable)
  continueReq : Nat → Except Err Unit
  next : Nat → Except Err Unit
  stepIn : Nat → Except Err Unit
  pause : Nat → Except Err Unit
  evaluate : String → Option Nat → Except Err String
  source : Nat → Except Err String

/-! ## Breakpoint registry -/

/-- Modelled from the spec: the class `Breakpoint` (`./Breakpoint`) is not among
the sources.  Fields as in the data model: a stable `index`, an optional `path`,
a 1-based `line`, `enabled` (user intent), `verified` (adapter-confirmed), the
optional adapter id and an optional status message. -/
structure Breakpoint where
  index : Nat
  path : Option String
  line : Nat
  enabled : Bool
  verified : Bool
  adapterId : Option Nat
  message : Option String
  deriving DecidableEq, Repr

/-- Modelled from the spec: the class `BreakpointCollection`
(`./BreakpointCollection`) is not among the sources.  An ordered sequence of
breakpoints (insertion order) and the next index to assign. -/
structure BreakpointCollection where
  breakpoints : List Breakpoint
  nextIndex : Nat
  deriving DecidableEq, Repr

namespace BreakpointCollection

/-- Modelled from the spec: the registry a fresh engine starts with. -/
def empty : BreakpointCollection := ⟨[], 0⟩

/-- Modelled from the spec: `addSourceBreakpoint(path, line) -> index` always
appends, assigns the next index, `enabled = true`, `verified = false`. -/
def addSourceBreakpoint (c : BreakpointCollection) (path : String) (line : Nat) :
    Nat × BreakpointCollection :=
  (c.nextIndex,
    { breakpoints := c.breakpoints ++
        [{ index := c.nextIndex, path := some path, line := line, enabled := true,
           verified := false, adapterId := none, message := none }],
      nextIndex := c.nextIndex + 1 })

/-- Modelled from the spec: `getAllBreakpoints()`. -/
def getAllBreakpoints (c : BreakpointCollection) : List Breakpoint := c.breakpoints

/-- Modelled from the spec: `getBreakpointByIndex(index)` fails with NotFound
if absent. -/
def getBreakpointByIndex (c : BreakpointCollection) (index : Nat) : Except Err Breakpoint :=
  match c.breakpoints.find? (fun b => b.index == index) with
  | some b => .ok b
  | none => .error (.error "There is no breakpoint with that index.")

/-- Modelled from the spec: `getBreakpointById(adapterId)` fails with NotFound
if absent. -/
def getBreakpointById (c : BreakpointCollection) (id : Nat) : Except Err Breakpoint :=
  match c.breakpoints.find? (fun b => b.adapterId == some id) with
  | some b => .ok b
  | none => .error (.error "There is no breakpoint with that id.")

/-- Modelled from the spec: `getAllEnabledBreakpointsForSource(path)`, the
enabled subset for the path, in insertion order. -/
def getAllEnabledBreakpointsForSource (c : BreakpointCollection) (path : String) :
    List Breakpoint :=
  c.breakpoints.filter (fun b => b.path == some path && b.enabled)

/-- Modelled from the spec: `getAllEnabledBreakpointsByPath()`, the grouping of
the enabled breakpoints over all paths; paths in order of first appearance. -/
def getAllEnabledBreakpointsByPath (c : BreakpointCollection) :
    List (String × List Breakpoint) :=
  ((c.breakpoints.filter (fun b => b.enabled)).filterMap (fun b => b.path)).eraseDups.map
    (fun p => (p, c.getAllEnabledBreakpointsForSource p))

/-- Modelled from the spec: `deleteBreakpoint(index)` removes the breakpoint
from the sequence (and so from its path group); nothing is renumbered. -/
def deleteBreakpoint (c : BreakpointCollection) (index : Nat) : BreakpointCollection :=
  { c with breakpoints := c.breakpoints.filter (fun b => !(b.index == index)) }

/-- A mutation of the breakpoint object with the given index.  Breakpoint
objects are shared by reference between the registry and the arrays the engine
works on; the object is identified by its index. -/
def modify (c : BreakpointCollection) (index : Nat) (f : Breakpoint → Breakpoint) :
    BreakpointCollection :=
  { c with breakpoints := c.breakpoints.map (fun b => if b.index = index then f b else b) }

/-- The method `breakpoint.setEnabled(enabled)` on the object with this index. -/
def setEnabled (c : BreakpointCollection) (index : Nat) (enabled : Bool) :
    BreakpointCollection :=
  c.modify index (fun b => { b with enabled := enabled })

/-- The method `breakpoint.setVerified(verified)` on the object with this index. -/
def setVerified (c : BreakpointCollection) (index : Nat) (verified : Bool) :
    BreakpointCollection :=
  c.modify index (fun b => { b with verified := verified })

/-- The method `breakpoint.setId(id)` on the object with this index. -/
def setId (c : BreakpointCollection) (index : Nat) (id : Nat) : BreakpointCollection :=
  c.modify index (fun b => { b with adapterId := some id })

/-- The registry invariant of the data model: indices are unique and below the
next index to assign. -/
def WF (c : BreakpointCollection) : Prop :=
  (c.breakpoints.map (fun b => b.index)).Nodup ∧ ∀ b ∈ c.breakpoints, b.index < c.nextIndex

instance (c : BreakpointCollection) : Decidable c.WF := by
  unfold WF; infer_instance

end BreakpointCollection

/-! ## Thread registry -/

/-- Modelled from the spec: the class `Thread` (`./Thread`) is not among the
sources.  `selectedStackFrame` is an index into the most recently fetched stack
trace, or none. -/
structure Thread where
  id : Nat
  name : String
  running : Bool
  selectedStackFrame : Option Nat
  deriving DecidableEq, Repr

namespace Thread

/-- Modelled from the spec: `new Thread(id, name)`, a running thread with no
selected frame. -/
def new (id : Nat) (name : String) : Thread := ⟨id, name, true, none⟩

/-- Modelled from the spec: the frame index read by `selectedStackFrame()`; a
cleared selection reads as the top frame. -/
def selectedStackFrameIndex (t : Thread) : Nat := t.selectedStackFrame.getD 0

/-- Modelled from the spec: `clearSelectedStackFrame()`. -/
def clearSelectedStackFrame (t : Thread) : Thread := { t with selectedStackFrame := none }

/-- Modelled from the spec: `setSelectedStackFrame(frameIndex)`. -/
def setSelectedStackFrame (t : Thread) (frameIndex : Nat) : Thread :=
  { t with selectedStackFrame := some frameIndex }

end Thread

/-- Modelled from the spec: the class `ThreadCollection` (`./ThreadCollection`)
is not among the sources.  The tracked threads in registry iteration order and
the id of the focus thread. -/
structure ThreadCollection where
  threads : List Thread
  focusThreadId : Option Nat
  deriving DecidableEq, Repr

namespace ThreadCollection

/-- Modelled from the spec: `new ThreadCollection()`. -/
def empty : ThreadCollection := ⟨[], none⟩

/-- Modelled from the spec: `allThreads`. -/
def allThreads (c : ThreadCollection) : List Thread := c.threads

/-- Modelled from the spec: `getThreadById(id)` fails with NotFound. -/
def getThreadById (c : ThreadCollection) (id : Nat) : Except Err Thread :=
  match c.threads.find? (fun t => t.id == id) with
  | some t => .ok t
  | none => .error (.error "There is no thread with that id.")

/-- Modelled from the spec: `focusThread`, the tracked thread the focus id
names, if any. -/
def focusThread (c : ThreadCollection) : Option Thread :=
  match c.focusThreadId with
  | some id => c.threads.find? (fun t => t.id == id)
  | none => none

/-- A mutation of the thread object with the given id. -/
def modify (c : ThreadCollection) (id : Nat) (f : Thread → Thread) : ThreadCollection :=
  { c with threads := c.threads.map (fun t => if t.id = id then f t else t) }

/-- Modelled from the spec: `addThread(thread)`, a mapping from id to thread:
a thread with a tracked id replaces the tracked one, a new id is appended. -/
def addThread (c : ThreadCollection) (t : Thread) : ThreadCollection :=
  if c.threads.any (fun u => u.id == t.id) then c.modify t.id (fun _ => t)
  else { c with threads := c.threads ++ [t] }

/-- Modelled from the spec: `removeThread(id)`. -/
def removeThread (c : ThreadCollection) (id : Nat) : ThreadCollection :=
  { c with threads := c.threads.filter (fun t => !(t.id == id)) }

/-- Modelled from the spec: `updateThreads(list)`, a wholesale replacement of
the tracked threads. -/
def updateThreads (c : ThreadCollection) (ts : List Thread) : ThreadCollection :=
  { c with threads := ts }

/-- Modelled from the spec: `markThreadRunning(id)`; an unknown id is a lookup
failure. -/
def markThreadRunning (c : ThreadCollection) (id : Nat) : Except Err ThreadCollection :=
  match c.getThreadById id with
  | .ok _ => .ok (c.modify id (fun t => { t with running := true }))
  | .error e => .error e

/-- Modelled from the spec: `markThreadStopped(id)`; an unknown id is a lookup
failure. -/
def markThreadStopped (c : ThreadCollection) (id : Nat) : Except Err ThreadCollection :=
  match c.getThreadById id with
  | .ok _ => .ok (c.modify id (fun t => { t with running := false }))
  | .error e => .error e

/-- Modelled from the spec: `markAllThreadsRunning()`. -/
def markAllThreadsRunning (c : ThreadCollection) : ThreadCollection :=
  { c with threads := c.threads.map (fun t => { t with running := true }) }

/-- Modelled from the spec: `markAllThreadsStopped()`. -/
def markAllThreadsStopped (c : ThreadCollection) : ThreadCollection :=
  { c with threads := c.threads.map (fun t => { t with running := false }) }

/-- Modelled from the spec: `setFocusThread(id)`. -/
def setFocusThread (c : ThreadCollection) (id : Nat) : ThreadCollection :=
  { c with focusThreadId := some id }

/-- Modelled from the spec: `firstStoppedThread()`, the id of the first thread,
in registry iteration order, whose status is stopped. -/
def firstStoppedThread (c : ThreadCollection) : Option Nat :=
  (c.threads.find? (fun t => !t.running)).map (fun t => t.id)

/-- Modelled from the spec: `allThreadsRunning()`, vacuously true when empty. -/
def allThreadsRunning (c : ThreadCollection) : Bool := c.threads.all (fun t => t.running)

/-- Modelled from the spec: `allThreadsStopped()`. -/
def allThreadsStopped (c : ThreadCollection) : Bool := c.threads.all (fun t => !t.running)

end ThreadCollection

/-! ## Console and source cache -/

/-- Modelled from the spec: the console collaborator (`./ConsoleIO`) is not
among the sources.  Whether the input loop is open, and the text written. -/
structure Console where
  inputOpen : Bool
  output : List String
  deriving DecidableEq, Repr

namespace Console

/-- Modelled from the spec: `startInput()` opens the input loop. -/
def startInput (c : Console) : Console := { c with inputOpen := true }

/-- Modelled from the spec: `stopInput()` closes the input loop. -/
def stopInput (c : Console) : Console := { c with inputOpen := false }

/-- Modelled from the spec: `outputLine(text)`. -/
def outputLine (c : Console) (text : String) : Console :=
  { c with output := c.output ++ [text] }

end Console

/-- Modelled from the spec: the class `SourceFileCache` (`./SourceFileCache`) is
not among the sources.  Line-split text memoized by source reference and by
path; `readFile` stands for the local filesystem, `baseName` for the last path
component computed by `nuclideUri`. -/
structure SourceFileCache where
  byReference : List (Nat × List String)
  byPath : List (String × List String)
  readFile : String → Except Err String
  baseName : String → String

/-- Modelled from the spec: `flush()` clears both caches. -/
def SourceFileCache.flush (c : SourceFileCache) : SourceFileCache :=
  { c with byReference := [], byPath := [] }

/-! ## Engine state -/

/-- The type `SessionState` of `Debugger.js`. -/
inductive SessionState where
  | INITIALIZING
  | CONFIGURING
  | RUNNING
  | STOPPED
  | TERMINATED
  deriving DecidableEq, Repr

/-- The adapter action, `attach` or `launch`. -/
inductive Action where
  | attach
  | launch
  deriving DecidableEq, Repr

/-- The type `ParsedVSAdapter` (`./DebuggerAdapterFactory`), as far as the
engine reads it.  `adapterInfo` describes the adapter executable; it is
represented by the channel obtained when that executable is started. -/
structure ParsedVSAdapter where
  action : Action
  adapterInfo : VsDebugSession
  attachArgs : Option String
  launchArgs : Option String

/-- The fields of the class `Debugger`, with two ghost fields: `requests`, the
trace of requests sent to the adapter, and `hostExited`, set when
`process.exit(0)` is called. -/
structure Debugger where
  capabilities : Option Capabilities
  console : Console
  debugSession : Option VsDebugSession
  activeThread : Option Nat
  threads : ThreadCollection
  sourceFiles : SourceFileCache
  state : SessionState
  breakpoints : BreakpointCollection
  adapter : Option ParsedVSAdapter
  requests : List Request
  hostExited : Bool

namespace Debugger

/-- Records a request in the trace. -/
def send (d : Debugger) (r : Request) : Debugger := { d with requests := d.requests ++ [r] }

/-- The guard `_ensureDebugSession(allowBeforeLaunch)`. -/
def _ensureDebugSession (d : Debugger) (allowBeforeLaunch : Bool) : Except Err VsDebugSession :=
  match d.debugSession with
  | none => .error (.error "There is no active debugging session.")
  | some session =>
    if (d.state = .INITIALIZING ∨ d.state = .CONFIGURING) ∧ allowBeforeLaunch = false then
      .error (.error "The program is not yet running (use 'run' to start it).")
    else .ok session

/-! ### Breakpoint reconciliation -/

/-- The message synthesized for a descriptor that carries no id, is reported
unverified and has no message of its own. -/
def defaultBreakpointMessage : String :=
  "Could not set this breakpoint. The module may not have been loaded yet."

/-- The array `paired` of `_setSourceBreakpointsForPath`:
`debuggerBreakpoints.map((_, i) => [_, adapterBreakpoints[i]])`.  A position
beyond the end of the response is paired with `undefined`. -/
def pairByPosition :
    List Breakpoint → List AdapterBreakpoint → List (Breakpoint × Option AdapterBreakpoint)
  | [], _ => []
  | b :: bs, [] => (b, none) :: pairByPosition bs []
  | b :: bs, a :: as => (b, some a) :: pairByPosition bs as

/-- The body of the loop of `_setSourceBreakpointsForPath` for one pair: the
registry after the mutations of the debugger breakpoint, and the descriptor
after the mutation of its message. -/
def reconcilePair (c : BreakpointCollection) (b : Breakpoint) (a : AdapterBreakpoint) :
    BreakpointCollection × AdapterBreakpoint :=
  match a.id with
  | some id => ((c.setId b.index id).setVerified b.index a.verified, a)
  | none =>
    let c1 := c.setVerified b.index true
    if !a.verified && (a.message == none || a.message == some "") then
      (c1, { a with message := some defaultBreakpointMessage })
    else (c1, a)

/-- The loop `for (const [debuggerBreakpoint, adapterBreakpoint] of paired)`.
Reading `.id` of an `undefined` descriptor throws a `TypeError`; the mutations
made before the throw stay. -/
def reconcileLoop (c : BreakpointCollection) :
    List (Breakpoint × Option AdapterBreakpoint) →
      BreakpointCollection × Except Err (List (Breakpoint × AdapterBreakpoint))
  | [] => (c, .ok [])
  | (_, none) :: _ => (c, .error .typeError)
  | (b, some a) :: rest =>
    match reconcileLoop (reconcilePair c b a).1 rest with
    | (c2, .ok ps) => (c2, .ok ((b, (reconcilePair c b a).2) :: ps))
    | (c2, .error e) => (c2, .error e)

/-- The single-path push `_setSourceBreakpointsForPath(session, path,
indexOfInterest)`. -/
def _setSourceBreakpointsForPath (d : Debugger) (session : VsDebugSession) (path : String)
    (indexOfInterest : Nat) : Debugger × Except Err (Option AdapterBreakpoint) :=
  let debuggerBreakpoints := d.breakpoints.getAllEnabledBreakpointsForSource path
  let request : List SourceBreakpoint := debuggerBreakpoints.map (fun x => ⟨x.line, none⟩)
  let d1 := d.send (.setBreakpoints path request)
  match session.setBreakpoints path request with
  | .error e => (d1, .error e)
  | .ok adapterBreakpoints =>
    let paired := pairByPosition debuggerBreakpoints adapterBreakpoints
    match reconcileLoop d1.breakpoints paired with
    | (c, .error e) => ({ d1 with breakpoints := c }, .error e)
    | (c, .ok ps) =>
      ({ d1 with breakpoints := c },
        .ok ((ps.find? (fun p => p.1.index == indexOfInterest)).map (fun p => p.2)))

/-- The loop `for (const breakpointOut of breakpointsOut)` of
`_resetAllBreakpoints`, for the breakpoints `breakpointLines` of one path. -/
def resetPathLoop (c : BreakpointCollection) (breakpointLines : List Breakpoint) :
    List AdapterBreakpoint → BreakpointCollection
  | [] => c
  | breakpointOut :: rest =>
    match breakpointLines.find? (fun b => some b.line == breakpointOut.line) with
    | some breakpoint =>
      resetPathLoop (c.setVerified breakpoint.index breakpointOut.verified) breakpointLines rest
    | none => resetPathLoop c breakpointLines rest

/-- The request list built by `_resetAllBreakpoints` for one path. -/
def resetRequest (breakpointLines : List Breakpoint) : List SourceBreakpoint :=
  breakpointLines.map (fun b => ⟨b.line, some false⟩)

/-- The handling of the responses in `_resetAllBreakpoints`, path by path: the
registry afterwards and the first rejection, if any. -/
def resetResponses (session : VsDebugSession) (c : BreakpointCollection) :
    List (String × List Breakpoint) → BreakpointCollection × Option Err
  | [] => (c, none)
  | (path, breakpointLines) :: rest =>
    match session.setBreakpoints path (resetRequest breakpointLines) with
    | .ok breakpointsOut =>
      resetResponses session (resetPathLoop c breakpointLines breakpointsOut) rest
    | .error e =>
      match resetResponses session c rest with
      | (c2, _) => (c2, some e)

/-- The bulk push `_resetAllBreakpoints()`.  Each callback of the `map` runs up
to its request, so the requests go out in path order before any response is
handled; `Promise.all` rejects with a rejection of one of the requests. -/
def _resetAllBreakpoints (d : Debugger) : Debugger × Except Err Unit :=
  match d._ensureDebugSession false with
  | .error e => (d, .error e)
  | .ok session =>
    let sourceBreakpoints := d.breakpoints.getAllEnabledBreakpointsByPath
    let d1 : Debugger :=
      { d with requests := d.requests ++
          sourceBreakpoints.map (fun pb => Request.setBreakpoints pb.1 (resetRequest pb.2)) }
    match resetResponses session d1.breakpoints sourceBreakpoints with
    | (c, none) => ({ d1 with breakpoints := c }, .ok ())
    | (c, some e) => ({ d1 with breakpoints := c }, .error e)

/-! ### Breakpoint operations -/

/-- The type `BreakpointSetResult` of `DebuggerInterface.js`. -/
structure BreakpointSetResult where
  index : Nat
  message : Option String
  deriving DecidableEq, Repr

/-- The operation `setSourceBreakpoint(path, line)`. -/
def setSourceBreakpoint (d : Debugger) (path : String) (line : Nat) :
    Debugger × Except Err BreakpointSetResult :=
  match d._ensureDebugSession true with
  | .error e => (d, .error e)
  | .ok session =>
    let index := (d.breakpoints.addSourceBreakpoint path line).1
    let d1 : Debugger := { d with breakpoints := (d.breakpoints.addSourceBreakpoint path line).2 }
    if d1.state ≠ .CONFIGURING then
      match d1._setSourceBreakpointsForPath session path index with
      | (d2, .ok breakpoint) => (d2, .ok ⟨index, breakpoint.bind (fun b => b.message)⟩)
      | (d2, .error e) => (d2, .error e)
    else (d1, .ok ⟨index, some "Breakpoint pending until program starts."⟩)

/-- The operation `getAllBreakpoints()`. -/
def getAllBreakpoints (d : Debugger) : List Breakpoint := d.breakpoints.getAllBreakpoints

/-- The operation `getBreakpointByIndex(index)`. -/
def getBreakpointByIndex (d : Debugger) (index : Nat) : Except Err Breakpoint :=
  d.breakpoints.getBreakpointByIndex index

/-- The operation `setBreakpointEnabled(index, enabled)`. -/
def setBreakpointEnabled (d : Debugger) (index : Nat) (enabled : Bool) :
    Debugger × Except Err Unit :=
  match d._ensureDebugSession false with
  | .error e => (d, .error e)
  | .ok session =>
    match d.breakpoints.getBreakpointByIndex index with
    | .error e => (d, .error e)
    | .ok breakpoint =>
      if breakpoint.enabled = enabled then (d, .ok ())
      else
        let d1 : Debugger := { d with breakpoints := d.breakpoints.setEnabled index enabled }
        match breakpoint.path with
        | some path =>
          match d1._setSourceBreakpointsForPath session path index with
          | (d2, .ok _) => (d2, .ok ())
          | (d2, .error error) =>
            ({ d2 with breakpoints := d2.breakpoints.setEnabled index (!enabled) }, .error error)
        | none => (d1, .ok ())

/-- The operation `deleteBreakpoint(index)`. -/
def deleteBreakpoint (d : Debugger) (index : Nat) : Debugger × Except Err Unit :=
  match d._ensureDebugSession false with
  | .error e => (d, .error e)
  | .ok session =>
    match d.breakpoints.getBreakpointByIndex index with
    | .error e => (d, .error e)
    | .ok breakpoint =>
      let d1 : Debugger := { d with breakpoints := d.breakpoints.deleteBreakpoint index }
      match breakpoint.path with
      | some path =>
        let pathBreakpoints := d1.breakpoints.getAllEnabledBreakpointsForSource path
        let request : List SourceBreakpoint := pathBreakpoints.map (fun x => ⟨x.line, none⟩)
        match session.setBreakpoints path request with
        | .ok _ => (d1.send (.setBreakpoints path request), .ok ())
        | .error e => (d1.send (.setBreakpoints path request), .error e)
      | none => (d1, .ok ())

/-! ### Threads, stack frames and variables -/

/-- The operation `getThreads()`. -/
def getThreads (d : Debugger) : Debugger × Except Err ThreadCollection :=
  match d._ensureDebugSession false with
  | .error e => (d, .error e)
  | .ok _ => (d, .ok d.threads)

/-- The operation `getActiveThread()`. -/
def getActiveThread (d : Debugger) : Debugger × Except Err Thread :=
  match d._ensureDebugSession false with
  | .error e => (d, .error e)
  | .ok _ =>
    match d.threads.focusThread with
    | some t => (d, .ok t)
    | none => (d, .error .nullthrows)

/-- The operation `getStackTrace(thread, levels)`. -/
def getStackTrace (d : Debugger) (thread : Nat) (levels : Nat) :
    Debugger × Except Err (List StackFrame) :=
  match d._ensureDebugSession false with
  | .error e => (d, .error e)
  | .ok session =>
    match session.stackTrace thread levels with
    | .ok stackFrames => (d.send (.stackTrace thread levels), .ok stackFrames)
    | .error e => (d.send (.stackTrace thread levels), .error e)

/-- The operation `setSelectedStackFrame(thread, frameIndex)`; the thread object
is identified by its id. -/
def setSelectedStackFrame (d : Debugger) (thread : Thread) (frameIndex : Nat) :
    Debugger × Except Err Unit :=
  match d.getStackTrace thread.id (frameIndex + 1) with
  | (d1, .error e) => (d1, .error e)
  | (d1, .ok frames) =>
    match frames[frameIndex]? with
    | none =>
      (d1, .error (.error ("There are only " ++ toString frames.length ++
        " frames in the thread's stack trace.")))
    | some _ =>
      let threads := d1.threads.modify thread.id (fun t => t.setSelectedStackFrame frameIndex)
      ({ d1 with threads := threads }, .ok ())

/-- The operation `getCurrentStackFrame()`. -/
def getCurrentStackFrame (d : Debugger) : Debugger × Except Err (Option StackFrame) :=
  match d._ensureDebugSession false with
  | .error e => (d, .error e)
  | .ok _ =>
    match d.getActiveThread with
    | (d1, .error e) => (d1, .error e)
    | (d1, .ok thread) =>
      match d1.getStackTrace thread.id (thread.selectedStackFrameIndex + 1) with
      | (d2, .error e) => (d2, .error e)
      | (d2, .ok frames) => (d2, .ok frames[thread.selectedStackFrameIndex]?)

/-- The shared shape of `stepIn`, `stepOver` and `continue`: the guard, then the
focus thread, then the request. -/
def threadRequest (d : Debugger) (mk : Nat → Request)
    (call : VsDebugSession → Nat → Except Err Unit) : Debugger × Except Err Unit :=
  match d._ensureDebugSession false with
  | .error e => (d, .error e)
  | .ok session =>
    match d.getActiveThread with
    | (d1, .error e) => (d1, .error e)
    | (d1, .ok thread) =>
      match call session thread.id with
      | .ok _ => (d1.send (mk thread.id), .ok ())
      | .error e => (d1.send (mk thread.id), .error e)

/-- The operation `stepIn()`. -/
def stepIn (d : Debugger) : Debugger × Except Err Unit :=
  d.threadRequest Request.stepIn (fun session => session.stepIn)

/-- The operation `stepOver()`. -/
def stepOver (d : Debugger) : Debugger × Except Err Unit :=
  d.threadRequest Request.next (fun session => session.next)

/-- The operation `continue()`. -/
def «continue» (d : Debugger) : Debugger × Except Err Unit :=
  d.threadRequest Request.continueReq (fun session => session.continueReq)

/-- The helper `_stackFrameId(stack, depth)`. -/
def _stackFrameId (stack : List StackFrame) (depth : Nat) : Option Nat :=
  stack[depth]?.map (fun f => f.id)

/-- The type `VariablesInScope` of `DebuggerInterface.js`; its optional field
`variables` is `variableList` here. -/
structure VariablesInScope where
  expensive : Bool
  scopeName : String
  variableList : Option (List Variable)
  deriving DecidableEq, Repr

/-- The requests `session.variables(...)` of `getVariables`, one per queried
scope, all sent before any response is awaited: the pairs
`[variablesReference, variables]`, or a rejection. -/
def fetchVariables (session : VsDebugSession) :
    List Scope → Except Err (List (Nat × List Variable))
  | [] => .ok []
  | scope :: rest =>
    match session.variablesReq scope.variablesReference, fetchVariables session rest with
    | .ok vars, .ok results => .ok ((scope.variablesReference, vars) :: results)
    | .error e, _ => .error e
    | .ok _, .error e => .error e

/-- The lookup `resultsByVarRef.get(ref)` in `new Map(results)`: of two entries
with the same key the later one stands. -/
def mapGet (results : List (Nat × List Variable)) (ref : Nat) : Option (List Variable) :=
  results.reverse.lookup ref

/-- The operation `getVariables(selectedScope)`. -/
def getVariables (d : Debugger) (selectedScope : Option String) :
    Debugger × Except Err (List VariablesInScope) :=
  match d._ensureDebugSession false with
  | .error e => (d, .error e)
  | .ok session =>
    match d.getActiveThread with
    | (d1, .error e) => (d1, .error e)
    | (d1, .ok activeThread) =>
      match d1.getStackTrace activeThread.id (activeThread.selectedStackFrameIndex + 1) with
      | (d2, .error e) => (d2, .error e)
      | (d2, .ok stack) =>
        match _stackFrameId stack activeThread.selectedStackFrameIndex with
        | none => (d2, .ok [])
        | some frameId =>
          match session.scopes frameId with
          | .error e => (d2.send (.scopes frameId), .error e)
          | .ok scopes =>
            let d3 := d2.send (.scopes frameId)
            let selected : Except Err (List Scope) :=
              match selectedScope with
              | some name =>
                if (scopes.filter (fun scope => scope.name == name)).length = 0 then
                  .error (.error ("There is no scope named '" ++ name ++
                    "' in the current context."))
                else .ok (scopes.filter (fun scope => scope.name == name))
              | none => .ok (scopes.filter (fun scope => !scope.expensive))
            match selected with
            | .error e => (d3, .error e)
            | .ok queries =>
              let d4 : Debugger :=
                { d3 with requests := d3.requests ++
                    queries.map (fun scope => Request.variablesReq scope.variablesReference) }
              match fetchVariables session queries with
              | .error e => (d4, .error e)
              | .ok results =>
                (d4, .ok (scopes.map (fun scope =>
                  { expensive := scope.expensive, scopeName := scope.name,
                    variableList := mapGet results scope.variablesReference })))

/-- The operation `evaluateExpression(expression)`. -/
def evaluateExpression (d : Debugger) (expression : String) : Debugger × Except Err String :=
  match d._ensureDebugSession false with
  | .error e => (d, .error e)
  | .ok session =>
    match d.getCurrentStackFrame with
    | (d1, .error e) => (d1, .error e)
    | (d1, .ok frame) =>
      let frameId := frame.map (fun f => f.id)
      match session.evaluate expression frameId with
      | .ok r => (d1.send (.evaluate expression frameId), .ok r)
      | .error e => (d1.send (.evaluate expression frameId), .error e)

/-- The operation `breakInto()`; the pause request is not awaited. -/
def breakInto (d : Debugger) : Debugger × Except Err Unit :=
  match (match d.threads.focusThread with
         | some t => some t
         | none => d.threads.allThreads[0]?) with
  | none => (d, .ok ())
  | some thread =>
    match d._ensureDebugSession false with
    | .error e => (d, .error e)
    | .ok _ => (d.send (.pause thread.id), .ok ())

/-! ### Source lines -/

/-- The method `Array.prototype.slice(begin, end)` on integer arguments: a
negative argument counts from the end, both are clamped to the array. -/
def jsSlice {α : Type} (xs : List α) (b e : Int) : List α :=
  let n : Int := xs.length
  let k : Int := if b < 0 then max (n + b) 0 else min b n
  let f : Int := if e < 0 then max (n + e) 0 else min e n
  (xs.drop k.toNat).take (f - k).toNat

/-- The fetcher `_getSourceByReference(sourceReference)`. -/
def _getSourceByReference (d : Debugger) (sourceReference : Nat) : Debugger × Except Err String :=
  match d._ensureDebugSession false with
  | .error e => (d, .error e)
  | .ok session =>
    match session.source sourceReference with
    | .ok content => (d.send (.source sourceReference), .ok content)
    | .error e => (d.send (.source sourceReference), .error e)

/-- Modelled from the spec: `getFileDataBySourceReference(ref)` of the source
cache (not among the sources): a hit returns the memoized lines, a miss invokes
the fetcher, splits the result into lines, memoizes and returns them. -/
def getFileDataBySourceReference (d : Debugger) (ref : Nat) :
    Debugger × Except Err (List String) :=
  match d.sourceFiles.byReference.lookup ref with
  | some lines => (d, .ok lines)
  | none =>
    match d._getSourceByReference ref with
    | (d1, .error e) => (d1, .error e)
    | (d1, .ok content) =>
      ({ d1 with sourceFiles :=
          { d1.sourceFiles with
            byReference := (ref, content.splitOn "\n") :: d1.sourceFiles.byReference } },
        .ok (content.splitOn "\n"))

/-- Modelled from the spec: `getFileDataByPath(path)` of the source cache (not
among the sources): as by reference, the fetcher reading the local
filesystem. -/
def getFileDataByPath (d : Debugger) (path : String) : Debugger × Except Err (List String) :=
  match d.sourceFiles.byPath.lookup path with
  | some lines => (d, .ok lines)
  | none =>
    match d.sourceFiles.readFile path with
    | .error e => (d, .error e)
    | .ok content =>
      ({ d with sourceFiles :=
          { d.sourceFiles with byPath := (path, content.splitOn "\n") :: d.sourceFiles.byPath } },
        .ok (content.splitOn "\n"))

/-- The first half of `getSourceLines`: the lines of the source, by reference
when a non-zero reference is present, else by path, else none. -/
def sourceText (d : Debugger) (source : Source) : Debugger × Except Err (List String) :=
  match source.sourceReference with
  | some (sourceReference + 1) => d.getFileDataBySourceReference (sourceReference + 1)
  | _ =>
    match source.path with
    | some path => d.getFileDataByPath path
    | none => (d, .ok [])

/-- The operation `getSourceLines(source, start, length)`. -/
def getSourceLines (d : Debugger) (source : Source) (start length : Int) :
    Debugger × Except Err (List String) :=
  match d.sourceText source with
  | (d1, .error e) => (d1, .error e)
  | (d1, .ok lines) =>
    if start > (lines.length : Int) then (d1, .ok [])
    else (d1, .ok (jsSlice lines (start - 1) (min (start + length - 1) (lines.length : Int))))

/-! ### Session lifecycle -/

/-- The method `_cacheThreads()`. -/
def _cacheThreads (d : Debugger) : Debugger × Except Err Unit :=
  match d.debugSession with
  | none => (d, .error .invariant)
  | some session =>
    match session.threads with
    | .error e => (d.send .threads, .error e)
    | .ok body =>
      let threads := (body.getD []).map (fun t => Thread.new t.id t.name)
      ({ d.send .threads with threads := (d.send .threads).threads.updateThreads threads },
        .ok ())

/-- The method `_configurationDone()`.  The call of `_cacheThreads()` is not
awaited, so its outcome is dropped. -/
def _configurationDone (d : Debugger) : Debugger × Except Err Unit :=
  match d._ensureDebugSession true with
  | .error e => (d, .error e)
  | .ok session =>
    let d1 : Debugger := { d with state := .RUNNING }
    match d1._resetAllBreakpoints with
    | (d2, .error e) => (d2, .error e)
    | (d2, .ok _) =>
      match session.setExceptionBreakpoints [] with
      | .error e => (d2.send (.setExceptionBreakpoints []), .error e)
      | .ok _ =>
        let d3 := d2.send (.setExceptionBreakpoints [])
        match d3.capabilities with
        | none => (d3, .error .invariant)
        | some capabilities =>
          let step : Debugger × Except Err Unit :=
            if capabilities.supportsConfigurationDoneRequest then
              (d3.send .configurationDone, session.configurationDone)
            else (d3, .ok ())
          match step with
          | (d4, .error e) => (d4, .error e)
          | (d4, .ok _) =>
            let d5 := d4._cacheThreads.1
            ({ d5 with console := d5.console.stopInput }, .ok ())

/-- The operation `run()`. -/
def run (d : Debugger) : Debugger × Except Err Unit :=
  match d.adapter with
  | none => (d, .error (.error "There is nothing to run, or already attached to a process."))
  | some adapter =>
    if d.state ≠ .CONFIGURING ∨ adapter.action ≠ .launch then
      (d, .error (.error "There is nothing to run, or already attached to a process."))
    else d._configurationDone

/-- The operation `closeSession()`. -/
def closeSession (d : Debugger) : Debugger × Except Err Unit :=
  match d.debugSession with
  | none => (d, .ok ())
  | some session =>
    match session.disconnect with
    | .error e => (d.send .disconnect, .error e)
    | .ok _ =>
      ({ d.send .disconnect with
          threads := ThreadCollection.empty, debugSession := none, activeThread := none,
          sourceFiles := d.sourceFiles.flush }, .ok ())

/-- The operation `createSession(adapterInfo)`; the new channel is the one the
adapter description stands for. -/
def createSession (d : Debugger) (adapterInfo : VsDebugSession) : Debugger × Except Err Unit :=
  let d1 : Debugger :=
    { d with console := d.console.stopInput, threads := ThreadCollection.empty,
             debugSession := some adapterInfo }
  match adapterInfo.initializeReq with
  | .error e => (d1.send .initializeReq, .error e)
  | .ok body => ({ d1.send .initializeReq with capabilities := some body }, .ok ())

/-- The operation `relaunch()`. -/
def relaunch (d : Debugger) : Debugger × Except Err Unit :=
  match d.adapter with
  | none => (d, .error (.error "There is nothing to relaunch."))
  | some adapter =>
    let d1 : Debugger := { d with state := .INITIALIZING }
    match d1.closeSession with
    | (d2, .error e) => (d2, .error e)
    | (d2, .ok _) =>
      match d2.createSession adapter.adapterInfo with
      | (d3, .error e) => (d3, .error e)
      | (d3, .ok _) =>
        match adapter.action with
        | .attach =>
          match adapter.attachArgs with
          | none => (d3, .error .invariant)
          | some _ =>
            match d3._ensureDebugSession true with
            | .error e => (d3, .error e)
            | .ok session => (d3.send .attach, session.attach)
        | .launch =>
          match adapter.launchArgs with
          | none => (d3, .error .invariant)
          | some _ =>
            match d3._ensureDebugSession true with
            | .error e => (d3, .error e)
            | .ok session => (d3.send .launch, session.launch)

/-- The operation `launch(adapter)`. -/
def launch (d : Debugger) (adapter : ParsedVSAdapter) : Debugger × Except Err Unit :=
  relaunch { d with adapter := some adapter, breakpoints := BreakpointCollection.empty }

/-! ### Stop and continue events -/

end Debugger

/-- The body of the protocol's `ContinuedEvent`. -/
structure ContinuedEvent where
  threadId : Nat
  allThreadsContinued : Option Bool
  deriving DecidableEq, Repr

/-- The body of the protocol's `StoppedEvent`, as far as the engine reads it. -/
structure StoppedEvent where
  description : Option String
  threadId : Option Nat
  allThreadsStopped : Option Bool
  deriving DecidableEq, Repr

/-- The record returned by `_getTopOfStackSourceInfo`. -/
structure TopOfStack where
  line : String
  name : String
  frame : StackFrame
  deriving DecidableEq, Repr

namespace Debugger

/-- The handler `_onContinued(event)`. -/
def _onContinued (d : Debugger) (event : ContinuedEvent) : Debugger × Except Err Unit :=
  let marked : Except Err ThreadCollection :=
    if event.allThreadsContinued = some true then .ok d.threads.markAllThreadsRunning
    else d.threads.markThreadRunning event.threadId
  match marked with
  | .error e => (d, .error e)
  | .ok threads =>
    if threads.allThreadsRunning then
      ({ d with threads := threads, console := d.console.stopInput }, .ok ())
    else ({ d with threads := threads }, .ok ())

/-- The static helper `_sourceFromTopFrame(frames)`. -/
def _sourceFromTopFrame (frames : List StackFrame) : Option Source :=
  frames[0]?.bind (fun f => f.source)

/-- The method `_getTopOfStackSourceInfo(threadId)`. -/
def _getTopOfStackSourceInfo (d : Debugger) (threadId : Nat) :
    Debugger × Except Err (Option TopOfStack) :=
  match d.getStackTrace threadId 1 with
  | (d1, .error e) => (d1, .error e)
  | (d1, .ok frames) =>
    match frames[0]?, _sourceFromTopFrame frames with
    | some frame, some source =>
      match d1.getSourceLines source frame.line 1 with
      | (d2, .error e) => (d2, .error e)
      | (d2, .ok lines) =>
        match source.path, source.name with
        | some path, _ =>
          (d2, .ok (some ⟨lines.headD "", d2.sourceFiles.baseName path, frame⟩))
        | none, some name => (d2, .ok (some ⟨lines.headD "", name, frame⟩))
        | none, none => (d2, .ok none)
    | _, _ => (d1, .ok none)

/-- The status update at the head of `_onStopped`: `none` when the event names
no thread and does not claim that all threads stopped. -/
def stoppedThreads (threads : ThreadCollection) (event : StoppedEvent) :
    Option (Except Err ThreadCollection) :=
  if event.allThreadsStopped = some true then
    some (.ok { threads.markAllThreadsStopped with
      threads := threads.markAllThreadsStopped.threads.map Thread.clearSelectedStackFrame })
  else
    match event.threadId with
    | some threadId =>
      match threads.markThreadStopped threadId with
      | .error e => some (.error e)
      | .ok marked =>
        match marked.getThreadById threadId with
        | .error _ => some (.error .nullthrows)
        | .ok _ => some (.ok (marked.modify threadId Thread.clearSelectedStackFrame))
    | none => none

/-- The handler `_onStopped(event)`. -/
def _onStopped (d : Debugger) (event : StoppedEvent) : Debugger × Except Err Unit :=
  let d0 : Debugger :=
    match event.description with
    | some description => { d with console := d.console.outputLine description }
    | none => d
  let firstStop := d0.threads.allThreadsRunning
  match stoppedThreads d0.threads event with
  | none =>
    ({ d0 with console :=
        d0.console.outputLine "stop event with no thread information ignored." }, .ok ())
  | some (.error e) => (d0, .error e)
  | some (.ok stopped) =>
    if firstStop then
      let focused : Except Err ThreadCollection :=
        match event.threadId with
        | some threadId => .ok (stopped.setFocusThread threadId)
        | none =>
          match stopped.firstStoppedThread with
          | some firstStopped => .ok (stopped.setFocusThread firstStopped)
          | none => .error .invariant
      match focused with
      | .error e => ({ d0 with threads := stopped }, .error e)
      | .ok threads =>
        match threads.focusThreadId with
        | none => ({ d0 with threads := threads }, .error .nullthrows)
        | some focusThreadId =>
          match _getTopOfStackSourceInfo { d0 with threads := threads } focusThreadId with
          | (d3, .error e) => (d3, .error e)
          | (d3, .ok none) => ({ d3 with console := d3.console.startInput }, .ok ())
          | (d3, .ok (some topOfStack)) =>
            ({ d3 with console := (d3.console.outputLine
                (topOfStack.name ++ ":" ++ toString topOfStack.frame.line ++ " " ++
                  topOfStack.line)).startInput }, .ok ())
    else ({ d0 with threads := stopped }, .ok ())

end Debugger

/-! ### Lifecycle and breakpoint events -/

/-- The body of the protocol's `ExitedEvent`. -/
structure ExitedEvent where
  exitCode : Int
  deriving DecidableEq, Repr

/-- The body of the protocol's `BreakpointEvent`: the reason and the
breakpoint descriptor. -/
structure BreakpointEvent where
  reason : String
  breakpoint : AdapterBreakpoint
  deriving DecidableEq, Repr

namespace Debugger

/-- The handler `_onInitialized()`. -/
def _onInitialized (d : Debugger) : Debugger × Except Err Unit :=
  match d.adapter with
  | none => (d, .error .invariant)
  | some adapter =>
    if adapter.action = .attach then _configurationDone { d with state := .CONFIGURING }
    else ({ d with state := .CONFIGURING, console := d.console.startInput }, .ok ())

/-- The handler `_onExitedDebugee(event)`.  The call of `relaunch()` is not
awaited, so its outcome is dropped; `process.exit(0)` sets `hostExited`. -/
def _onExitedDebugee (d : Debugger) (event : ExitedEvent) : Debugger × Except Err Unit :=
  let d1 : Debugger :=
    { d with state := .TERMINATED,
             console := d.console.outputLine
               ("Target exited with status " ++ toString event.exitCode) }
  match d1.adapter with
  | none => (d1, .error .invariant)
  | some adapter =>
    if adapter.action = .launch then (d1.relaunch.1, .ok ())
    else ({ d1 with hostExited := true }, .ok ())

/-- The handler `_onTerminatedDebugee(event)`; the event carries nothing the
handler reads. -/
def _onTerminatedDebugee (d : Debugger) : Debugger × Except Err Unit :=
  if d.state ≠ .RUNNING then (d, .ok ())
  else
    let d1 : Debugger :=
      { d with state := .TERMINATED, console := d.console.outputLine "The target has exited." }
    match d1.adapter with
    | none => (d1, .error .invariant)
    | some adapter =>
      if adapter.action = .launch then (d1.relaunch.1, .ok ())
      else ({ d1 with hostExited := true }, .ok ())

/-- The handler `_onBreakpointEvent(event)`. -/
def _onBreakpointEvent (d : Debugger) (event : BreakpointEvent) : Debugger × Except Err Unit :=
  match event.breakpoint.id with
  | some id =>
    if event.reason = "new" ∨ event.reason = "changed" then
      match d.breakpoints.getBreakpointById id with
      | .ok breakpoint =>
        ({ d with breakpoints :=
            d.breakpoints.setVerified breakpoint.index event.breakpoint.verified }, .ok ())
      | .error _ =>
        ({ d with console := d.console.outputLine "Failed to verify breakpoint." }, .ok ())
    else (d, .ok ())
  | none => (d, .ok ())

end Debugger

open Debugger

/-! ## Auxiliary functions for the proofs -/

/-- What the loop body of the single-path push does to the debugger breakpoint
paired with descriptor `a`. -/
def updOf (a : AdapterBreakpoint) (x : Breakpoint) : Breakpoint :=
  match a.id with
  | some id => { x with adapterId := some id, verified := a.verified }
  | none => { x with verified := true }

/-- What the loop body of the single-path push does to the descriptor. -/
def descOf (a : AdapterBreakpoint) : AdapterBreakpoint :=
  match a.id with
  | some _ => a
  | none =>
    if !a.verified && (a.message == none || a.message == some "") then
      { a with message := some defaultBreakpointMessage }
    else a

/-- What the whole loop of the single-path push does to a registry entry. -/
def loopUpd : List (Breakpoint × Option AdapterBreakpoint) → Breakpoint → Breakpoint
  | [], x => x
  | (_, none) :: _, x => x
  | (b, some a) :: rest, x => loopUpd rest (if x.index = b.index then updOf a x else x)

/-! ## Concrete scenarios -/

/-- An adapter that gives `answer` to every set-breakpoints request and accepts
every other request with an empty body. -/
def adapterAnswering (answer : Except Err (List AdapterBreakpoint)) : VsDebugSession :=
  { initializeReq := .ok ⟨true⟩, launch := .ok (), attach := .ok (), disconnect := .ok (),
    setBreakpoints := fun _ _ => answer, setExceptionBreakpoints := fun _ => .ok (),
    configurationDone := .ok (), threads := .ok none, stackTrace := fun _ _ => .ok [],
    scopes := fun _ => .ok [], variablesReq := fun _ => .ok [], continueReq := fun _ => .ok (),
    next := fun _ => .ok (), stepIn := fun _ => .ok (), pause := fun _ => .ok (),
    evaluate := fun _ _ => .ok "", source := fun _ => .ok "" }

/-- The registry of the reconciliation scenario: two enabled breakpoints on
`/a.js`, at lines 10 and 20. -/
def scenarioRegistry : BreakpointCollection :=
  ((BreakpointCollection.empty.addSourceBreakpoint "/a.js" 10).2.addSourceBreakpoint "/a.js" 20).2

/-- The response of the reconciliation scenario:
`[{verified: true, id: 1, line: 10}, {verified: false, line: 20}]`. -/
def scenarioResponse : List AdapterBreakpoint :=
  [⟨some 1, true, none, some 10⟩, ⟨none, false, none, some 20⟩]

/-- An engine with the given session, state, breakpoints and threads, and
nothing else of note. -/
def engine (session : Option VsDebugSession) (state : SessionState)
    (breakpoints : BreakpointCollection) (threads : ThreadCollection) : Debugger :=
  { capabilities := some ⟨true⟩, console := ⟨false, []⟩, debugSession := session,
    activeThread := none, threads := threads,
    sourceFiles := ⟨[], [], fun _ => .error (.error "no such file"), fun p => p⟩,
    state := state, breakpoints := breakpoints, adapter := none, requests := [],
    hostExited := false }

/-- The engine of the reconciliation scenario: a running session whose adapter
answers with `scenarioResponse`. -/
def scenarioEngine : Debugger :=
  engine (some (adapterAnswering (.ok scenarioResponse))) .RUNNING scenarioRegistry
    ThreadCollection.empty

/-- The source of the source-lines scenario, resolved by path. -/
def fiveLineSource : Source := ⟨none, some "/five.js", none⟩

/-- The engine of the source-lines scenario: the cache holds five lines for
`/five.js`. -/
def fiveLineEngine : Debugger :=
  { scenarioEngine with
    sourceFiles := ⟨[], [("/five.js", ["one", "two", "three", "four", "five"])],
      fun _ => .error (.error "no such file"), fun p => p⟩ }

/-- The thread registry of the first-stop scenario: one running thread with
id 3. -/
def oneRunningThread : ThreadCollection := ⟨[Thread.new 3 "main"], none⟩

/-- The session-requiring operations named by the guard discipline all end in
state `d` with error `e`: nothing was sent and nothing changed. -/
def AllGuardedFail (d : Debugger) (e : Err) : Prop :=
  d.continue = (d, .error e) ∧ d.stepIn = (d, .error e) ∧ d.stepOver = (d, .error e) ∧
  (∀ thread levels, d.getStackTrace thread levels = (d, .error e)) ∧
  d.getCurrentStackFrame = (d, .error e) ∧
  (∀ selectedScope, d.getVariables selectedScope = (d, .error e)) ∧
  (∀ expression, d.evaluateExpression expression = (d, .error e)) ∧
  (∀ index enabled, d.setBreakpointEnabled index enabled = (d, .error e)) ∧
  (∀ index, d.deleteBreakpoint index = (d, .error e)) ∧
  d.getThreads = (d, .error e) ∧ d.getActiveThread = (d, .error e)

/-- The operations a user command can invoke on the engine: those of
`DebuggerInterface` that act on the engine, with `launch`, `breakInto` and
`closeSession`.  (`getAllBreakpoints` and `getBreakpointByIndex` only read the
registry.) -/
inductive Command where
  | run
  | relaunch
  | launch (adapter : ParsedVSAdapter)
  | closeSession
  | breakInto
  | getThreads
  | getActiveThread
  | stepIn
  | stepOver
  | «continue»
  | getStackTrace (thread levels : Nat)
  | setSelectedStackFrame (thread : Thread) (frameIndex : Nat)
  | getCurrentStackFrame
  | getVariables (selectedScope : Option String)
  | evaluateExpression (expression : String)
  | setSourceBreakpoint (path : String) (line : Nat)
  | setBreakpointEnabled (index : Nat) (enabled : Bool)
  | deleteBreakpoint (index : Nat)
  | getSourceLines (source : Source) (start length : Int)

/-- The engine state after a user command, whether it succeeded or threw. -/
def Command.exec (c : Command) (d : Debugger) : Debugger :=
  match c with
  | .run => d.run.1
  | .relaunch => d.relaunch.1
  | .launch adapter => (d.launch adapter).1
  | .closeSession => d.closeSession.1
  | .breakInto => d.breakInto.1
  | .getThreads => d.getThreads.1
  | .getActiveThread => d.getActiveThread.1
  | .stepIn => d.stepIn.1
  | .stepOver => d.stepOver.1
  | .continue => d.continue.1
  | .getStackTrace thread levels => (d.getStackTrace thread levels).1
  | .setSelectedStackFrame thread frameIndex => (d.setSelectedStackFrame thread frameIndex).1
  | .getCurrentStackFrame => d.getCurrentStackFrame.1
  | .getVariables selectedScope => (d.getVariables selectedScope).1
  | .evaluateExpression expression => (d.evaluateExpression expression).1
  | .setSourceBreakpoint path line => (d.setSourceBreakpoint path line).1
  | .setBreakpointEnabled index enabled => (d.setBreakpointEnabled index enabled).1
  | .deleteBreakpoint index => (d.deleteBreakpoint index).1
  | .getSourceLines source start length => (d.getSourceLines source start length).1

/-- An adapter description with the given action, whose channel accepts every
request. -/
def adapterFor (action : Action) : ParsedVSAdapter :=
  ⟨action, adapterAnswering (.ok []), some "attach arguments", some "launch arguments"⟩

/-- An engine started from the adapter description `adapter`, with its channel
as the session, in the given state and with the given threads. -/
def engineFor (adapter : ParsedVSAdapter) (state : SessionState)
    (threads : ThreadCollection) : Debugger :=
  { engine (some adapter.adapterInfo) state scenarioRegistry threads with
    adapter := some adapter }

/-- The requests of the CONFIGURING -> RUNNING step, in the order in which a
complete run of `_configurationDone` sends them. -/
def configurationDoneRequests (d : Debugger) : List Request :=
  d.breakpoints.getAllEnabledBreakpointsByPath.map
      (fun pb => Request.setBreakpoints pb.1 (resetRequest pb.2)) ++
    [Request.setExceptionBreakpoints []] ++
    (if d.capabilities.map (fun c => c.supportsConfigurationDoneRequest) = some true then
      [Request.configurationDone] else []) ++
    [Request.threads]

/-- The scopes `getVariables` queries: those with the requested name when a
name is given, otherwise those that are not expensive. -/
def selectedScopes (scopes : List Scope) (selectedScope : Option String) : List Scope :=
  match selectedScope with
  | some name => scopes.filter (fun scope => scope.name == name)
  | none => scopes.filter (fun scope => !scope.expensive)

/-- The message of the error `getVariables` raises for an unknown scope name. -/
def noScopeMessage (name : String) : String :=
  "There is no scope named '" ++ name ++ "' in the current context."

/-- An adapter for the variables scenario: every thread has the single frame
1000, whose scopes are a cheap `Locals` (reference 1) and an expensive
`Globals` (reference 2); a variables request is answered with the variable
`x` for reference 1 and the variable `g` for any other reference. -/
def scopesAdapter : VsDebugSession :=
  { adapterAnswering (.ok []) with
    stackTrace := fun _ _ => .ok [⟨1000, "main", none, 1⟩],
    scopes := fun _ => .ok [⟨"Locals", 1, false⟩, ⟨"Globals", 2, true⟩],
    variablesReq := fun ref => .ok [if ref = 1 then ⟨"x", "0"⟩ else ⟨"g", "1"⟩] }

/-- The engine of the variables scenario: thread 3 is stopped and focused. -/
def scopesEngine : Debugger :=
  engine (some scopesAdapter) .RUNNING scenarioRegistry ⟨[⟨3, "main", false, none⟩], some 3⟩

/-- An adapter that accepts every request except set-exception-breakpoints,
which it rejects. -/
def adapterRejectingExceptionBreakpoints : VsDebugSession :=
  { adapterAnswering (.ok []) with
    setExceptionBreakpoints := fun _ => .error (.error "rejected") }

/-- An engine at the prompt before the program runs: state CONFIGURING, the
input loop open, the two breakpoints of `/a.js` in the registry, and the
capability `supportsConfigurationDoneRequest` declared. -/
def promptEngine (session : VsDebugSession) : Debugger :=
  { engine (some session) .CONFIGURING scenarioRegistry oneRunningThread with
    console := ⟨true, []⟩ }

/-- An adapter that accepts every request except the stack-trace request, which
it rejects. -/
def adapterRejectingStackTrace : VsDebugSession :=
  { adapterAnswering (.ok scenarioResponse) with
    stackTrace := fun _ _ => .error (.error "rejected") }

/-- An adapter whose stack traces have the single frame 1000, at line 7 of the
source `/missing.js`; the engines of the scenarios cannot read that file. -/
def adapterWithMissingSource : VsDebugSession :=
  { adapterAnswering (.ok scenarioResponse) with
    stackTrace := fun _ _ => .ok [⟨1000, "main", some ⟨none, some "/missing.js", none⟩, 7⟩] }

/-! ## Lemmas on the reconciliation loop -/

theorem updOf_frame (a : AdapterBreakpoint) (x : Breakpoint) :
    (updOf a x).index = x.index ∧ (updOf a x).path = x.path ∧ (updOf a x).line = x.line ∧
      (updOf a x).enabled = x.enabled ∧ (updOf a x).message = x.message := by
  unfold updOf; cases a.id <;> simp

theorem loopUpd_frame (ps : List (Breakpoint × Option AdapterBreakpoint)) (x : Breakpoint) :
    (loopUpd ps x).index = x.index ∧ (loopUpd ps x).path = x.path ∧
      (loopUpd ps x).line = x.line ∧ (loopUpd ps x).enabled = x.enabled ∧
      (loopUpd ps x).message = x.message := by
  induction ps generalizing x with
  | nil => simp [loopUpd]
  | cons p rest ih =>
    obtain ⟨b, oa⟩ := p
    cases oa with
    | none => simp [loopUpd]
    | some a =>
      simp only [loopUpd]
      by_cases h : x.index = b.index
      · rw [if_pos h]
        obtain ⟨h1, h2, h3, h4, h5⟩ := ih (updOf a x)
        obtain ⟨g1, g2, g3, g4, g5⟩ := updOf_frame a x
        exact ⟨h1.trans g1, h2.trans g2, h3.trans g3, h4.trans g4, h5.trans g5⟩
      · rw [if_neg h]; exact ih x

theorem loopUpd_of_not_mem (ps : List (Breakpoint × Option AdapterBreakpoint)) (x : Breakpoint)
    (h : ∀ p ∈ ps, p.1.index ≠ x.index) : loopUpd ps x = x := by
  induction ps generalizing x with
  | nil => rfl
  | cons p rest ih =>
    obtain ⟨b, oa⟩ := p
    cases oa with
    | none => rfl
    | some a =>
      have hb : x.index ≠ b.index := fun e => h (b, some a) (List.mem_cons_self _ _) e.symm
      simp only [loopUpd, if_neg hb]
      exact ih x (fun p hp => h p (List.mem_cons_of_mem _ hp))

theorem mem_pairByPosition_fst (bs : List Breakpoint) (as : List AdapterBreakpoint)
    (p : Breakpoint × Option AdapterBreakpoint) (hp : p ∈ pairByPosition bs as) : p.1 ∈ bs := by
  induction bs generalizing as with
  | nil => simp [pairByPosition] at hp
  | cons b bs ih =>
    cases as with
    | nil =>
      simp only [pairByPosition, List.mem_cons] at hp
      rcases hp with rfl | hp
      · simp
      · exact List.mem_cons_of_mem _ (ih [] hp)
    | cons a as =>
      simp only [pairByPosition, List.mem_cons] at hp
      rcases hp with rfl | hp
      · simp
      · exact List.mem_cons_of_mem _ (ih as hp)

theorem loopUpd_pairByPosition (bs : List Breakpoint) (as : List AdapterBreakpoint) (i : Nat)
    (b : Breakpoint) (a : AdapterBreakpoint) (x : Breakpoint)
    (hnd : (bs.map (fun b => b.index)).Nodup) (hb : bs[i]? = some b) (ha : as[i]? = some a)
    (hx : x.index = b.index) : loopUpd (pairByPosition bs as) x = updOf a x := by
  induction bs generalizing as i with
  | nil => simp at hb
  | cons b0 bs ih =>
    cases as with
    | nil => simp at ha
    | cons a0 as =>
      rw [List.map_cons, List.nodup_cons] at hnd
      cases i with
      | zero =>
        simp only [List.getElem?_cons_zero, Option.some.injEq] at hb ha
        subst hb; subst ha
        simp only [pairByPosition, loopUpd, if_pos hx]
        apply loopUpd_of_not_mem
        intro p hp e
        apply hnd.1
        rw [(updOf_frame a0 x).1, hx] at e
        rw [← e]
        exact List.mem_map_of_mem _ (mem_pairByPosition_fst bs as p hp)
      | succ i =>
        simp only [List.getElem?_cons_succ] at hb ha
        have hne : x.index ≠ b0.index := by
          intro e
          apply hnd.1
          rw [← e, hx]
          exact List.mem_map_of_mem _ (List.getElem?_mem hb)
        simp only [pairByPosition, loopUpd, if_neg hne]
        exact ih as i hnd.2 hb ha

theorem reconcilePair_fst (c : BreakpointCollection) (b : Breakpoint) (a : AdapterBreakpoint) :
    (reconcilePair c b a).1 = c.modify b.index (updOf a) := by
  unfold reconcilePair updOf
  cases h : a.id with
  | none =>
    simp only [BreakpointCollection.setVerified]
    split <;> rfl
  | some id =>
    simp only [BreakpointCollection.setVerified, BreakpointCollection.setId,
      BreakpointCollection.modify, List.map_map]
    congr 1
    apply List.map_congr_left
    intro x _
    by_cases hx : x.index = b.index <;> simp [hx]

theorem reconcilePair_snd (c : BreakpointCollection) (b : Breakpoint) (a : AdapterBreakpoint) :
    (reconcilePair c b a).2 = descOf a := by
  unfold reconcilePair descOf
  cases h : a.id with
  | none => simp only; split <;> rfl
  | some id => rfl

theorem reconcileLoop_fst (c : BreakpointCollection)
    (ps : List (Breakpoint × Option AdapterBreakpoint)) :
    (reconcileLoop c ps).1 = { c with breakpoints := c.breakpoints.map (loopUpd ps) } := by
  induction ps generalizing c with
  | nil => simp [reconcileLoop, loopUpd]
  | cons p rest ih =>
    obtain ⟨b, oa⟩ := p
    cases oa with
    | none => simp [reconcileLoop, loopUpd]
    | some a =>
      have h := ih (reconcilePair c b a).1
      simp only [reconcileLoop]
      split
      · rename_i c2 ps2 heq
        rw [heq] at h
        simp only at h
        rw [h, reconcilePair_fst]
        simp [BreakpointCollection.modify, loopUpd, Function.comp_def]
      · rename_i c2 e heq
        rw [heq] at h
        simp only at h
        rw [h, reconcilePair_fst]
        simp [BreakpointCollection.modify, loopUpd, Function.comp_def]

theorem reconcileLoop_snd (c : BreakpointCollection) (bs : List Breakpoint)
    (as : List AdapterBreakpoint) (h : bs.length ≤ as.length) :
    (reconcileLoop c (pairByPosition bs as)).2 =
      .ok (List.zipWith (fun b a => (b, descOf a)) bs as) := by
  induction bs generalizing as c with
  | nil => simp [pairByPosition, reconcileLoop]
  | cons b bs ih =>
    cases as with
    | nil => simp at h
    | cons a as =>
      have hl : bs.length ≤ as.length := by simpa using h
      have h2 := ih (reconcilePair c b a).1 as hl
      simp only [pairByPosition, reconcileLoop]
      split
      · rename_i c2 ps2 heq
        rw [heq] at h2
        simp only [Except.ok.injEq] at h2
        simp [h2, reconcilePair_snd]
      · rename_i c2 e heq
        rw [heq] at h2
        simp at h2

theorem find_zipWith_index (bs : List Breakpoint) (as : List AdapterBreakpoint) (i : Nat)
    (b : Breakpoint) (a : AdapterBreakpoint) (hnd : (bs.map (fun b => b.index)).Nodup)
    (hb : bs[i]? = some b) (ha : as[i]? = some a) :
    (List.zipWith (fun b a => (b, descOf a)) bs as).find? (fun p => p.1.index == b.index) =
      some (b, descOf a) := by
  induction bs generalizing as i with
  | nil => simp at hb
  | cons b0 bs ih =>
    cases as with
    | nil => simp at ha
    | cons a0 as =>
      rw [List.map_cons, List.nodup_cons] at hnd
      cases i with
      | zero =>
        simp only [List.getElem?_cons_zero, Option.some.injEq] at hb ha
        subst hb; subst ha
        simp
      | succ i =>
        simp only [List.getElem?_cons_succ] at hb ha
        have hne : ¬ b0.index = b.index := by
          intro e
          apply hnd.1
          rw [e]
          exact List.mem_map_of_mem _ (List.getElem?_mem hb)
        have hne2 : (b0.index == b.index) = false := by simpa using hne
        simp only [List.zipWith_cons_cons, List.find?_cons, hne2]
        exact ih as i hnd.2 hb ha

theorem enabled_map_loopUpd (l : List Breakpoint) (path : String)
    (ps : List (Breakpoint × Option AdapterBreakpoint)) :
    (l.map (loopUpd ps)).filter (fun b => b.path == some path && b.enabled) =
      (l.filter (fun b => b.path == some path && b.enabled)).map (loopUpd ps) := by
  rw [List.filter_map]
  congr 1
  apply List.filter_congr
  intro x _
  obtain ⟨_, h2, _, h4, _⟩ := loopUpd_frame ps x
  simp [Function.comp, h2, h4]

theorem enabled_nodup (c : BreakpointCollection) (path : String) (hwf : c.WF) :
    ((c.getAllEnabledBreakpointsForSource path).map (fun b => b.index)).Nodup := by
  unfold BreakpointCollection.getAllEnabledBreakpointsForSource
  exact List.Nodup.sublist (List.Sublist.map _ (List.filter_sublist _)) hwf.1

/-- The registry after the single-path push when the adapter answers `resp`,
whether or not the loop then runs to its end. -/
theorem setSourceBreakpointsForPath_registry (d : Debugger) (session : VsDebugSession)
    (path : String) (indexOfInterest : Nat) (resp : List AdapterBreakpoint)
    (hresp : session.setBreakpoints path
      ((d.breakpoints.getAllEnabledBreakpointsForSource path).map (fun x => ⟨x.line, none⟩)) =
        .ok resp) :
    (d._setSourceBreakpointsForPath session path indexOfInterest).1.breakpoints =
      ⟨d.breakpoints.breakpoints.map
          (loopUpd (pairByPosition (d.breakpoints.getAllEnabledBreakpointsForSource path) resp)),
        d.breakpoints.nextIndex⟩ := by
  have h := reconcileLoop_fst d.breakpoints
    (pairByPosition (d.breakpoints.getAllEnabledBreakpointsForSource path) resp)
  simp only [_setSourceBreakpointsForPath, hresp, send]
  split
  · rename_i c e heq
    rw [heq] at h
    exact h
  · rename_i c ps heq
    rw [heq] at h
    exact h

/-- The enabled breakpoints of the path after the single-path push, position
by position. -/
theorem setSourceBreakpointsForPath_enabled (d : Debugger) (session : VsDebugSession)
    (path : String) (indexOfInterest i : Nat) (resp : List AdapterBreakpoint)
    (b : Breakpoint) (a : AdapterBreakpoint) (hwf : d.breakpoints.WF)
    (hresp : session.setBreakpoints path
      ((d.breakpoints.getAllEnabledBreakpointsForSource path).map (fun x => ⟨x.line, none⟩)) =
        .ok resp)
    (hb : (d.breakpoints.getAllEnabledBreakpointsForSource path)[i]? = some b)
    (ha : resp[i]? = some a) :
    ((d._setSourceBreakpointsForPath session path
        indexOfInterest).1.breakpoints.getAllEnabledBreakpointsForSource path)[i]? =
      some (updOf a b) := by
  rw [setSourceBreakpointsForPath_registry d session path indexOfInterest resp hresp]
  unfold BreakpointCollection.getAllEnabledBreakpointsForSource at hb ⊢
  simp only
  rw [enabled_map_loopUpd, List.getElem?_map, hb, Option.map_some']
  congr 1
  exact loopUpd_pairByPosition _ resp i b a b (enabled_nodup d.breakpoints path hwf) hb ha rfl

/-- The value returned by the single-path push when the response has a
descriptor for every requested breakpoint. -/
theorem setSourceBreakpointsForPath_result (d : Debugger) (session : VsDebugSession)
    (path : String) (indexOfInterest : Nat) (resp : List AdapterBreakpoint)
    (hresp : session.setBreakpoints path
      ((d.breakpoints.getAllEnabledBreakpointsForSource path).map (fun x => ⟨x.line, none⟩)) =
        .ok resp)
    (hlen : (d.breakpoints.getAllEnabledBreakpointsForSource path).length ≤ resp.length) :
    (d._setSourceBreakpointsForPath session path indexOfInterest).2 =
      .ok (((List.zipWith (fun b a => (b, descOf a))
        (d.breakpoints.getAllEnabledBreakpointsForSource path) resp).find?
          (fun p => p.1.index == indexOfInterest)).map (fun p => p.2)) := by
  have h := reconcileLoop_snd d.breakpoints
    (d.breakpoints.getAllEnabledBreakpointsForSource path) resp hlen
  simp only [_setSourceBreakpointsForPath, hresp, send]
  split
  · rename_i c e heq
    rw [heq] at h
    simp at h
  · rename_i c ps heq
    rw [heq] at h
    simp only [Except.ok.injEq] at h
    rw [h]

/-! ## Lemmas on the guard and on registry lookups -/

theorem ensureDebugSession_running (d : Debugger) (session : VsDebugSession)
    (hs : d.debugSession = some session)
    (hst : d.state ≠ .INITIALIZING ∧ d.state ≠ .CONFIGURING) :
    d._ensureDebugSession false = .ok session := by
  simp [_ensureDebugSession, hs, hst.1, hst.2]

theorem getBreakpointByIndex_eq_ok (c : BreakpointCollection) (index : Nat) (b : Breakpoint) :
    c.getBreakpointByIndex index = .ok b ↔
      c.breakpoints.find? (fun x => x.index == index) = some b := by
  unfold BreakpointCollection.getBreakpointByIndex
  cases h : c.breakpoints.find? (fun x => x.index == index) <;> simp

theorem find_index_map (l : List Breakpoint) (index : Nat) (f : Breakpoint → Breakpoint)
    (hf : ∀ x, (f x).index = x.index) :
    (l.map f).find? (fun x => x.index == index) =
      (l.find? (fun x => x.index == index)).map f := by
  rw [List.find?_map]
  have : ((fun x : Breakpoint => x.index == index) ∘ f) = (fun x => x.index == index) := by
    funext x
    simp [Function.comp, hf]
  rw [this]

theorem find_index_setEnabled (c : BreakpointCollection) (index : Nat) (enabled : Bool)
    (b : Breakpoint) (hb : c.breakpoints.find? (fun x => x.index == index) = some b) :
    (c.setEnabled index enabled).breakpoints.find? (fun x => x.index == index) =
      some { b with enabled := enabled } := by
  have hi : b.index = index := by simpa using List.find?_some hb
  simp only [BreakpointCollection.setEnabled, BreakpointCollection.modify]
  rw [find_index_map _ _ _ (by intro x; split <;> rfl), hb]
  simp [hi]

/-! ## The claims -/

/-- C1 (amended): in the single-path push, for every position `i` at which the
returned descriptor carries no id, the i-th enabled breakpoint of the path ends
with `verified = true` whatever the adapter reported, and every other field of
it, its message included, is as before.  When the adapter reported it unverified
with an absent or empty message, the loop body puts the non-empty default
message on the descriptor, and when the response has a descriptor for every
requested breakpoint that descriptor is what the push returns for the
breakpoint's index. -/
theorem setSourceBreakpointsForPath_no_id (d : Debugger) (session : VsDebugSession)
    (path : String) (indexOfInterest i : Nat) (resp : List AdapterBreakpoint)
    (b : Breakpoint) (a : AdapterBreakpoint) (hwf : d.breakpoints.WF)
    (hresp : session.setBreakpoints path
      ((d.breakpoints.getAllEnabledBreakpointsForSource path).map (fun x => ⟨x.line, none⟩)) =
        .ok resp)
    (hb : (d.breakpoints.getAllEnabledBreakpointsForSource path)[i]? = some b)
    (ha : resp[i]? = some a) (hid : a.id = none) :
    ((d._setSourceBreakpointsForPath session path
        indexOfInterest).1.breakpoints.getAllEnabledBreakpointsForSource path)[i]? =
      some { b with verified := true } ∧
    (a.verified = false → (a.message = none ∨ a.message = some "") →
      (∀ c, (reconcilePair c b a).2 = { a with message := some defaultBreakpointMessage }) ∧
      ((d.breakpoints.getAllEnabledBreakpointsForSource path).length ≤ resp.length →
        (d._setSourceBreakpointsForPath session path b.index).2 =
          .ok (some { a with message := some defaultBreakpointMessage }))) ∧
    defaultBreakpointMessage ≠ "" := by
  refine ⟨?_, ?_, by decide⟩
  · rw [setSourceBreakpointsForPath_enabled d session path indexOfInterest i resp b a hwf hresp
      hb ha]
    simp [updOf, hid]
  · intro hv hm
    have hd : descOf a = { a with message := some defaultBreakpointMessage } := by
      rcases hm with hm | hm <;> simp [descOf, hid, hv, hm]
    refine ⟨fun c => by rw [reconcilePair_snd, hd], ?_⟩
    intro hlen
    rw [setSourceBreakpointsForPath_result d session path b.index resp hresp hlen,
      find_zipWith_index _ resp i b a (enabled_nodup d.breakpoints path hwf) hb ha, hd]
    rfl

/-- C1, witness: the scenario of the claim, at the breakpoint of line 20. -/
theorem setSourceBreakpointsForPath_no_id_witness :
    ((scenarioEngine._setSourceBreakpointsForPath (adapterAnswering (.ok scenarioResponse))
        "/a.js" 0).1.breakpoints.getAllEnabledBreakpointsForSource "/a.js")[1]? =
      some { index := 1, path := some "/a.js", line := 20, enabled := true, verified := true,
             adapterId := none, message := none } ∧
    (scenarioEngine._setSourceBreakpointsForPath (adapterAnswering (.ok scenarioResponse))
        "/a.js" 1).2 =
      .ok (some ⟨none, false, some defaultBreakpointMessage, some 20⟩) := by
  have h := setSourceBreakpointsForPath_no_id scenarioEngine
    (adapterAnswering (.ok scenarioResponse)) "/a.js" 0 1 scenarioResponse
    { index := 1, path := some "/a.js", line := 20, enabled := true, verified := false,
      adapterId := none, message := none }
    ⟨none, false, none, some 20⟩ (by decide) rfl (by decide) rfl rfl
  exact ⟨h.1, (h.2.1 rfl (Or.inl rfl)).2 (by decide)⟩

/-- C1, counterexample: in the scenario of the claim the breakpoint of line 20
ends verified but without any message; the default message is on the returned
descriptor, whose verified flag is still false. -/
theorem setSourceBreakpointsForPath_no_id_message_counterexample :
    ((scenarioEngine._setSourceBreakpointsForPath (adapterAnswering (.ok scenarioResponse))
        "/a.js" 1).1.breakpoints.getAllEnabledBreakpointsForSource "/a.js")[1]? =
      some { index := 1, path := some "/a.js", line := 20, enabled := true, verified := true,
             adapterId := none, message := none } ∧
    ¬ ∃ b, ((scenarioEngine._setSourceBreakpointsForPath
        (adapterAnswering (.ok scenarioResponse)) "/a.js"
          1).1.breakpoints.getAllEnabledBreakpointsForSource "/a.js")[1]? = some b ∧
        b.verified = true ∧ b.message = some defaultBreakpointMessage := by
  have h : ((scenarioEngine._setSourceBreakpointsForPath
      (adapterAnswering (.ok scenarioResponse)) "/a.js"
        1).1.breakpoints.getAllEnabledBreakpointsForSource "/a.js")[1]? =
      some { index := 1, path := some "/a.js", line := 20, enabled := true, verified := true,
             adapterId := none, message := none } := by decide
  refine ⟨h, ?_⟩
  rintro ⟨b, hb, _, hm⟩
  rw [h] at hb
  cases hb
  simp at hm

/-- C2: in the single-path push the descriptors are paired with the requested
enabled breakpoints by position, and for every position `i` whose descriptor
carries an adapter id, the i-th requested breakpoint ends with that id as its
adapter id and with the descriptor's verified flag; nothing else of it
changes. -/
theorem setSourceBreakpointsForPath_records_id (d : Debugger) (session : VsDebugSession)
    (path : String) (indexOfInterest i id : Nat) (resp : List AdapterBreakpoint)
    (b : Breakpoint) (a : AdapterBreakpoint) (hwf : d.breakpoints.WF)
    (hresp : session.setBreakpoints path
      ((d.breakpoints.getAllEnabledBreakpointsForSource path).map (fun x => ⟨x.line, none⟩)) =
        .ok resp)
    (hb : (d.breakpoints.getAllEnabledBreakpointsForSource path)[i]? = some b)
    (ha : resp[i]? = some a) (hid : a.id = some id) :
    ((d._setSourceBreakpointsForPath session path
        indexOfInterest).1.breakpoints.getAllEnabledBreakpointsForSource path)[i]? =
      some { b with adapterId := some id, verified := a.verified } := by
  rw [setSourceBreakpointsForPath_enabled d session path indexOfInterest i resp b a hwf hresp
    hb ha]
  simp [updOf, hid]

/-- C2, witness: the scenario of the reconciliation, at the breakpoint of
line 10. -/
theorem setSourceBreakpointsForPath_records_id_witness :
    ((scenarioEngine._setSourceBreakpointsForPath (adapterAnswering (.ok scenarioResponse))
        "/a.js" 0).1.breakpoints.getAllEnabledBreakpointsForSource "/a.js")[0]? =
      some { index := 0, path := some "/a.js", line := 10, enabled := true, verified := true,
             adapterId := some 1, message := none } :=
  setSourceBreakpointsForPath_records_id scenarioEngine
    (adapterAnswering (.ok scenarioResponse)) "/a.js" 0 0 1 scenarioResponse
    { index := 0, path := some "/a.js", line := 10, enabled := true, verified := false,
      adapterId := none, message := none }
    ⟨some 1, true, none, some 10⟩ (by decide) rfl (by decide) rfl rfl

/-- C3, the two pushes at the scenario of the reconciliation: the single-path
push records the adapter id of line 10 and assumes line 20 verified, the bulk
push records no id and leaves line 20 unverified. -/
theorem resetAllBreakpoints_differs_from_single_path :
    (scenarioEngine._setSourceBreakpointsForPath (adapterAnswering (.ok scenarioResponse))
        "/a.js" 0).1.breakpoints.breakpoints =
      [{ index := 0, path := some "/a.js", line := 10, enabled := true, verified := true,
         adapterId := some 1, message := none },
       { index := 1, path := some "/a.js", line := 20, enabled := true, verified := true,
         adapterId := none, message := none }] ∧
    scenarioEngine._resetAllBreakpoints.2 = .ok () ∧
    scenarioEngine._resetAllBreakpoints.1.breakpoints.breakpoints =
      [{ index := 0, path := some "/a.js", line := 10, enabled := true, verified := true,
         adapterId := none, message := none },
       { index := 1, path := some "/a.js", line := 20, enabled := true, verified := false,
         adapterId := none, message := none }] := by
  refine ⟨by decide, rfl, by decide⟩

/-- C4: for a source breakpoint whose enabled flag differs from the requested
one, with an active running session: if the adapter rejects the set-breakpoints
push, `setBreakpointEnabled` raises that same error and the breakpoint is found
afterwards exactly as it was before the call, its enabled flag included; if the
adapter answers the push with a descriptor for every requested breakpoint, the
call succeeds and the flag is the requested one. -/
theorem setBreakpointEnabled_rollback (d : Debugger) (session : VsDebugSession)
    (index : Nat) (enabled : Bool) (b : Breakpoint) (path : String)
    (hs : d.debugSession = some session)
    (hst : d.state ≠ .INITIALIZING ∧ d.state ≠ .CONFIGURING)
    (hb : d.breakpoints.getBreakpointByIndex index = .ok b) (hp : b.path = some path)
    (hne : b.enabled ≠ enabled) :
    (∀ err, session.setBreakpoints path
        (((d.breakpoints.setEnabled index enabled).getAllEnabledBreakpointsForSource path).map
          (fun x => ⟨x.line, none⟩)) = .error err →
      (d.setBreakpointEnabled index enabled).2 = .error err ∧
      (d.setBreakpointEnabled index enabled).1.breakpoints.getBreakpointByIndex index = .ok b) ∧
    (∀ resp, session.setBreakpoints path
        (((d.breakpoints.setEnabled index enabled).getAllEnabledBreakpointsForSource path).map
          (fun x => ⟨x.line, none⟩)) = .ok resp →
      ((d.breakpoints.setEnabled index enabled).getAllEnabledBreakpointsForSource path).length ≤
        resp.length →
      (d.setBreakpointEnabled index enabled).2 = .ok () ∧
      ∃ b', (d.setBreakpointEnabled index enabled).1.breakpoints.getBreakpointByIndex index =
          .ok b' ∧ b'.enabled = enabled) := by
  have hg := ensureDebugSession_running d session hs hst
  have hfind := (getBreakpointByIndex_eq_ok _ _ _).1 hb
  have hflip := find_index_setEnabled d.breakpoints index enabled b hfind
  constructor
  · intro err herr
    have hpush : (_setSourceBreakpointsForPath
        { d with breakpoints := d.breakpoints.setEnabled index enabled } session path index) =
        (send { d with breakpoints := d.breakpoints.setEnabled index enabled }
          (.setBreakpoints path
            (((d.breakpoints.setEnabled index enabled).getAllEnabledBreakpointsForSource
              path).map (fun x => ⟨x.line, none⟩))), .error err) := by
      simp only [_setSourceBreakpointsForPath, herr]
    simp only [setBreakpointEnabled, hg, hb, hne, if_false, hp, hpush, true_and]
    rw [getBreakpointByIndex_eq_ok]
    simp only [send]
    rw [find_index_setEnabled _ index (!enabled) _ hflip]
    have : b.enabled = !enabled := by
      cases hbe : b.enabled <;> cases he : enabled <;> simp_all
    cases b
    simp_all
  · intro resp hresp hlen
    have hres := setSourceBreakpointsForPath_result
      { d with breakpoints := d.breakpoints.setEnabled index enabled } session path index resp
      hresp hlen
    have hreg := setSourceBreakpointsForPath_registry
      { d with breakpoints := d.breakpoints.setEnabled index enabled } session path index resp
      hresp
    simp only [setBreakpointEnabled, hg, hb, hne, if_false, hp]
    split
    · rename_i d2 r heq
      rw [heq] at hreg
      simp only at hreg
      refine ⟨rfl, loopUpd (pairByPosition
        ((d.breakpoints.setEnabled index enabled).getAllEnabledBreakpointsForSource path) resp)
        { b with enabled := enabled }, ?_, (loopUpd_frame _ _).2.2.2.1⟩
      rw [getBreakpointByIndex_eq_ok, hreg]
      simp only
      rw [find_index_map _ _ _ (fun x => (loopUpd_frame _ x).1), hflip]
      rfl
    · rename_i d2 e heq
      rw [heq] at hres
      simp at hres

/-- C4, witness: disabling the breakpoint of line 20 of the scenario registry,
once with an adapter that rejects the push and once with one that answers
it. -/
theorem setBreakpointEnabled_rollback_witness :
    ((engine (some (adapterAnswering (.error (.error "rejected")))) .RUNNING scenarioRegistry
        ThreadCollection.empty).setBreakpointEnabled 1 false).2 = .error (.error "rejected") ∧
    ((engine (some (adapterAnswering (.error (.error "rejected")))) .RUNNING scenarioRegistry
        ThreadCollection.empty).setBreakpointEnabled 1 false).1.breakpoints.getBreakpointByIndex 1 =
      .ok { index := 1, path := some "/a.js", line := 20, enabled := true, verified := false,
            adapterId := none, message := none } ∧
    (scenarioEngine.setBreakpointEnabled 1 false).2 = .ok () ∧
    ∃ b', (scenarioEngine.setBreakpointEnabled 1 false).1.breakpoints.getBreakpointByIndex 1 =
      .ok b' ∧ b'.enabled = false := by
  have h1 := (setBreakpointEnabled_rollback
    (engine (some (adapterAnswering (.error (.error "rejected")))) .RUNNING scenarioRegistry
      ThreadCollection.empty)
    (adapterAnswering (.error (.error "rejected"))) 1 false
    { index := 1, path := some "/a.js", line := 20, enabled := true, verified := false,
      adapterId := none, message := none } "/a.js" rfl (by decide) rfl rfl (by decide)).1
    (.error "rejected") rfl
  have h2 := (setBreakpointEnabled_rollback scenarioEngine
    (adapterAnswering (.ok scenarioResponse)) 1 false
    { index := 1, path := some "/a.js", line := 20, enabled := true, verified := false,
      adapterId := none, message := none } "/a.js" rfl (by decide) rfl rfl (by decide)).2
    scenarioResponse rfl (by decide)
  exact ⟨h1.1, h1.2, h2.1, h2.2⟩

/-- C5: with an active running session, `setBreakpointEnabled(i, e)` on a
registry breakpoint whose enabled flag already is `e` completes without error
and leaves the whole engine state as it was: no request is added to the trace
and no breakpoint changes. -/
theorem setBreakpointEnabled_noop (d : Debugger) (session : VsDebugSession)
    (index : Nat) (enabled : Bool) (b : Breakpoint)
    (hs : d.debugSession = some session)
    (hst : d.state ≠ .INITIALIZING ∧ d.state ≠ .CONFIGURING)
    (hb : d.breakpoints.getBreakpointByIndex index = .ok b) (he : b.enabled = enabled) :
    d.setBreakpointEnabled index enabled = (d, .ok ()) := by
  simp [setBreakpointEnabled, ensureDebugSession_running d session hs hst, hb, he]

/-- C5, witness: enabling the already enabled breakpoint of line 20. -/
theorem setBreakpointEnabled_noop_witness :
    scenarioEngine.setBreakpointEnabled 1 true = (scenarioEngine, .ok ()) :=
  setBreakpointEnabled_noop scenarioEngine (adapterAnswering (.ok scenarioResponse)) 1 true
    { index := 1, path := some "/a.js", line := 20, enabled := true, verified := false,
      adapterId := none, message := none } rfl (by decide) rfl rfl

/-- C6: with an active running session, `deleteBreakpoint(i)` on a registry
breakpoint with path `p` leaves in the registry exactly the breakpoints whose
index is not `i`, unchanged and in their order, and adds exactly one request to
the trace: a set-breakpoints request for `p` whose list is the lines of the
enabled breakpoints that the registry holds for `p` after the removal, in
insertion order; none of those is the deleted breakpoint. -/
theorem deleteBreakpoint_repushes (d : Debugger) (session : VsDebugSession)
    (index : Nat) (b : Breakpoint) (path : String)
    (hs : d.debugSession = some session)
    (hst : d.state ≠ .INITIALIZING ∧ d.state ≠ .CONFIGURING)
    (hb : d.breakpoints.getBreakpointByIndex index = .ok b) (hp : b.path = some path) :
    (d.deleteBreakpoint index).1.breakpoints.breakpoints =
      d.breakpoints.breakpoints.filter (fun x => !(x.index == index)) ∧
    (d.deleteBreakpoint index).1.requests = d.requests ++
      [.setBreakpoints path
        (((d.deleteBreakpoint index).1.breakpoints.getAllEnabledBreakpointsForSource path).map
          (fun x => ⟨x.line, none⟩))] ∧
    (∀ x ∈ (d.deleteBreakpoint index).1.breakpoints.getAllEnabledBreakpointsForSource path,
      x.index ≠ index ∧ x ∈ d.breakpoints.getAllEnabledBreakpointsForSource path) := by
  have hg := ensureDebugSession_running d session hs hst
  have key : (d.deleteBreakpoint index).1.breakpoints = d.breakpoints.deleteBreakpoint index ∧
      (d.deleteBreakpoint index).1.requests = d.requests ++
        [.setBreakpoints path
          (((d.breakpoints.deleteBreakpoint index).getAllEnabledBreakpointsForSource path).map
            (fun x => ⟨x.line, none⟩))] := by
    simp only [deleteBreakpoint, hg, hb, hp]
    split <;> exact ⟨rfl, rfl⟩
  refine ⟨?_, ?_, ?_⟩
  · rw [key.1]; rfl
  · rw [key.2, key.1]
  · intro x hx
    rw [key.1] at hx
    simp only [BreakpointCollection.getAllEnabledBreakpointsForSource,
      BreakpointCollection.deleteBreakpoint, List.mem_filter] at hx ⊢
    obtain ⟨⟨hmem, hidx⟩, hen⟩ := hx
    exact ⟨by simpa using hidx, hmem, hen⟩

/-- C6, witness: deleting the breakpoint of line 10 of the scenario registry
re-pushes line 20 alone. -/
theorem deleteBreakpoint_repushes_witness :
    (scenarioEngine.deleteBreakpoint 0).1.breakpoints.breakpoints =
      [{ index := 1, path := some "/a.js", line := 20, enabled := true, verified := false,
         adapterId := none, message := none }] ∧
    (scenarioEngine.deleteBreakpoint 0).1.requests =
      [.setBreakpoints "/a.js" [⟨20, none⟩]] := by
  have h := deleteBreakpoint_repushes scenarioEngine (adapterAnswering (.ok scenarioResponse)) 0
    { index := 0, path := some "/a.js", line := 10, enabled := true, verified := false,
      adapterId := none, message := none } "/a.js" rfl (by decide) rfl rfl
  exact ⟨h.1, h.2.1⟩

theorem jsSlice_nonneg {α : Type} (xs : List α) (b e : Int) (hb : 0 ≤ b) (he : 0 ≤ e)
    (hbn : b ≤ xs.length) (hen : e ≤ xs.length) :
    jsSlice xs b e = (xs.drop b.toNat).take (e - b).toNat := by
  unfold jsSlice
  have h1 : ¬ b < 0 := by omega
  have h2 : ¬ e < 0 := by omega
  simp only [h1, h2, if_false, min_eq_left hbn, min_eq_left hen]

/-- C7: for a source whose resolved text is `lines` (n lines), every
`start ≥ 1` and every `length ≥ 0`, `getSourceLines(source, start, length)`
returns the empty list when `start > n`, and otherwise returns exactly the lines
at 1-based positions `start` through `min(start + length - 1, n)`, in order: the
result has `min(start + length - 1, n) - start + 1` entries and its k-th entry
is the line at position `start + k`; hence at most `length` lines. -/
theorem getSourceLines_range (d d1 : Debugger) (source : Source) (start length : Int)
    (lines : List String) (hsrc : d.sourceText source = (d1, .ok lines))
    (hstart : 1 ≤ start) (hlen : 0 ≤ length) :
    ∃ out, d.getSourceLines source start length = (d1, .ok out) ∧
      ((lines.length : Int) < start → out = []) ∧
      (start ≤ lines.length →
        (out.length : Int) = min (start + length - 1) lines.length - start + 1 ∧
        ∀ k : Nat, k < out.length → out[k]? = lines[(start - 1).toNat + k]?) ∧
      (out.length : Int) ≤ length := by
  by_cases hgt : start > (lines.length : Int)
  · refine ⟨[], ?_, fun _ => rfl, fun h => absurd h (by omega), by simpa using hlen⟩
    simp [getSourceLines, hsrc, hgt]
  · have hle : start ≤ (lines.length : Int) := by omega
    refine ⟨(lines.drop (start - 1).toNat).take
      (min (start + length - 1) lines.length - (start - 1)).toNat, ?_, ?_, ?_, ?_⟩
    · simp only [getSourceLines, hsrc, hgt, if_false]
      rw [jsSlice_nonneg lines (start - 1) _ (by omega) (by omega) (by omega) (by omega)]
    · intro h; omega
    · intro _
      constructor
      · simp only [List.length_take, List.length_drop]
        omega
      · intro k hk
        simp only [List.length_take, List.length_drop] at hk
        rw [List.getElem?_take_of_lt (by omega), List.getElem?_drop]
    · simp only [List.length_take, List.length_drop]
      omega

/-- C7, witness: against the five-line cached source, `start = 1, length = 10`
returns all five lines and `start = 6` returns none. -/
theorem getSourceLines_range_witness :
    (∃ out, fiveLineEngine.getSourceLines fiveLineSource 1 10 = (fiveLineEngine, .ok out) ∧
      (((["one", "two", "three", "four", "five"] : List String).length : Int) < 1 → out = []) ∧
      ((1 : Int) ≤ ([("one" : String), "two", "three", "four", "five"].length : Int) →
        (out.length : Int) =
          min ((1 : Int) + 10 - 1) ([("one" : String), "two", "three", "four", "five"].length) -
            1 + 1 ∧
        ∀ k : Nat, k < out.length →
          out[k]? = ["one", "two", "three", "four", "five"][((1 : Int) - 1).toNat + k]?) ∧
      (out.length : Int) ≤ 10) ∧
    fiveLineEngine.getSourceLines fiveLineSource 1 10 =
      (fiveLineEngine, .ok ["one", "two", "three", "four", "five"]) ∧
    fiveLineEngine.getSourceLines fiveLineSource 6 10 = (fiveLineEngine, .ok []) :=
  ⟨getSourceLines_range fiveLineEngine fiveLineEngine fiveLineSource 1 10
      ["one", "two", "three", "four", "five"] rfl (by decide) (by decide), rfl, rfl⟩

theorem allGuardedFail_of_guard (d : Debugger) (e : Err)
    (h : d._ensureDebugSession false = .error e) : AllGuardedFail d e := by
  refine ⟨?_, ?_, ?_, ?_, ?_, ?_, ?_, ?_, ?_, ?_, ?_⟩
  · simp [Debugger.continue, threadRequest, h]
  · simp [stepIn, threadRequest, h]
  · simp [stepOver, threadRequest, h]
  · intro thread levels; simp [getStackTrace, h]
  · simp [getCurrentStackFrame, h]
  · intro selectedScope; simp [getVariables, h]
  · intro expression; simp [evaluateExpression, h]
  · intro index enabled; simp [setBreakpointEnabled, h]
  · intro index; simp [deleteBreakpoint, h]
  · simp [getThreads, h]
  · simp [getActiveThread, h]

/-- C8: each of `continue`, `stepIn`, `stepOver`, `getStackTrace`,
`getCurrentStackFrame`, `getVariables`, `evaluateExpression`,
`setBreakpointEnabled`, `deleteBreakpoint`, `getThreads` and `getActiveThread`
fails with 'There is no active debugging session.' when no session exists, and
with "The program is not yet running (use 'run' to start it)." when a session
exists and the state is INITIALIZING or CONFIGURING; in both cases the engine
state is exactly as before (no request sent, registries and session state
unchanged).  The guard itself fails with the first error when there is no
session; with a session, it fails with the second error exactly when the state
is INITIALIZING or CONFIGURING and the caller is not exempted, and otherwise
returns the session. -/
theorem guard_discipline (d : Debugger) :
    (d.debugSession = none →
      AllGuardedFail d (.error "There is no active debugging session.")) ∧
    (∀ session, d.debugSession = some session →
      d.state = .INITIALIZING ∨ d.state = .CONFIGURING →
      AllGuardedFail d (.error "The program is not yet running (use 'run' to start it).")) ∧
    (d.debugSession = none → ∀ allowBeforeLaunch,
      d._ensureDebugSession allowBeforeLaunch =
        .error (.error "There is no active debugging session.")) ∧
    (∀ session, d.debugSession = some session → ∀ allowBeforeLaunch,
      (d._ensureDebugSession allowBeforeLaunch =
          .error (.error "The program is not yet running (use 'run' to start it).") ↔
        (d.state = .INITIALIZING ∨ d.state = .CONFIGURING) ∧ allowBeforeLaunch = false) ∧
      (¬ ((d.state = .INITIALIZING ∨ d.state = .CONFIGURING) ∧ allowBeforeLaunch = false) →
        d._ensureDebugSession allowBeforeLaunch = .ok session)) := by
  refine ⟨?_, ?_, ?_, ?_⟩
  · intro h
    exact allGuardedFail_of_guard d _ (by simp [_ensureDebugSession, h])
  · intro session h hst
    exact allGuardedFail_of_guard d _ (by simp [_ensureDebugSession, h, hst])
  · intro h allowBeforeLaunch
    simp [_ensureDebugSession, h]
  · intro session h allowBeforeLaunch
    by_cases hc : (d.state = .INITIALIZING ∨ d.state = .CONFIGURING) ∧ allowBeforeLaunch = false
    · simp [_ensureDebugSession, h, hc]
    · simp [_ensureDebugSession, h, hc]

/-- C8, witness: an engine without a session, and the scenario engine put back
into the state CONFIGURING. -/
theorem guard_discipline_witness :
    AllGuardedFail (engine none .RUNNING scenarioRegistry oneRunningThread)
      (.error "There is no active debugging session.") ∧
    AllGuardedFail
      (engine (some (adapterAnswering (.ok scenarioResponse))) .CONFIGURING scenarioRegistry
        oneRunningThread)
      (.error "The program is not yet running (use 'run' to start it).") :=
  ⟨(guard_discipline (engine none .RUNNING scenarioRegistry oneRunningThread)).1 rfl,
   (guard_discipline (engine (some (adapterAnswering (.ok scenarioResponse))) .CONFIGURING
      scenarioRegistry oneRunningThread)).2.1 _ rfl (Or.inr rfl)⟩

/-- C9: setting a breakpoint is allowed before the program is launched.  With
a session present and the state CONFIGURING, `setSourceBreakpoint(path, line)`
succeeds, appends one enabled (and unverified) breakpoint to the registry,
changes nothing else of the engine (no request is sent) and returns the newly
assigned index with the message 'Breakpoint pending until program starts.';
with no session it fails with 'There is no active debugging session.' and the
engine, registry included, is as before. -/
theorem setSourceBreakpoint_before_launch (d : Debugger) (path : String) (line : Nat) :
    (∀ session, d.debugSession = some session → d.state = .CONFIGURING →
      d.setSourceBreakpoint path line =
        ({ d with breakpoints :=
            ⟨d.breakpoints.breakpoints ++
              [{ index := d.breakpoints.nextIndex, path := some path, line := line,
                 enabled := true, verified := false, adapterId := none, message := none }],
             d.breakpoints.nextIndex + 1⟩ },
         .ok ⟨d.breakpoints.nextIndex, some "Breakpoint pending until program starts."⟩) ∧
      (d.setSourceBreakpoint path line).1.requests = d.requests) ∧
    (d.debugSession = none →
      d.setSourceBreakpoint path line =
        (d, .error (.error "There is no active debugging session."))) := by
  constructor
  · intro session hs hst
    have hg : d._ensureDebugSession true = .ok session := by simp [_ensureDebugSession, hs]
    have h : d.setSourceBreakpoint path line =
        ({ d with breakpoints :=
            ⟨d.breakpoints.breakpoints ++
              [{ index := d.breakpoints.nextIndex, path := some path, line := line,
                 enabled := true, verified := false, adapterId := none, message := none }],
             d.breakpoints.nextIndex + 1⟩ },
         .ok ⟨d.breakpoints.nextIndex, some "Breakpoint pending until program starts."⟩) := by
      simp [setSourceBreakpoint, hg, hst, BreakpointCollection.addSourceBreakpoint]
    exact ⟨h, by rw [h]⟩
  · intro hs
    simp [setSourceBreakpoint, _ensureDebugSession, hs]

/-- C9, witness: a breakpoint set on `/b.js` line 7 while CONFIGURING gets
index 2; without a session nothing is added. -/
theorem setSourceBreakpoint_before_launch_witness :
    ((engine (some (adapterAnswering (.ok scenarioResponse))) .CONFIGURING scenarioRegistry
        oneRunningThread).setSourceBreakpoint "/b.js" 7).2 =
      .ok ⟨2, some "Breakpoint pending until program starts."⟩ ∧
    (engine none .CONFIGURING scenarioRegistry oneRunningThread).setSourceBreakpoint "/b.js" 7 =
      (engine none .CONFIGURING scenarioRegistry oneRunningThread,
        .error (.error "There is no active debugging session.")) := by
  have h := setSourceBreakpoint_before_launch
    (engine (some (adapterAnswering (.ok scenarioResponse))) .CONFIGURING scenarioRegistry
      oneRunningThread) "/b.js" 7
  have h2 := setSourceBreakpoint_before_launch
    (engine none .CONFIGURING scenarioRegistry oneRunningThread) "/b.js" 7
  refine ⟨?_, h2.2 rfl⟩
  rw [(h.1 _ rfl rfl).1]
  rfl

/-! ## The session state under operations and events -/

theorem getActiveThread_fst (d : Debugger) : d.getActiveThread.1 = d := by
  unfold getActiveThread
  split
  · rfl
  · split <;> rfl

theorem getStackTrace_state (d : Debugger) (t l : Nat) :
    (d.getStackTrace t l).1.state = d.state ∧ (d.getStackTrace t l).1.threads = d.threads := by
  unfold getStackTrace
  split
  · exact ⟨rfl, rfl⟩
  · split <;> exact ⟨rfl, rfl⟩

theorem setSelectedStackFrame_state (d : Debugger) (t : Thread) (k : Nat) :
    (d.setSelectedStackFrame t k).1.state = d.state := by
  have h := (getStackTrace_state d t.id (k + 1)).1
  unfold setSelectedStackFrame
  rcases hg : d.getStackTrace t.id (k + 1) with ⟨d1, r⟩
  rw [hg] at h
  cases r with
  | error e => exact h
  | ok frames =>
    simp only
    split <;> exact h

theorem getCurrentStackFrame_state (d : Debugger) :
    d.getCurrentStackFrame.1.state = d.state := by
  unfold getCurrentStackFrame
  split
  · rfl
  · have h := getActiveThread_fst d
    rcases hg : d.getActiveThread with ⟨d1, r⟩
    rw [hg] at h
    simp only at h
    subst h
    cases r with
    | error e => rfl
    | ok thread =>
      simp only
      have h2 := (getStackTrace_state d1 thread.id (thread.selectedStackFrameIndex + 1)).1
      rcases hs : d1.getStackTrace thread.id (thread.selectedStackFrameIndex + 1) with ⟨d2, r2⟩
      rw [hs] at h2
      cases r2 <;> exact h2

theorem threadRequest_state (d : Debugger) (mk : Nat → Request)
    (call : VsDebugSession → Nat → Except Err Unit) :
    (d.threadRequest mk call).1.state = d.state := by
  unfold threadRequest
  split
  · rfl
  · have h := getActiveThread_fst d
    rcases hg : d.getActiveThread with ⟨d1, r⟩
    rw [hg] at h
    simp only at h
    subst h
    cases r with
    | error e => rfl
    | ok thread =>
      simp only
      split <;> rfl

theorem getVariables_state (d : Debugger) (selectedScope : Option String) :
    (d.getVariables selectedScope).1.state = d.state := by
  unfold getVariables
  split
  · rfl
  · have h := getActiveThread_fst d
    rcases hg : d.getActiveThread with ⟨d1, r⟩
    rw [hg] at h
    simp only at h
    subst h
    cases r with
    | error e => rfl
    | ok thread =>
      simp only
      have h2 := (getStackTrace_state d1 thread.id (thread.selectedStackFrameIndex + 1)).1
      rcases hs : d1.getStackTrace thread.id (thread.selectedStackFrameIndex + 1) with ⟨d2, r2⟩
      rw [hs] at h2
      cases r2 with
      | error e => exact h2
      | ok stack =>
        simp only
        split
        · exact h2
        · split
          · exact h2
          · split
            · exact h2
            · split <;> exact h2

theorem evaluateExpression_state (d : Debugger) (expression : String) :
    (d.evaluateExpression expression).1.state = d.state := by
  unfold evaluateExpression
  split
  · rfl
  · have h := getCurrentStackFrame_state d
    rcases hg : d.getCurrentStackFrame with ⟨d1, r⟩
    rw [hg] at h
    cases r with
    | error e => exact h
    | ok frame =>
      simp only
      split <;> exact h

theorem breakInto_state (d : Debugger) : d.breakInto.1.state = d.state := by
  unfold breakInto
  split
  · rfl
  · split <;> rfl

theorem setSourceBreakpointsForPath_state (d : Debugger) (session : VsDebugSession)
    (path : String) (k : Nat) :
    (d._setSourceBreakpointsForPath session path k).1.state = d.state := by
  unfold _setSourceBreakpointsForPath
  simp only
  split
  · rfl
  · split <;> rfl

theorem setSourceBreakpoint_state (d : Debugger) (path : String) (line : Nat) :
    (d.setSourceBreakpoint path line).1.state = d.state := by
  unfold setSourceBreakpoint
  split
  · rfl
  · rename_i session _
    simp only
    split
    · have h := setSourceBreakpointsForPath_state
        { d with breakpoints := (d.breakpoints.addSourceBreakpoint path line).2 } session path
        (d.breakpoints.addSourceBreakpoint path line).1
      rcases hg : _setSourceBreakpointsForPath
        { d with breakpoints := (d.breakpoints.addSourceBreakpoint path line).2 } session path
        (d.breakpoints.addSourceBreakpoint path line).1 with ⟨d2, r⟩
      rw [hg] at h
      cases r <;> exact h
    · rfl

theorem setBreakpointEnabled_state (d : Debugger) (index : Nat) (enabled : Bool) :
    (d.setBreakpointEnabled index enabled).1.state = d.state := by
  unfold setBreakpointEnabled
  split
  · rfl
  · rename_i session _
    split
    · rfl
    · split
      · rfl
      · simp only
        split
        · rename_i path _
          have h := setSourceBreakpointsForPath_state
            { d with breakpoints := d.breakpoints.setEnabled index enabled } session path index
          rcases hg : _setSourceBreakpointsForPath
            { d with breakpoints := d.breakpoints.setEnabled index enabled } session path index
            with ⟨d2, r⟩
          rw [hg] at h
          cases r <;> exact h
        · rfl

theorem deleteBreakpoint_state (d : Debugger) (index : Nat) :
    (d.deleteBreakpoint index).1.state = d.state := by
  unfold deleteBreakpoint
  split
  · rfl
  · split
    · rfl
    · simp only
      split
      · split <;> rfl
      · rfl

theorem getSourceByReference_state (d : Debugger) (ref : Nat) :
    (d._getSourceByReference ref).1.state = d.state ∧
      (d._getSourceByReference ref).1.threads = d.threads := by
  unfold _getSourceByReference
  split
  · exact ⟨rfl, rfl⟩
  · split <;> exact ⟨rfl, rfl⟩

theorem getFileDataBySourceReference_state (d : Debugger) (ref : Nat) :
    (d.getFileDataBySourceReference ref).1.state = d.state ∧
      (d.getFileDataBySourceReference ref).1.threads = d.threads := by
  unfold getFileDataBySourceReference
  split
  · exact ⟨rfl, rfl⟩
  · have h := getSourceByReference_state d ref
    rcases hg : d._getSourceByReference ref with ⟨d1, r⟩
    rw [hg] at h
    cases r <;> exact h

theorem getFileDataByPath_state (d : Debugger) (path : String) :
    (d.getFileDataByPath path).1.state = d.state ∧
      (d.getFileDataByPath path).1.threads = d.threads := by
  unfold getFileDataByPath
  split
  · exact ⟨rfl, rfl⟩
  · split <;> exact ⟨rfl, rfl⟩

theorem sourceText_state (d : Debugger) (source : Source) :
    (d.sourceText source).1.state = d.state ∧ (d.sourceText source).1.threads = d.threads := by
  unfold sourceText
  split
  · exact getFileDataBySourceReference_state d _
  · split
    · exact getFileDataByPath_state d _
    · exact ⟨rfl, rfl⟩

theorem getSourceLines_state (d : Debugger) (source : Source) (start length : Int) :
    (d.getSourceLines source start length).1.state = d.state ∧
      (d.getSourceLines source start length).1.threads = d.threads := by
  have h := sourceText_state d source
  unfold getSourceLines
  rcases hg : d.sourceText source with ⟨d1, r⟩
  rw [hg] at h
  cases r with
  | error e => exact h
  | ok lines =>
    simp only
    split <;> exact h

theorem getTopOfStackSourceInfo_state (d : Debugger) (threadId : Nat) :
    (d._getTopOfStackSourceInfo threadId).1.state = d.state ∧
      (d._getTopOfStackSourceInfo threadId).1.threads = d.threads := by
  have h := getStackTrace_state d threadId 1
  unfold _getTopOfStackSourceInfo
  rcases hg : d.getStackTrace threadId 1 with ⟨d1, r⟩
  rw [hg] at h
  cases r with
  | error e => exact h
  | ok frames =>
    simp only
    split
    · rename_i frame source _ _
      have h2 := getSourceLines_state d1 source frame.line 1
      rcases hs : d1.getSourceLines source frame.line 1 with ⟨d2, r2⟩
      rw [hs] at h2
      simp only at h2
      cases r2 with
      | error e => exact ⟨h2.1.trans h.1, h2.2.trans h.2⟩
      | ok lines =>
        simp only
        split <;> exact ⟨h2.1.trans h.1, h2.2.trans h.2⟩
    · exact h

theorem onContinued_state (d : Debugger) (event : ContinuedEvent) :
    (d._onContinued event).1.state = d.state := by
  unfold _onContinued
  simp only
  split
  · rfl
  · split <;> rfl

theorem onStopped_state (d : Debugger) (event : StoppedEvent) :
    (d._onStopped event).1.state = d.state := by
  unfold _onStopped
  have h0 : (match event.description with
      | some description => { d with console := d.console.outputLine description }
      | none => d).state = d.state := by
    split <;> rfl
  generalize (match event.description with
      | some description => { d with console := d.console.outputLine description }
      | none => d) = d0 at h0 ⊢
  simp only
  split
  · exact h0
  · exact h0
  · rename_i stopped _
    split
    · split
      · exact h0
      · rename_i threads _
        split
        · exact h0
        · rename_i focusThreadId _
          have h := (getTopOfStackSourceInfo_state { d0 with threads := threads } focusThreadId).1
          rcases hg : _getTopOfStackSourceInfo { d0 with threads := threads } focusThreadId
            with ⟨d3, r⟩
          rw [hg] at h
          simp only at h
          rcases r with e | top
          · exact h.trans h0
          · cases top <;> exact h.trans h0
    · exact h0

theorem resetAllBreakpoints_state (d : Debugger) : d._resetAllBreakpoints.1.state = d.state := by
  unfold _resetAllBreakpoints
  split
  · rfl
  · simp only
    split <;> rfl

theorem cacheThreads_state (d : Debugger) : d._cacheThreads.1.state = d.state := by
  unfold _cacheThreads
  split
  · rfl
  · split <;> rfl

theorem configurationDone_state (d : Debugger) :
    d._configurationDone.1.state = d.state ∨ d._configurationDone.1.state = .RUNNING := by
  unfold _configurationDone
  split
  · exact Or.inl rfl
  · right
    dsimp only
    have h := resetAllBreakpoints_state { d with state := .RUNNING }
    rcases hg : _resetAllBreakpoints { d with state := .RUNNING } with ⟨d2, r⟩
    rw [hg] at h
    simp only at h
    cases r with
    | error e => exact h
    | ok u =>
      simp only
      split
      · exact h
      · split
        · exact h
        · rename_i capabilities _
          by_cases hc : capabilities.supportsConfigurationDoneRequest = true
          · simp only [hc, if_true]
            split
            · rename_i d4 e heq
              simp only [Prod.mk.injEq] at heq
              rw [← heq.1]; exact h
            · rename_i d4 u2 heq
              simp only [Prod.mk.injEq] at heq
              rw [cacheThreads_state, ← heq.1]; exact h
          · simp only [hc]
            split
            · rename_i d4 e heq
              simp at heq
            · rename_i d4 u2 heq
              simp only [Bool.false_eq_true, if_false, Prod.mk.injEq] at heq
              rw [cacheThreads_state, ← heq.1]; exact h

theorem run_state (d : Debugger) :
    d.run.1.state = d.state ∨ (d.state = .CONFIGURING ∧ d.run.1.state = .RUNNING) := by
  unfold run
  split
  · exact Or.inl rfl
  · split
    · exact Or.inl rfl
    · rename_i hc
      have hst : d.state = .CONFIGURING := by
        by_contra hne
        exact hc (Or.inl hne)
      rcases configurationDone_state d with h | h
      · exact Or.inl h
      · exact Or.inr ⟨hst, h⟩

theorem closeSession_state (d : Debugger) : d.closeSession.1.state = d.state := by
  unfold closeSession
  split
  · rfl
  · split <;> rfl

theorem createSession_state (d : Debugger) (adapterInfo : VsDebugSession) :
    (d.createSession adapterInfo).1.state = d.state := by
  unfold createSession
  simp only
  split <;> rfl

theorem relaunch_state (d : Debugger) :
    d.relaunch.1.state = d.state ∨ d.relaunch.1.state = .INITIALIZING := by
  unfold relaunch
  split
  · exact Or.inl rfl
  · rename_i adapter _
    right
    dsimp only
    have h := closeSession_state { d with state := .INITIALIZING }
    rcases hg : closeSession { d with state := .INITIALIZING } with ⟨d2, r⟩
    rw [hg] at h
    simp only at h
    cases r with
    | error e => exact h
    | ok u =>
      simp only
      have h3 := createSession_state d2 adapter.adapterInfo
      rcases hc : d2.createSession adapter.adapterInfo with ⟨d3, r3⟩
      rw [hc] at h3
      simp only at h3
      cases r3 with
      | error e => exact h3.trans h
      | ok u3 =>
        simp only
        split
        · split
          · exact h3.trans h
          · split <;> exact h3.trans h
        · split
          · exact h3.trans h
          · split <;> exact h3.trans h

theorem getThreads_fst (d : Debugger) : d.getThreads.1 = d := by
  unfold getThreads
  split <;> rfl

theorem launch_state (d : Debugger) (adapter : ParsedVSAdapter) :
    (d.launch adapter).1.state = d.state ∨ (d.launch adapter).1.state = .INITIALIZING := by
  unfold launch
  exact relaunch_state _

/-- The session state after a user command: as before, or INITIALIZING, or
RUNNING when it was CONFIGURING. -/
theorem exec_state (c : Command) (d : Debugger) :
    (c.exec d).state = d.state ∨ (c.exec d).state = .INITIALIZING ∨
      (d.state = .CONFIGURING ∧ (c.exec d).state = .RUNNING) := by
  cases c with
  | run => rcases run_state d with h | h
           · exact Or.inl h
           · exact Or.inr (Or.inr h)
  | relaunch => rcases relaunch_state d with h | h
                · exact Or.inl h
                · exact Or.inr (Or.inl h)
  | launch adapter => rcases launch_state d adapter with h | h
                      · exact Or.inl h
                      · exact Or.inr (Or.inl h)
  | closeSession => exact Or.inl (closeSession_state d)
  | breakInto => exact Or.inl (breakInto_state d)
  | getThreads => exact Or.inl (by simp [Command.exec, getThreads_fst])
  | getActiveThread => exact Or.inl (by simp [Command.exec, getActiveThread_fst])
  | stepIn => exact Or.inl (threadRequest_state d _ _)
  | stepOver => exact Or.inl (threadRequest_state d _ _)
  | «continue» => exact Or.inl (threadRequest_state d _ _)
  | getStackTrace thread levels => exact Or.inl (getStackTrace_state d thread levels).1
  | setSelectedStackFrame thread frameIndex =>
    exact Or.inl (setSelectedStackFrame_state d thread frameIndex)
  | getCurrentStackFrame => exact Or.inl (getCurrentStackFrame_state d)
  | getVariables selectedScope => exact Or.inl (getVariables_state d selectedScope)
  | evaluateExpression expression => exact Or.inl (evaluateExpression_state d expression)
  | setSourceBreakpoint path line => exact Or.inl (setSourceBreakpoint_state d path line)
  | setBreakpointEnabled index enabled =>
    exact Or.inl (setBreakpointEnabled_state d index enabled)
  | deleteBreakpoint index => exact Or.inl (deleteBreakpoint_state d index)
  | getSourceLines source start length =>
    exact Or.inl (getSourceLines_state d source start length).1

theorem onStopped_threads (d : Debugger) (event : StoppedEvent) (stopped : ThreadCollection)
    (h : stoppedThreads d.threads event = some (.ok stopped)) :
    (d._onStopped event).1.threads.threads = stopped.threads := by
  unfold _onStopped
  have h0 : (match event.description with
      | some description => { d with console := d.console.outputLine description }
      | none => d).threads = d.threads := by
    split <;> rfl
  generalize (match event.description with
      | some description => { d with console := d.console.outputLine description }
      | none => d) = d0 at h0 ⊢
  simp only
  rw [h0, h]
  simp only
  split
  · split
    · rfl
    · rename_i threads hf
      have ht : threads.threads = stopped.threads := by
        split at hf
        · simp only [Except.ok.injEq] at hf
          rw [← hf]; rfl
        · split at hf
          · simp only [Except.ok.injEq] at hf
            rw [← hf]; rfl
          · simp at hf
      split
      · exact ht
      · rename_i focusThreadId _
        have h2 := (getTopOfStackSourceInfo_state { d0 with threads := threads } focusThreadId).2
        rcases hg : _getTopOfStackSourceInfo { d0 with threads := threads } focusThreadId
          with ⟨d3, r⟩
        rw [hg] at h2
        simp only at h2
        rcases r with e | top
        · simp only; rw [h2]; exact ht
        · cases top <;> (simp only; rw [h2]; exact ht)
  · rfl

theorem onStopped_all (d : Debugger) (event : StoppedEvent)
    (h : event.allThreadsStopped = some true) :
    (d._onStopped event).1.threads.allThreadsStopped = true := by
  have hs : stoppedThreads d.threads event = some (.ok
      { d.threads.markAllThreadsStopped with
        threads := d.threads.markAllThreadsStopped.threads.map Thread.clearSelectedStackFrame }) := by
    simp [stoppedThreads, h]
  unfold ThreadCollection.allThreadsStopped
  rw [onStopped_threads d event _ hs]
  simp [ThreadCollection.markAllThreadsStopped, Thread.clearSelectedStackFrame]

theorem onContinued_all (d : Debugger) (event : ContinuedEvent)
    (h : event.allThreadsContinued = some true) :
    (d._onContinued event).1.threads.allThreadsRunning = true := by
  have hr : d.threads.markAllThreadsRunning.allThreadsRunning = true := by
    simp [ThreadCollection.markAllThreadsRunning, ThreadCollection.allThreadsRunning]
  simp [_onContinued, h, hr]

/-- What the handlers of stop and continue events do to the engine: they never
assign the session state (it is afterwards what it was before, so no handler
enters STOPPED or leaves it); they record the stop or the continuation in the
thread registry only.  No user command moves the state from RUNNING to STOPPED
or from STOPPED to RUNNING either. -/
theorem stop_continue_events_keep_state (d : Debugger) :
    (∀ event : StoppedEvent, (d._onStopped event).1.state = d.state) ∧
    (∀ event : ContinuedEvent, (d._onContinued event).1.state = d.state) ∧
    (∀ event : StoppedEvent, event.allThreadsStopped = some true →
      (d._onStopped event).1.threads.allThreadsStopped = true) ∧
    (∀ event : ContinuedEvent, event.allThreadsContinued = some true →
      (d._onContinued event).1.threads.allThreadsRunning = true) ∧
    (∀ c : Command, (d.state = .RUNNING → (c.exec d).state ≠ .STOPPED) ∧
      (d.state = .STOPPED → (c.exec d).state ≠ .RUNNING)) := by
  refine ⟨onStopped_state d, onContinued_state d, onStopped_all d, onContinued_all d, ?_⟩
  intro c
  constructor
  · intro hr hs
    rcases exec_state c d with h | h | h
    · rw [h, hr] at hs; cases hs
    · rw [h] at hs; cases hs
    · rw [h.2] at hs; cases hs
  · intro hs hr
    rcases exec_state c d with h | h | h
    · rw [h, hs] at hr; cases hr
    · rw [h] at hr; cases hr
    · rw [h.1] at hs; cases hs

/-- The first-stop scenario (one running thread with id 3, event
`{threadId: 3, allThreadsStopped: true}`) and the command `stepIn`, as an
instance of the preceding theorem. -/
theorem stop_continue_events_keep_state_witness :
    ((engine (some (adapterAnswering (.ok scenarioResponse))) .RUNNING scenarioRegistry
        oneRunningThread)._onStopped ⟨none, some 3, some true⟩).1.state = .RUNNING ∧
    ((engine (some (adapterAnswering (.ok scenarioResponse))) .RUNNING scenarioRegistry
        oneRunningThread)._onStopped ⟨none, some 3, some true⟩).1.threads.allThreadsStopped =
      true ∧
    (Command.stepIn.exec (engine (some (adapterAnswering (.ok scenarioResponse))) .RUNNING
        scenarioRegistry oneRunningThread)).state ≠ .STOPPED :=
  ⟨(stop_continue_events_keep_state (engine (some (adapterAnswering (.ok scenarioResponse)))
      .RUNNING scenarioRegistry oneRunningThread)).1 ⟨none, some 3, some true⟩,
   (stop_continue_events_keep_state (engine (some (adapterAnswering (.ok scenarioResponse)))
      .RUNNING scenarioRegistry oneRunningThread)).2.2.1 ⟨none, some 3, some true⟩ rfl,
   ((stop_continue_events_keep_state (engine (some (adapterAnswering (.ok scenarioResponse)))
      .RUNNING scenarioRegistry oneRunningThread)).2.2.2.2 .stepIn).1 rfl⟩

/-- C10, the code at the failing input: in state RUNNING with one running
thread of id 3, the stopped event `{threadId: 3, allThreadsStopped: true}` is
handled without error and stops the thread (the registry reports all threads
stopped), yet the session state afterwards is still RUNNING, not STOPPED as the
claim and the comment on `SessionState` say; the continued event for thread 3
that follows is handled without error as well and leaves the state RUNNING. -/
theorem onStopped_leaves_state_running :
    ((engine (some (adapterAnswering (.ok scenarioResponse))) .RUNNING scenarioRegistry
        oneRunningThread)._onStopped ⟨none, some 3, some true⟩).2 = .ok () ∧
    ((engine (some (adapterAnswering (.ok scenarioResponse))) .RUNNING scenarioRegistry
        oneRunningThread)._onStopped ⟨none, some 3, some true⟩).1.threads.allThreadsStopped =
      true ∧
    ((engine (some (adapterAnswering (.ok scenarioResponse))) .RUNNING scenarioRegistry
        oneRunningThread)._onStopped ⟨none, some 3, some true⟩).1.state = .RUNNING ∧
    ((engine (some (adapterAnswering (.ok scenarioResponse))) .RUNNING scenarioRegistry
        oneRunningThread)._onStopped ⟨none, some 3, some true⟩).1.state ≠ .STOPPED ∧
    ((((engine (some (adapterAnswering (.ok scenarioResponse))) .RUNNING scenarioRegistry
        oneRunningThread)._onStopped ⟨none, some 3, some true⟩).1._onContinued ⟨3, none⟩).2 =
      .ok ()) ∧
    (((engine (some (adapterAnswering (.ok scenarioResponse))) .RUNNING scenarioRegistry
        oneRunningThread)._onStopped ⟨none, some 3, some true⟩).1._onContinued
          ⟨3, none⟩).1.state = .RUNNING := by
  refine ⟨rfl, rfl, rfl, by decide, rfl, rfl⟩

/-! ## Lifecycle events -/

theorem relaunch_hostExited (d : Debugger) : d.relaunch.1.hostExited = d.hostExited := by
  unfold relaunch
  split
  · rfl
  · rename_i adapter _
    dsimp only
    have h : (closeSession { d with state := .INITIALIZING }).1.hostExited = d.hostExited := by
      unfold closeSession
      split
      · rfl
      · split <;> rfl
    rcases hg : closeSession { d with state := .INITIALIZING } with ⟨d2, r⟩
    rw [hg] at h
    simp only at h
    cases r with
    | error e => exact h
    | ok u =>
      simp only
      have h3 : (d2.createSession adapter.adapterInfo).1.hostExited = d2.hostExited := by
        unfold createSession
        simp only
        split <;> rfl
      rcases hc : d2.createSession adapter.adapterInfo with ⟨d3, r3⟩
      rw [hc] at h3
      simp only at h3
      cases r3 with
      | error e => exact h3.trans h
      | ok u3 =>
        simp only
        split
        · split
          · exact h3.trans h
          · split <;> exact h3.trans h
        · split
          · exact h3.trans h
          · split <;> exact h3.trans h

theorem relaunch_initializing (d : Debugger) (adapter : ParsedVSAdapter)
    (ha : d.adapter = some adapter) : d.relaunch.1.state = .INITIALIZING := by
  have h1 := relaunch_state { d with state := .INITIALIZING }
  have h2 : relaunch { d with state := .INITIALIZING } = d.relaunch := by
    simp [relaunch, ha]
  rw [h2] at h1
  rcases h1 with h | h <;> exact h

/-- C11: a "terminated" debuggee event is ignored when the state is not RUNNING
(the engine is left exactly as it was: no relaunch, no host termination).  When
the state is RUNNING, the state is set to TERMINATED and the line 'The target
has exited.' is written; for action attach the host is then terminated and
nothing else changes (no relaunch: no request is sent and the session stays),
for action launch `relaunch()` is invoked on that TERMINATED state.  For attach,
a second terminated event then changes nothing. -/
theorem onTerminatedDebugee_spec (d : Debugger) :
    (d.state ≠ .RUNNING → d._onTerminatedDebugee = (d, .ok ())) ∧
    (∀ adapter, d.state = .RUNNING → d.adapter = some adapter → adapter.action = .attach →
      d._onTerminatedDebugee =
        ({ d with state := .TERMINATED,
                  console := d.console.outputLine "The target has exited.",
                  hostExited := true }, .ok ()) ∧
      d._onTerminatedDebugee.1._onTerminatedDebugee = (d._onTerminatedDebugee.1, .ok ())) ∧
    (∀ adapter, d.state = .RUNNING → d.adapter = some adapter → adapter.action = .launch →
      d._onTerminatedDebugee =
        ((relaunch { d with state := .TERMINATED,
                            console := d.console.outputLine "The target has exited." }).1,
          .ok ())) := by
  refine ⟨?_, ?_, ?_⟩
  · intro h
    simp [_onTerminatedDebugee, h]
  · intro adapter hs ha hact
    have h1 : d._onTerminatedDebugee =
        ({ d with state := .TERMINATED,
                  console := d.console.outputLine "The target has exited.",
                  hostExited := true }, .ok ()) := by
      simp [_onTerminatedDebugee, hs, ha, hact]
    refine ⟨h1, ?_⟩
    rw [h1]
    simp [_onTerminatedDebugee]
  · intro adapter hs ha hact
    simp [_onTerminatedDebugee, hs, ha, hact]

/-- C11, witness: an attached engine in state RUNNING, and the same engine in
state TERMINATED. -/
theorem onTerminatedDebugee_spec_witness :
    (engineFor (adapterFor .attach) .RUNNING oneRunningThread)._onTerminatedDebugee.1.state =
      .TERMINATED ∧
    (engineFor (adapterFor .attach) .RUNNING oneRunningThread)._onTerminatedDebugee.1.hostExited =
      true ∧
    (engineFor (adapterFor .attach) .RUNNING oneRunningThread)._onTerminatedDebugee.1.requests =
      [] ∧
    (engineFor (adapterFor .attach) .TERMINATED oneRunningThread)._onTerminatedDebugee =
      (engineFor (adapterFor .attach) .TERMINATED oneRunningThread, .ok ()) := by
  have h := ((onTerminatedDebugee_spec (engineFor (adapterFor .attach) .RUNNING
    oneRunningThread)).2.1 (adapterFor .attach) rfl rfl rfl).1
  have h2 := (onTerminatedDebugee_spec (engineFor (adapterFor .attach) .TERMINATED
    oneRunningThread)).1 (by decide)
  refine ⟨?_, ?_, ?_, h2⟩
  · rw [h]
  · rw [h]
  · rw [h]; rfl

/-- C12: an "exited" debuggee event, from any state, sets the state to
TERMINATED and writes the exit status.  When the action was launch,
`relaunch()` is then invoked on that TERMINATED state, so that the state is
INITIALIZING once the handler returns, and the host is not terminated; when the
action was attach, the host is terminated and nothing else changes (no
relaunch: no request is sent and the session stays). -/
theorem onExitedDebugee_spec (d : Debugger) (event : ExitedEvent) (adapter : ParsedVSAdapter)
    (ha : d.adapter = some adapter) :
    (adapter.action = .launch →
      d._onExitedDebugee event =
        ((relaunch { d with state := .TERMINATED,
                            console := d.console.outputLine
                              ("Target exited with status " ++ toString event.exitCode) }).1,
          .ok ()) ∧
      (d._onExitedDebugee event).1.state = .INITIALIZING ∧
      (d._onExitedDebugee event).1.hostExited = d.hostExited) ∧
    (adapter.action = .attach →
      d._onExitedDebugee event =
        ({ d with state := .TERMINATED,
                  console := d.console.outputLine
                    ("Target exited with status " ++ toString event.exitCode),
                  hostExited := true }, .ok ())) := by
  constructor
  · intro hact
    have h1 : d._onExitedDebugee event =
        ((relaunch { d with state := .TERMINATED,
                            console := d.console.outputLine
                              ("Target exited with status " ++ toString event.exitCode) }).1,
          .ok ()) := by
      simp [_onExitedDebugee, ha, hact]
    refine ⟨h1, ?_, ?_⟩
    · rw [h1]
      exact relaunch_initializing _ adapter ha
    · rw [h1]
      simp only
      rw [relaunch_hostExited]
  · intro hact
    simp [_onExitedDebugee, ha, hact]

/-- C12, witness: a launched engine and an attached engine, both stopped at a
breakpoint in state RUNNING, receive `exited` with status 0. -/
theorem onExitedDebugee_spec_witness :
    ((engineFor (adapterFor .launch) .RUNNING oneRunningThread)._onExitedDebugee ⟨0⟩).1.state =
      .INITIALIZING ∧
    ((engineFor (adapterFor .launch) .RUNNING oneRunningThread)._onExitedDebugee
      ⟨0⟩).1.hostExited = false ∧
    ((engineFor (adapterFor .launch) .RUNNING oneRunningThread)._onExitedDebugee
      ⟨0⟩).1.requests = [.disconnect, .initializeReq, .launch] ∧
    ((engineFor (adapterFor .attach) .RUNNING oneRunningThread)._onExitedDebugee ⟨0⟩).1.state =
      .TERMINATED ∧
    ((engineFor (adapterFor .attach) .RUNNING oneRunningThread)._onExitedDebugee
      ⟨0⟩).1.hostExited = true := by
  have h := (onExitedDebugee_spec (engineFor (adapterFor .launch) .RUNNING oneRunningThread) ⟨0⟩
    (adapterFor .launch) rfl).1 rfl
  have h2 := (onExitedDebugee_spec (engineFor (adapterFor .attach) .RUNNING oneRunningThread) ⟨0⟩
    (adapterFor .attach) rfl).2 rfl
  refine ⟨h.2.1, h.2.2, rfl, ?_, ?_⟩
  · rw [h2]
  · rw [h2]

/-! ## The configuration step -/

theorem resetResponses_none (session : VsDebugSession) (c : BreakpointCollection)
    (l : List (String × List Breakpoint)) (h : (resetResponses session c l).2 = none) :
    ∀ pb ∈ l, ∃ out, session.setBreakpoints pb.1 (resetRequest pb.2) = .ok out := by
  induction l generalizing c with
  | nil => intro pb hpb; cases hpb
  | cons p rest ih =>
    obtain ⟨path, bs⟩ := p
    intro pb hpb
    simp only [resetResponses] at h
    cases hr : session.setBreakpoints path (resetRequest bs) with
    | error e => rw [hr] at h; simp at h
    | ok out =>
      rw [hr] at h
      simp only at h
      rcases List.mem_cons.1 hpb with rfl | hmem
      · exact ⟨out, hr⟩
      · exact ih _ h pb hmem

/-- The bulk push in state RUNNING with a session: all requests are recorded,
and the outcome is that of the responses. -/
theorem resetAllBreakpoints_running (d : Debugger) (session : VsDebugSession)
    (hs : d.debugSession = some session) (hst : d.state = .RUNNING) :
    d._resetAllBreakpoints =
      ({ d with
          requests := d.requests ++ d.breakpoints.getAllEnabledBreakpointsByPath.map
            (fun pb => Request.setBreakpoints pb.1 (resetRequest pb.2)),
          breakpoints := (resetResponses session d.breakpoints
            d.breakpoints.getAllEnabledBreakpointsByPath).1 },
        match (resetResponses session d.breakpoints
            d.breakpoints.getAllEnabledBreakpointsByPath).2 with
        | none => .ok ()
        | some e => .error e) := by
  have hg : d._ensureDebugSession false = .ok session := by
    simp [_ensureDebugSession, hs, hst]
  simp only [_resetAllBreakpoints, hg]
  rcases hr : resetResponses session d.breakpoints d.breakpoints.getAllEnabledBreakpointsByPath
    with ⟨c, oe⟩
  cases oe <;> rfl

theorem cacheThreads_session (d : Debugger) (h : d.debugSession.isSome = true) :
    d._cacheThreads.1.requests = d.requests ++ [.threads] ∧
      d._cacheThreads.1.console = d.console ∧ d._cacheThreads.1.state = d.state := by
  unfold _cacheThreads
  split
  · rename_i hn
    rw [hn] at h
    cases h
  · split <;> exact ⟨rfl, rfl, rfl⟩

theorem cacheThreads_requests (d : Debugger) (h : d.debugSession.isSome = true) :
    d._cacheThreads.1.requests = d.requests ++ [.threads] :=
  (cacheThreads_session d h).1

theorem cacheThreads_console (d : Debugger) (h : d.debugSession.isSome = true) :
    d._cacheThreads.1.console = d.console :=
  (cacheThreads_session d h).2.1

/-- The request trace of `_configurationDone` with a session present: the
trace after the step is the trace before followed by an initial part of
`configurationDoneRequests`; when the step completes the whole sequence was
sent and the console is the console before with the input loop closed; when
the step fails the console is untouched; a rejected set-breakpoints request
makes the step fail with nothing sent after the set-breakpoints requests; the
state afterwards is RUNNING. -/
theorem configurationDone_trace (d : Debugger) (session : VsDebugSession)
    (hs : d.debugSession = some session) :
    (∃ suffix, d._configurationDone.1.requests ++ suffix =
      d.requests ++ configurationDoneRequests d) ∧
    (d._configurationDone.2 = .ok () →
      d._configurationDone.1.requests = d.requests ++ configurationDoneRequests d ∧
      d._configurationDone.1.console = d.console.stopInput) ∧
    (∀ e, d._configurationDone.2 = .error e → d._configurationDone.1.console = d.console) ∧
    (∀ pb ∈ d.breakpoints.getAllEnabledBreakpointsByPath,
      ∀ e, session.setBreakpoints pb.1 (resetRequest pb.2) = .error e →
      (∃ e2, d._configurationDone.2 = .error e2) ∧
      d._configurationDone.1.requests =
        d.requests ++ d.breakpoints.getAllEnabledBreakpointsByPath.map
          (fun pb => Request.setBreakpoints pb.1 (resetRequest pb.2))) ∧
    d._configurationDone.1.state = .RUNNING := by
  have hg : d._ensureDebugSession true = .ok session := by simp [_ensureDebugSession, hs]
  have hreset := resetAllBreakpoints_running { d with state := .RUNNING } session hs rfl
  simp only at hreset
  simp only [_configurationDone, hg, hreset, configurationDoneRequests]
  rcases hr : resetResponses session d.breakpoints d.breakpoints.getAllEnabledBreakpointsByPath
    with ⟨c, oe⟩
  have hnone := resetResponses_none session d.breakpoints
    d.breakpoints.getAllEnabledBreakpointsByPath
  rw [hr] at hnone
  cases oe with
  | some e0 =>
    refine ⟨⟨[Request.setExceptionBreakpoints []] ++
      (if d.capabilities.map (fun c => c.supportsConfigurationDoneRequest) = some true then
        [Request.configurationDone] else []) ++ [Request.threads], by simp⟩,
      by simp, by simp, ?_, rfl⟩
    intro pb _ e _
    exact ⟨⟨e0, rfl⟩, rfl⟩
  | none =>
    have hall := hnone rfl
    have hno : ∀ pb ∈ d.breakpoints.getAllEnabledBreakpointsByPath,
        ∀ e, session.setBreakpoints pb.1 (resetRequest pb.2) = .error e → False := by
      intro pb hpb e he
      obtain ⟨out, ho⟩ := hall pb hpb
      rw [ho] at he
      cases he
    simp only
    cases hx : session.setExceptionBreakpoints [] with
    | error e1 =>
      refine ⟨⟨(if d.capabilities.map (fun c => c.supportsConfigurationDoneRequest) = some true
        then [Request.configurationDone] else []) ++ [Request.threads], by simp [send]⟩,
        by simp, by simp [send], ?_, rfl⟩
      intro pb hpb e he
      exact (hno pb hpb e he).elim
    | ok u =>
      simp only [send]
      cases hc : d.capabilities with
      | none =>
        refine ⟨⟨[.threads], by simp⟩, by simp, by simp, ?_, rfl⟩
        intro pb hpb e he
        exact (hno pb hpb e he).elim
      | some caps =>
        simp only [Option.map_some', Option.some.injEq]
        by_cases hsup : caps.supportsConfigurationDoneRequest = true
        · simp only [hsup, if_true]
          cases hcd : session.configurationDone with
          | error e2 =>
            refine ⟨⟨[.threads], by simp⟩, by simp, by simp, ?_, rfl⟩
            intro pb hpb e he
            exact (hno pb hpb e he).elim
          | ok u2 =>
            have hsome : d.debugSession.isSome = true := by rw [hs]; rfl
            refine ⟨⟨[], ?_⟩, ?_, by simp, ?_, ?_⟩
            · simp [cacheThreads_requests, hsome]
            · intro _
              refine ⟨by simp [cacheThreads_requests, hsome], ?_⟩
              simp [cacheThreads_console, hsome]
            · intro pb hpb e he
              exact (hno pb hpb e he).elim
            · simp [cacheThreads_state]
        · have hsup2 : caps.supportsConfigurationDoneRequest = false := by
            simpa using hsup
          simp only [hsup2, Bool.false_eq_true, if_false]
          have hsome : d.debugSession.isSome = true := by rw [hs]; rfl
          refine ⟨⟨[], ?_⟩, ?_, by simp, ?_, ?_⟩
          · simp [cacheThreads_requests, hsome]
          · intro _
            refine ⟨by simp [cacheThreads_requests, hsome], ?_⟩
            simp [cacheThreads_console, hsome]
          · intro pb hpb e he
            exact (hno pb hpb e he).elim
          · simp [cacheThreads_state]

/-- When every set-breakpoints request of the bulk push is accepted, no
rejection is recorded. -/
theorem resetResponses_ok (session : VsDebugSession) (c : BreakpointCollection)
    (l : List (String × List Breakpoint))
    (h : ∀ pb ∈ l, ∃ out, session.setBreakpoints pb.1 (resetRequest pb.2) = .ok out) :
    (resetResponses session c l).2 = none := by
  induction l generalizing c with
  | nil => rfl
  | cons p rest ih =>
    obtain ⟨path, bs⟩ := p
    obtain ⟨out, ho⟩ := h (path, bs) (List.mem_cons_self _ _)
    simp only at ho
    simp only [resetResponses, ho]
    exact ih _ (fun pb hpb => h pb (List.mem_cons_of_mem _ hpb))

/-- The step `_configurationDone` on an adapter that accepts every
set-breakpoints request.  A rejected set-exception-breakpoints request ends the
step with that rejection, set-exception-breakpoints being the last request
sent; so does a rejected configuration-done request, when the capability is
declared; in both cases the console is untouched.  When the adapter accepts
these requests too and capabilities were negotiated, the step completes. -/
theorem configurationDone_accepted (d : Debugger) (session : VsDebugSession)
    (hs : d.debugSession = some session)
    (hbp : ∀ pb ∈ d.breakpoints.getAllEnabledBreakpointsByPath,
      ∃ out, session.setBreakpoints pb.1 (resetRequest pb.2) = .ok out) :
    (∀ e, session.setExceptionBreakpoints [] = .error e →
      d._configurationDone.2 = .error e ∧
      d._configurationDone.1.requests =
        d.requests ++ d.breakpoints.getAllEnabledBreakpointsByPath.map
          (fun pb => Request.setBreakpoints pb.1 (resetRequest pb.2)) ++
          [Request.setExceptionBreakpoints []] ∧
      d._configurationDone.1.console = d.console) ∧
    (∀ caps e, session.setExceptionBreakpoints [] = .ok () → d.capabilities = some caps →
      caps.supportsConfigurationDoneRequest = true → session.configurationDone = .error e →
      d._configurationDone.2 = .error e ∧
      d._configurationDone.1.requests =
        d.requests ++ d.breakpoints.getAllEnabledBreakpointsByPath.map
          (fun pb => Request.setBreakpoints pb.1 (resetRequest pb.2)) ++
          [Request.setExceptionBreakpoints [], Request.configurationDone] ∧
      d._configurationDone.1.console = d.console) ∧
    (∀ caps, session.setExceptionBreakpoints [] = .ok () → d.capabilities = some caps →
      (caps.supportsConfigurationDoneRequest = true → session.configurationDone = .ok ()) →
      d._configurationDone.2 = .ok ()) := by
  have hg : d._ensureDebugSession true = .ok session := by simp [_ensureDebugSession, hs]
  have hreset := resetAllBreakpoints_running { d with state := .RUNNING } session hs rfl
  simp only at hreset
  have hnone := resetResponses_ok session d.breakpoints
    d.breakpoints.getAllEnabledBreakpointsByPath hbp
  simp only [_configurationDone, hg, hreset]
  rcases hr : resetResponses session d.breakpoints d.breakpoints.getAllEnabledBreakpointsByPath
    with ⟨c, oe⟩
  rw [hr] at hnone
  simp only at hnone
  subst hnone
  simp only
  refine ⟨?_, ?_, ?_⟩
  · intro e he
    simp [he, send]
  · intro caps e hx hc hsup hcd
    simp [hx, send, hc, hsup, hcd]
  · intro caps hx hc hcd
    simp only [hx, send, hc]
    by_cases hsup : caps.supportsConfigurationDoneRequest = true
    · simp only [hsup, if_true, hcd hsup]
    · have hsup2 : caps.supportsConfigurationDoneRequest = false := by simpa using hsup
      simp only [hsup2, Bool.false_eq_true, if_false]

/-- With a session, `_configurationDone` leaves the state RUNNING; the console
has the input loop closed when the step completes and is untouched when it
fails. -/
theorem configurationDone_session (d : Debugger) (session : VsDebugSession)
    (hs : d.debugSession = some session) :
    d._configurationDone.1.state = .RUNNING ∧
      (d._configurationDone.2 = .ok () →
        d._configurationDone.1.console = d.console.stopInput) ∧
      (∀ e, d._configurationDone.2 = .error e → d._configurationDone.1.console = d.console) := by
  have hg : d._ensureDebugSession true = .ok session := by simp [_ensureDebugSession, hs]
  have hsome : d.debugSession.isSome = true := by rw [hs]; rfl
  have hreset := resetAllBreakpoints_running { d with state := .RUNNING } session hs rfl
  simp only at hreset
  simp only [_configurationDone, hg, hreset]
  rcases resetResponses session d.breakpoints d.breakpoints.getAllEnabledBreakpointsByPath
    with ⟨c, oe⟩
  cases oe with
  | some e0 => exact ⟨rfl, by simp, by simp⟩
  | none =>
    simp only
    cases session.setExceptionBreakpoints [] with
    | error e1 => exact ⟨rfl, by simp, by simp [send]⟩
    | ok u =>
      simp only [send]
      cases d.capabilities with
      | none => exact ⟨rfl, by simp, by simp⟩
      | some caps =>
        simp only
        by_cases hsup : caps.supportsConfigurationDoneRequest = true
        · simp only [hsup, if_true]
          cases session.configurationDone with
          | error e2 => exact ⟨rfl, by simp, by simp⟩
          | ok u2 =>
            exact ⟨by simp [cacheThreads_state],
              fun _ => by simp [cacheThreads_console, hsome], by simp⟩
        · have hsup2 : caps.supportsConfigurationDoneRequest = false := by simpa using hsup
          simp only [hsup2, Bool.false_eq_true, if_false]
          exact ⟨by simp [cacheThreads_state],
            fun _ => by simp [cacheThreads_console, hsome], by simp⟩

/-- C14 (amended): with a session present, the requests of the CONFIGURING ->
RUNNING step go out in this order: one set-breakpoints request per path (all of
them before anything else), then set-exception-breakpoints with an empty filter
list, then configuration-done if and only if the capabilities declare
`supportsConfigurationDoneRequest`, then the thread-list request.  The sequence
is cut at the first rejected request: the trace after the step is always the
trace before followed by an initial part of that sequence; when a
set-breakpoints request is rejected nothing further is sent; when
set-exception-breakpoints is rejected it is the last request sent; when
configuration-done is rejected it is the last request sent; in each of these
cases the step fails with the rejection and the console is untouched, so the
input loop is not closed.  When the adapter accepts every set-breakpoints
request, set-exception-breakpoints and (if the capability is declared)
configuration-done, and capabilities were negotiated, the step completes; and
whenever the step completes the whole sequence was sent and the console is the
console before with the input loop closed.  The state afterwards is RUNNING. -/
theorem configurationDone_order (d : Debugger) (session : VsDebugSession)
    (hs : d.debugSession = some session) :
    (∃ suffix, d._configurationDone.1.requests ++ suffix =
      d.requests ++ configurationDoneRequests d) ∧
    (d._configurationDone.2 = .ok () →
      d._configurationDone.1.requests = d.requests ++ configurationDoneRequests d ∧
      d._configurationDone.1.console = d.console.stopInput) ∧
    (∀ e, d._configurationDone.2 = .error e → d._configurationDone.1.console = d.console) ∧
    (∀ pb ∈ d.breakpoints.getAllEnabledBreakpointsByPath,
      ∀ e, session.setBreakpoints pb.1 (resetRequest pb.2) = .error e →
      (∃ e2, d._configurationDone.2 = .error e2) ∧
      d._configurationDone.1.requests =
        d.requests ++ d.breakpoints.getAllEnabledBreakpointsByPath.map
          (fun pb => Request.setBreakpoints pb.1 (resetRequest pb.2))) ∧
    d._configurationDone.1.state = .RUNNING ∧
    (Request.configurationDone ∈ configurationDoneRequests d ↔
      d.capabilities.map (fun c => c.supportsConfigurationDoneRequest) = some true) ∧
    ((∀ pb ∈ d.breakpoints.getAllEnabledBreakpointsByPath,
        ∃ out, session.setBreakpoints pb.1 (resetRequest pb.2) = .ok out) →
      (∀ e, session.setExceptionBreakpoints [] = .error e →
        d._configurationDone.2 = .error e ∧
        d._configurationDone.1.requests =
          d.requests ++ d.breakpoints.getAllEnabledBreakpointsByPath.map
            (fun pb => Request.setBreakpoints pb.1 (resetRequest pb.2)) ++
            [Request.setExceptionBreakpoints []] ∧
        d._configurationDone.1.console = d.console) ∧
      (∀ caps e, session.setExceptionBreakpoints [] = .ok () → d.capabilities = some caps →
        caps.supportsConfigurationDoneRequest = true → session.configurationDone = .error e →
        d._configurationDone.2 = .error e ∧
        d._configurationDone.1.requests =
          d.requests ++ d.breakpoints.getAllEnabledBreakpointsByPath.map
            (fun pb => Request.setBreakpoints pb.1 (resetRequest pb.2)) ++
            [Request.setExceptionBreakpoints [], Request.configurationDone] ∧
        d._configurationDone.1.console = d.console) ∧
      (∀ caps, session.setExceptionBreakpoints [] = .ok () → d.capabilities = some caps →
        (caps.supportsConfigurationDoneRequest = true → session.configurationDone = .ok ()) →
        d._configurationDone.2 = .ok () ∧
        d._configurationDone.1.requests = d.requests ++ configurationDoneRequests d ∧
        d._configurationDone.1.console = d.console.stopInput)) := by
  obtain ⟨h1, h2, h3, h4, h5⟩ := configurationDone_trace d session hs
  refine ⟨h1, h2, h3, h4, h5, ?_, ?_⟩
  · unfold configurationDoneRequests
    by_cases hc : d.capabilities.map (fun c => c.supportsConfigurationDoneRequest) = some true
    · simp [hc]
    · simp [hc]
  · intro hbp
    obtain ⟨a1, a2, a3⟩ := configurationDone_accepted d session hs hbp
    refine ⟨a1, a2, ?_⟩
    intro caps hx hc hcd
    have hok := a3 caps hx hc hcd
    exact ⟨hok, (h2 hok).1, (h2 hok).2⟩

/-- C14, witness: the step on an attached engine whose adapter accepts every
request and whose registry holds the two breakpoints of `/a.js`; on an engine
whose adapter rejects the set-breakpoints request; and on an engine whose
adapter rejects the set-exception-breakpoints request. -/
theorem configurationDone_order_witness :
    ((engineFor (adapterFor .attach) .CONFIGURING oneRunningThread)._configurationDone.2 =
        .ok () ∧
      (engineFor (adapterFor .attach) .CONFIGURING oneRunningThread)._configurationDone.1.requests =
        [.setBreakpoints "/a.js" [⟨10, some false⟩, ⟨20, some false⟩],
         .setExceptionBreakpoints [], .configurationDone, .threads] ∧
      (engineFor (adapterFor .attach) .CONFIGURING
        oneRunningThread)._configurationDone.1.console.inputOpen = false) ∧
    ((∃ e2, (engine (some (adapterAnswering (.error (.error "rejected")))) .CONFIGURING
        scenarioRegistry oneRunningThread)._configurationDone.2 = .error e2) ∧
      (engine (some (adapterAnswering (.error (.error "rejected")))) .CONFIGURING
          scenarioRegistry oneRunningThread)._configurationDone.1.requests =
        [.setBreakpoints "/a.js" [⟨10, some false⟩, ⟨20, some false⟩]]) ∧
    ((promptEngine adapterRejectingExceptionBreakpoints)._configurationDone.2 =
        .error (.error "rejected") ∧
      (promptEngine adapterRejectingExceptionBreakpoints)._configurationDone.1.requests =
        [.setBreakpoints "/a.js" [⟨10, some false⟩, ⟨20, some false⟩],
         .setExceptionBreakpoints []] ∧
      (promptEngine adapterRejectingExceptionBreakpoints)._configurationDone.1.console =
        ⟨true, []⟩) := by
  have h1 := (configurationDone_order (engineFor (adapterFor .attach) .CONFIGURING
    oneRunningThread) (adapterAnswering (.ok [])) rfl).2.2.2.2.2.2
    (fun _ _ => ⟨[], rfl⟩)
  have h1c := h1.2.2 ⟨true⟩ rfl rfl (fun _ => rfl)
  have h2 := (configurationDone_order (engine (some (adapterAnswering (.error (.error
    "rejected")))) .CONFIGURING scenarioRegistry oneRunningThread)
    (adapterAnswering (.error (.error "rejected"))) rfl).2.2.2.1
    ("/a.js", scenarioRegistry.getAllEnabledBreakpointsForSource "/a.js") (by decide)
    (.error "rejected") rfl
  have h3 := ((configurationDone_order (promptEngine adapterRejectingExceptionBreakpoints)
    adapterRejectingExceptionBreakpoints rfl).2.2.2.2.2.2
    (fun _ _ => ⟨[], rfl⟩)).1 (.error "rejected") rfl
  refine ⟨⟨h1c.1, ?_, ?_⟩, ⟨h2.1, ?_⟩, ⟨h3.1, ?_, ?_⟩⟩
  · rw [h1c.2.1]; rfl
  · rw [h1c.2.2]; rfl
  · rw [h2.2]; rfl
  · rw [h3.2.1]; rfl
  · rw [h3.2.2]; rfl

/-- C14, counterexample: an execution of the step in which the capability
`supportsConfigurationDoneRequest` is declared, yet no configuration-done
request and no thread-list request is sent and the input loop is not closed.
The engine is at the prompt in state CONFIGURING with the input loop open; the
adapter accepts the set-breakpoints request and rejects
set-exception-breakpoints.  The step fails with the rejection, the trace ends
with the set-exception-breakpoints request, and the input loop is still
open. -/
theorem configurationDone_rejected_counterexample :
    (promptEngine adapterRejectingExceptionBreakpoints).capabilities = some ⟨true⟩ ∧
    (promptEngine adapterRejectingExceptionBreakpoints).console.inputOpen = true ∧
    (promptEngine adapterRejectingExceptionBreakpoints)._configurationDone.2 =
      .error (.error "rejected") ∧
    (promptEngine adapterRejectingExceptionBreakpoints)._configurationDone.1.requests =
      [.setBreakpoints "/a.js" [⟨10, some false⟩, ⟨20, some false⟩],
       .setExceptionBreakpoints []] ∧
    Request.configurationDone ∉
      (promptEngine adapterRejectingExceptionBreakpoints)._configurationDone.1.requests ∧
    Request.threads ∉
      (promptEngine adapterRejectingExceptionBreakpoints)._configurationDone.1.requests ∧
    (promptEngine adapterRejectingExceptionBreakpoints)._configurationDone.1.console.inputOpen =
      true := by
  have hr : (promptEngine adapterRejectingExceptionBreakpoints)._configurationDone.1.requests =
      [.setBreakpoints "/a.js" [⟨10, some false⟩, ⟨20, some false⟩],
       .setExceptionBreakpoints []] := rfl
  refine ⟨rfl, rfl, rfl, hr, ?_, ?_, rfl⟩
  · rw [hr]; decide
  · rw [hr]; decide

/-- C13: handling the adapter's "initialized" event.  For action launch the
state becomes CONFIGURING, the input loop is opened and nothing else changes
(no request is sent).  For action attach the configuration-done sequence runs
at once on the CONFIGURING state, without any run command; with a session
present the state afterwards is RUNNING and the input loop is not opened: when
the sequence completes the input loop is closed, and when it fails the console
is as it was before the event.  The requests sent are an initial part of the
configuration-done sequence (set-breakpoints per path, set-exception-breakpoints
with no filter, configuration-done when the capability is declared, threads);
when the adapter accepts them and capabilities were negotiated the handler
completes, and whenever it completes the whole sequence was sent. -/
theorem onInitialized_spec (d : Debugger) (adapter : ParsedVSAdapter)
    (ha : d.adapter = some adapter) :
    (adapter.action = .launch →
      d._onInitialized =
        ({ d with state := .CONFIGURING, console := d.console.startInput }, .ok ()) ∧
      d._onInitialized.1.state = .CONFIGURING ∧
      d._onInitialized.1.console.inputOpen = true ∧
      d._onInitialized.1.requests = d.requests) ∧
    (adapter.action = .attach →
      d._onInitialized = _configurationDone { d with state := .CONFIGURING } ∧
      ∀ session, d.debugSession = some session →
        d._onInitialized.1.state = .RUNNING ∧
        (d._onInitialized.2 = .ok () → d._onInitialized.1.console = d.console.stopInput) ∧
        (∀ e, d._onInitialized.2 = .error e → d._onInitialized.1.console = d.console) ∧
        (∃ suffix, d._onInitialized.1.requests ++ suffix =
          d.requests ++ configurationDoneRequests d) ∧
        (d._onInitialized.2 = .ok () →
          d._onInitialized.1.requests = d.requests ++ configurationDoneRequests d) ∧
        (∀ caps,
          (∀ pb ∈ d.breakpoints.getAllEnabledBreakpointsByPath,
            ∃ out, session.setBreakpoints pb.1 (resetRequest pb.2) = .ok out) →
          session.setExceptionBreakpoints [] = .ok () → d.capabilities = some caps →
          (caps.supportsConfigurationDoneRequest = true → session.configurationDone = .ok ()) →
          d._onInitialized.2 = .ok () ∧
          d._onInitialized.1.requests = d.requests ++ configurationDoneRequests d ∧
          d._onInitialized.1.console = d.console.stopInput)) := by
  constructor
  · intro hact
    have h : d._onInitialized =
        ({ d with state := .CONFIGURING, console := d.console.startInput }, .ok ()) := by
      simp [_onInitialized, ha, hact]
    refine ⟨h, ?_, ?_, ?_⟩ <;> rw [h]
    rfl
  · intro hact
    have h : d._onInitialized = _configurationDone { d with state := .CONFIGURING } := by
      simp [_onInitialized, ha, hact]
    refine ⟨h, ?_⟩
    intro session hs
    rw [h]
    obtain ⟨s1, s2, s3⟩ := configurationDone_session { d with state := .CONFIGURING } session hs
    obtain ⟨t1, t2, -, -, -⟩ := configurationDone_trace { d with state := .CONFIGURING } session hs
    refine ⟨s1, s2, s3, t1, fun hok => (t2 hok).1, ?_⟩
    intro caps hbp hx hc hcd
    have hok := (configurationDone_accepted { d with state := .CONFIGURING } session hs hbp).2.2
      caps hx hc hcd
    exact ⟨hok, (t2 hok).1, (t2 hok).2⟩

/-- C13, witness: a launched engine and an attached engine, both INITIALIZING,
receive the "initialized" event.  The launched engine ends CONFIGURING with the
input loop open and no request sent; the attached engine, whose adapter accepts
every request, ends RUNNING with the input loop closed, having sent the
set-breakpoints request for `/a.js`, set-exception-breakpoints,
configuration-done and the thread-list request, in this order. -/
theorem onInitialized_spec_witness :
    ((engineFor (adapterFor .launch) .INITIALIZING oneRunningThread)._onInitialized.1.state =
        .CONFIGURING ∧
      (engineFor (adapterFor .launch) .INITIALIZING
        oneRunningThread)._onInitialized.1.console.inputOpen = true ∧
      (engineFor (adapterFor .launch) .INITIALIZING oneRunningThread)._onInitialized.1.requests =
        []) ∧
    (engineFor (adapterFor .attach) .INITIALIZING oneRunningThread)._onInitialized.1.state =
      .RUNNING ∧
    (engineFor (adapterFor .attach) .INITIALIZING oneRunningThread)._onInitialized.1.console =
      ⟨false, []⟩ ∧
    (engineFor (adapterFor .attach) .INITIALIZING oneRunningThread)._onInitialized.2 = .ok () ∧
    (engineFor (adapterFor .attach) .INITIALIZING oneRunningThread)._onInitialized.1.requests =
      [.setBreakpoints "/a.js" [⟨10, some false⟩, ⟨20, some false⟩],
       .setExceptionBreakpoints [], .configurationDone, .threads] := by
  have h1 := ((onInitialized_spec (engineFor (adapterFor .launch) .INITIALIZING oneRunningThread)
    (adapterFor .launch) rfl).1 rfl).2
  have h2 := ((onInitialized_spec (engineFor (adapterFor .attach) .INITIALIZING oneRunningThread)
    (adapterFor .attach) rfl).2 rfl).2 (adapterAnswering (.ok [])) rfl
  have h3 := h2.2.2.2.2.2 ⟨true⟩ (fun _ _ => ⟨[], rfl⟩) rfl rfl (fun _ => rfl)
  refine ⟨h1, h2.1, ?_, h3.1, ?_⟩
  · rw [h3.2.2]; rfl
  · rw [h3.2.1]; rfl

/-! ## Stop events -/

theorem find_id_map (l : List Thread) (t : Nat) (f : Thread → Thread)
    (hf : ∀ x, (f x).id = x.id) :
    (l.map f).find? (fun x => x.id == t) = (l.find? (fun x => x.id == t)).map f := by
  rw [List.find?_map]
  have : ((fun x : Thread => x.id == t) ∘ f) = (fun x => x.id == t) := by
    funext x
    simp [Function.comp, hf]
  rw [this]

theorem getThreadById_eq_ok (c : ThreadCollection) (t : Nat) (th : Thread) :
    c.getThreadById t = .ok th ↔ c.threads.find? (fun x => x.id == t) = some th := by
  unfold ThreadCollection.getThreadById
  cases h : c.threads.find? (fun x => x.id == t) <;> simp

theorem stoppedThreads_all (ts : ThreadCollection) (event : StoppedEvent)
    (h : event.allThreadsStopped = some true) :
    stoppedThreads ts event = some (.ok
      ⟨ts.threads.map (fun x => { x with running := false, selectedStackFrame := none }),
        ts.focusThreadId⟩) := by
  simp [stoppedThreads, h, ThreadCollection.markAllThreadsStopped,
    Thread.clearSelectedStackFrame, Function.comp_def]

theorem stoppedThreads_named (ts : ThreadCollection) (event : StoppedEvent) (t : Nat)
    (th : Thread) (h : event.allThreadsStopped ≠ some true) (ht : event.threadId = some t)
    (hth : ts.getThreadById t = .ok th) :
    stoppedThreads ts event = some (.ok
      ⟨ts.threads.map (fun x =>
          if x.id = t then { x with running := false, selectedStackFrame := none } else x),
        ts.focusThreadId⟩) := by
  have hfind := (getThreadById_eq_ok ts t th).1 hth
  have hmarked : (ts.modify t (fun x => { x with running := false })).getThreadById t =
      .ok { th with running := false } := by
    rw [getThreadById_eq_ok]
    simp only [ThreadCollection.modify]
    rw [find_id_map _ _ _ (by intro x; split <;> rfl), hfind]
    have hid : th.id = t := by simpa using List.find?_some hfind
    simp [hid]
  simp only [stoppedThreads, h, if_false, ht, ThreadCollection.markThreadStopped, hth, hmarked]
  simp only [ThreadCollection.modify, List.map_map, Thread.clearSelectedStackFrame]
  congr 3
  apply List.map_congr_left
  intro x _
  by_cases hx : x.id = t <;> simp [hx]

theorem stoppedThreads_focus (ts stopped : ThreadCollection) (event : StoppedEvent)
    (h : stoppedThreads ts event = some (.ok stopped)) :
    stopped.focusThreadId = ts.focusThreadId := by
  by_cases hall : event.allThreadsStopped = some true
  · rw [stoppedThreads_all ts event hall] at h
    simp only [Option.some.injEq, Except.ok.injEq] at h
    rw [← h]
  · cases ht : event.threadId with
    | none => simp [stoppedThreads, hall, ht] at h
    | some t =>
      cases hth : ts.getThreadById t with
      | error e => simp [stoppedThreads, hall, ht, ThreadCollection.markThreadStopped, hth] at h
      | ok th =>
        rw [stoppedThreads_named ts event t th hall ht hth] at h
        simp only [Option.some.injEq, Except.ok.injEq] at h
        rw [← h]

theorem getStackTrace_guarded (d : Debugger) (session : VsDebugSession) (t l : Nat)
    (hg : d._ensureDebugSession false = .ok session) :
    d.getStackTrace t l = (d.send (.stackTrace t l), session.stackTrace t l) := by
  simp only [getStackTrace, hg]
  cases session.stackTrace t l <;> rfl

theorem getSourceByReference_requests (d : Debugger) (ref : Nat) :
    ∃ rest, (d._getSourceByReference ref).1.requests = d.requests ++ rest ∧
      ∀ r ∈ rest, ∃ ref, r = Request.source ref := by
  unfold _getSourceByReference
  split
  · exact ⟨[], by simp, by simp⟩
  · split
    · exact ⟨[.source ref], rfl, by simp⟩
    · exact ⟨[.source ref], rfl, by simp⟩

theorem sourceText_requests (d : Debugger) (source : Source) :
    ∃ rest, (d.sourceText source).1.requests = d.requests ++ rest ∧
      ∀ r ∈ rest, ∃ ref, r = Request.source ref := by
  unfold sourceText
  split
  · rename_i ref _
    unfold getFileDataBySourceReference
    split
    · exact ⟨[], by simp, by simp⟩
    · have h := getSourceByReference_requests d (ref + 1)
      rcases hg : d._getSourceByReference (ref + 1) with ⟨d1, r⟩
      rw [hg] at h
      cases r <;> exact h
  · split
    · unfold getFileDataByPath
      split
      · exact ⟨[], by simp, by simp⟩
      · split <;> exact ⟨[], by simp, by simp⟩
    · exact ⟨[], by simp, by simp⟩

theorem getSourceLines_requests (d : Debugger) (source : Source) (start length : Int) :
    ∃ rest, (d.getSourceLines source start length).1.requests = d.requests ++ rest ∧
      ∀ r ∈ rest, ∃ ref, r = Request.source ref := by
  have h := sourceText_requests d source
  unfold getSourceLines
  rcases hg : d.sourceText source with ⟨d1, r⟩
  rw [hg] at h
  cases r with
  | error e => exact h
  | ok lines =>
    simp only
    split <;> exact h

theorem getTopOfStackSourceInfo_requests (d : Debugger) (session : VsDebugSession) (t : Nat)
    (hg : d._ensureDebugSession false = .ok session) :
    ∃ rest, (d._getTopOfStackSourceInfo t).1.requests =
        d.requests ++ Request.stackTrace t 1 :: rest ∧
      ∀ r ∈ rest, ∃ ref, r = Request.source ref := by
  simp only [_getTopOfStackSourceInfo, getStackTrace_guarded d session t 1 hg]
  cases session.stackTrace t 1 with
  | error e => exact ⟨[], rfl, by simp⟩
  | ok frames =>
    simp only
    split
    · rename_i frame source _ _
      obtain ⟨rest, h1, h2⟩ := getSourceLines_requests (d.send (.stackTrace t 1)) source
        frame.line 1
      rcases hs : (d.send (.stackTrace t 1)).getSourceLines source frame.line 1 with ⟨d2, r2⟩
      rw [hs] at h1
      simp only [send] at h1
      refine ⟨rest, ?_, h2⟩
      cases r2 with
      | error e => simpa using h1
      | ok lines =>
        simp only
        split <;> simpa using h1
    · exact ⟨[], rfl, by simp⟩

theorem getStackTrace_console (d : Debugger) (t l : Nat) :
    (d.getStackTrace t l).1.console = d.console := by
  unfold getStackTrace
  split
  · rfl
  · split <;> rfl

theorem getSourceByReference_console (d : Debugger) (ref : Nat) :
    (d._getSourceByReference ref).1.console = d.console := by
  unfold _getSourceByReference
  split
  · rfl
  · split <;> rfl

theorem sourceText_console (d : Debugger) (source : Source) :
    (d.sourceText source).1.console = d.console := by
  unfold sourceText
  split
  · rename_i ref _
    unfold getFileDataBySourceReference
    split
    · rfl
    · have h := getSourceByReference_console d (ref + 1)
      rcases hg : d._getSourceByReference (ref + 1) with ⟨d1, r⟩
      rw [hg] at h
      cases r <;> exact h
  · split
    · unfold getFileDataByPath
      split
      · rfl
      · split <;> rfl
    · rfl

theorem getSourceLines_console (d : Debugger) (source : Source) (start length : Int) :
    (d.getSourceLines source start length).1.console = d.console := by
  have h := sourceText_console d source
  unfold getSourceLines
  rcases hg : d.sourceText source with ⟨d1, r⟩
  rw [hg] at h
  cases r with
  | error e => exact h
  | ok lines =>
    simp only
    split <;> exact h

theorem getTopOfStackSourceInfo_console (d : Debugger) (threadId : Nat) :
    (d._getTopOfStackSourceInfo threadId).1.console = d.console := by
  have h := getStackTrace_console d threadId 1
  unfold _getTopOfStackSourceInfo
  rcases hg : d.getStackTrace threadId 1 with ⟨d1, r⟩
  rw [hg] at h
  cases r with
  | error e => exact h
  | ok frames =>
    simp only
    split
    · rename_i frame source _ _
      have h2 := getSourceLines_console d1 source frame.line 1
      rcases hs : d1.getSourceLines source frame.line 1 with ⟨d2, r2⟩
      rw [hs] at h2
      simp only at h2
      cases r2 with
      | error e => exact h2.trans h
      | ok lines =>
        simp only
        split <;> exact h2.trans h
    · exact h

theorem getStackTrace_congr (d d2 : Debugger) (t l : Nat)
    (h1 : d2.debugSession = d.debugSession) (h2 : d2.state = d.state)
    (h3 : d2.sourceFiles = d.sourceFiles) :
    (d2.getStackTrace t l).2 = (d.getStackTrace t l).2 ∧
    (d2.getStackTrace t l).1.debugSession = (d.getStackTrace t l).1.debugSession ∧
    (d2.getStackTrace t l).1.state = (d.getStackTrace t l).1.state ∧
    (d2.getStackTrace t l).1.sourceFiles = (d.getStackTrace t l).1.sourceFiles := by
  have hg : d2._ensureDebugSession false = d._ensureDebugSession false := by
    simp only [_ensureDebugSession, h1, h2]
  unfold getStackTrace
  rw [hg]
  cases d._ensureDebugSession false with
  | error e => exact ⟨rfl, h1, h2, h3⟩
  | ok session =>
    simp only
    cases session.stackTrace t l <;> exact ⟨rfl, h1, h2, h3⟩

theorem getSourceByReference_congr (d d2 : Debugger) (ref : Nat)
    (h1 : d2.debugSession = d.debugSession) (h2 : d2.state = d.state)
    (h3 : d2.sourceFiles = d.sourceFiles) :
    (d2._getSourceByReference ref).2 = (d._getSourceByReference ref).2 ∧
    (d2._getSourceByReference ref).1.debugSession = (d._getSourceByReference ref).1.debugSession ∧
    (d2._getSourceByReference ref).1.state = (d._getSourceByReference ref).1.state ∧
    (d2._getSourceByReference ref).1.sourceFiles = (d._getSourceByReference ref).1.sourceFiles := by
  have hg : d2._ensureDebugSession false = d._ensureDebugSession false := by
    simp only [_ensureDebugSession, h1, h2]
  unfold _getSourceByReference
  rw [hg]
  cases d._ensureDebugSession false with
  | error e => exact ⟨rfl, h1, h2, h3⟩
  | ok session =>
    simp only
    cases session.source ref <;> exact ⟨rfl, h1, h2, h3⟩

theorem sourceText_congr (d d2 : Debugger) (source : Source)
    (h1 : d2.debugSession = d.debugSession) (h2 : d2.state = d.state)
    (h3 : d2.sourceFiles = d.sourceFiles) :
    (d2.sourceText source).2 = (d.sourceText source).2 ∧
    (d2.sourceText source).1.debugSession = (d.sourceText source).1.debugSession ∧
    (d2.sourceText source).1.state = (d.sourceText source).1.state ∧
    (d2.sourceText source).1.sourceFiles = (d.sourceText source).1.sourceFiles := by
  unfold sourceText
  split
  · rename_i ref _
    unfold getFileDataBySourceReference
    rw [h3]
    split
    · exact ⟨rfl, h1, h2, h3⟩
    · have h := getSourceByReference_congr d d2 (ref + 1) h1 h2 h3
      rcases hg : d._getSourceByReference (ref + 1) with ⟨a, r⟩
      rcases hg2 : d2._getSourceByReference (ref + 1) with ⟨a2, r2⟩
      rw [hg, hg2] at h
      obtain ⟨e1, e2, e3, e4⟩ := h
      simp only at e1 e2 e3 e4
      subst e1
      cases r2 with
      | error e => exact ⟨rfl, e2, e3, e4⟩
      | ok content => exact ⟨rfl, e2, e3, by simp only [e4]⟩
  · split
    · unfold getFileDataByPath
      rw [h3]
      split
      · exact ⟨rfl, h1, h2, h3⟩
      · split
        · exact ⟨rfl, h1, h2, h3⟩
        · exact ⟨rfl, h1, h2, by simp only [h3]⟩
    · exact ⟨rfl, h1, h2, h3⟩

theorem getSourceLines_congr (d d2 : Debugger) (source : Source) (start length : Int)
    (h1 : d2.debugSession = d.debugSession) (h2 : d2.state = d.state)
    (h3 : d2.sourceFiles = d.sourceFiles) :
    (d2.getSourceLines source start length).2 = (d.getSourceLines source start length).2 ∧
    (d2.getSourceLines source start length).1.sourceFiles =
      (d.getSourceLines source start length).1.sourceFiles := by
  have h := sourceText_congr d d2 source h1 h2 h3
  unfold getSourceLines
  rcases hg : d.sourceText source with ⟨a, r⟩
  rcases hg2 : d2.sourceText source with ⟨a2, r2⟩
  rw [hg, hg2] at h
  obtain ⟨e1, -, -, e4⟩ := h
  simp only at e1 e4
  subst e1
  cases r2 with
  | error e => exact ⟨rfl, e4⟩
  | ok lines =>
    simp only
    split <;> exact ⟨rfl, e4⟩

/-- The outcome of the top-of-stack fetch depends on the session, the session
state and the source cache only. -/
theorem getTopOfStackSourceInfo_congr (d d2 : Debugger) (t : Nat)
    (h1 : d2.debugSession = d.debugSession) (h2 : d2.state = d.state)
    (h3 : d2.sourceFiles = d.sourceFiles) :
    (d2._getTopOfStackSourceInfo t).2 = (d._getTopOfStackSourceInfo t).2 := by
  have h := getStackTrace_congr d d2 t 1 h1 h2 h3
  unfold _getTopOfStackSourceInfo
  rcases hg : d.getStackTrace t 1 with ⟨a, r⟩
  rcases hg2 : d2.getStackTrace t 1 with ⟨a2, r2⟩
  rw [hg, hg2] at h
  obtain ⟨e1, e2, e3, e4⟩ := h
  simp only at e1 e2 e3 e4
  subst e1
  cases r2 with
  | error e => rfl
  | ok frames =>
    simp only
    split
    · rename_i frame source _ _
      have hl := getSourceLines_congr a a2 source frame.line 1 e2 e3 e4
      rcases hs : a.getSourceLines source frame.line 1 with ⟨b, q⟩
      rcases hs2 : a2.getSourceLines source frame.line 1 with ⟨b2, q2⟩
      rw [hs, hs2] at hl
      obtain ⟨f1, f4⟩ := hl
      simp only at f1 f4
      subst f1
      cases q2 with
      | error e => rfl
      | ok lines =>
        simp only
        split
        · simp only [f4]
        · rfl
        · rfl
    · rfl

theorem getTopOfStackSourceInfo_unguarded (d : Debugger) (t : Nat) (e : Err)
    (hg : d._ensureDebugSession false = .error e) :
    d._getTopOfStackSourceInfo t = (d, .error e) := by
  simp [_getTopOfStackSourceInfo, getStackTrace, hg]

theorem getTopOfStackSourceInfo_rejected (d : Debugger) (session : VsDebugSession) (t : Nat)
    (e : Err) (hg : d._ensureDebugSession false = .ok session)
    (he : session.stackTrace t 1 = .error e) :
    (d._getTopOfStackSourceInfo t).2 = .error e := by
  simp [_getTopOfStackSourceInfo, getStackTrace_guarded d session t 1 hg, he]

theorem getTopOfStackSourceInfo_no_source (d : Debugger) (session : VsDebugSession) (t : Nat)
    (frames : List StackFrame) (hg : d._ensureDebugSession false = .ok session)
    (hf : session.stackTrace t 1 = .ok frames) (hn : _sourceFromTopFrame frames = none) :
    (d._getTopOfStackSourceInfo t).2 = .ok none := by
  simp only [_getTopOfStackSourceInfo, getStackTrace_guarded d session t 1 hg, hf, hn]
  split
  · rename_i h1 h2
    cases h2
  · rfl

/-- The handler `_onStopped` at a first stop whose status update succeeds and
whose focus thread is `f`: the outcome is that of the top-of-stack fetch for
`f`; the input loop is open when the handler completes and as before when it
fails. -/
theorem onStopped_first_shape (d : Debugger) (event : StoppedEvent) (stopped : ThreadCollection)
    (f : Nat) (hrun : d.threads.allThreadsRunning = true)
    (hs : stoppedThreads d.threads event = some (.ok stopped))
    (hf : event.threadId = some f ∨
      (event.threadId = none ∧ stopped.firstStoppedThread = some f)) :
    (d._onStopped event).1.threads = stopped.setFocusThread f ∧
    (∀ session, d._ensureDebugSession false = .ok session →
      ∃ rest, (d._onStopped event).1.requests = d.requests ++ Request.stackTrace f 1 :: rest ∧
        ∀ r ∈ rest, ∃ ref, r = Request.source ref) ∧
    ((d._onStopped event).2 = .ok () → (d._onStopped event).1.console.inputOpen = true) ∧
    (∀ e, (d._onStopped event).2 = .error e →
      (d._onStopped event).1.console.inputOpen = d.console.inputOpen) ∧
    (d._onStopped event).2 = Except.map (fun _ => ()) (d._getTopOfStackSourceInfo f).2 := by
  unfold _onStopped
  have h0 : (match event.description with
      | some description => { d with console := d.console.outputLine description }
      | none => d).threads = d.threads ∧
      (match event.description with
      | some description => { d with console := d.console.outputLine description }
      | none => d).requests = d.requests ∧
      (∀ session, d._ensureDebugSession false = .ok session →
        ∀ ts, _ensureDebugSession { (match event.description with
          | some description => { d with console := d.console.outputLine description }
          | none => d) with threads := ts } false = .ok session) ∧
      (match event.description with
      | some description => { d with console := d.console.outputLine description }
      | none => d).debugSession = d.debugSession ∧
      (match event.description with
      | some description => { d with console := d.console.outputLine description }
      | none => d).state = d.state ∧
      (match event.description with
      | some description => { d with console := d.console.outputLine description }
      | none => d).sourceFiles = d.sourceFiles ∧
      (match event.description with
      | some description => { d with console := d.console.outputLine description }
      | none => d).console.inputOpen = d.console.inputOpen := by
    split <;> exact ⟨rfl, rfl, fun session h ts => h, rfl, rfl, rfl, rfl⟩
  generalize (match event.description with
      | some description => { d with console := d.console.outputLine description }
      | none => d) = d0 at h0 ⊢
  obtain ⟨h0t, h0r, h0g, h0s, h0st, h0f, h0c⟩ := h0
  have hfocus : (match event.threadId with
      | some threadId => (Except.ok (stopped.setFocusThread threadId) : Except Err _)
      | none =>
        match stopped.firstStoppedThread with
        | some firstStopped => .ok (stopped.setFocusThread firstStopped)
        | none => .error .invariant) = .ok (stopped.setFocusThread f) := by
    rcases hf with hf | ⟨hf1, hf2⟩
    · rw [hf]
    · rw [hf1, hf2]
  simp only [h0t, hs, hrun, if_true, hfocus]
  simp only [ThreadCollection.setFocusThread]
  have ht := (getTopOfStackSourceInfo_state
    { d0 with threads := { stopped with focusThreadId := some f } } f).2
  have hr := fun session hg => getTopOfStackSourceInfo_requests
    { d0 with threads := { stopped with focusThreadId := some f } } session f
    (h0g session hg _)
  have hc := getTopOfStackSourceInfo_console
    { d0 with threads := { stopped with focusThreadId := some f } } f
  have hq := getTopOfStackSourceInfo_congr d
    { d0 with threads := { stopped with focusThreadId := some f } } f h0s h0st h0f
  rcases hfetch : _getTopOfStackSourceInfo
    { d0 with threads := { stopped with focusThreadId := some f } } f with ⟨d3, r⟩
  rw [hfetch] at ht hr hc hq
  simp only at ht hr hc hq
  rw [h0r] at hr
  rw [← hq]
  rcases r with e | top
  · refine ⟨ht, hr, by simp, ?_, rfl⟩
    intro _ _
    show d3.console.inputOpen = d.console.inputOpen
    rw [hc, h0c]
  · cases top with
    | none => exact ⟨ht, hr, fun _ => rfl, by simp, rfl⟩
    | some topOfStack => exact ⟨ht, hr, fun _ => rfl, by simp, rfl⟩

/-- The handler `_onStopped` when some thread was already stopped. -/
theorem onStopped_later_shape (d : Debugger) (event : StoppedEvent)
    (hrun : d.threads.allThreadsRunning = false) :
    (d._onStopped event).1.threads.focusThreadId = d.threads.focusThreadId ∧
    (d._onStopped event).1.requests = d.requests ∧
    (∀ stopped, stoppedThreads d.threads event = some (.ok stopped) →
      (d._onStopped event).1.threads = stopped ∧ (d._onStopped event).2 = .ok ()) := by
  unfold _onStopped
  have h0 : (match event.description with
      | some description => { d with console := d.console.outputLine description }
      | none => d).threads = d.threads ∧
      (match event.description with
      | some description => { d with console := d.console.outputLine description }
      | none => d).requests = d.requests := by
    split <;> exact ⟨rfl, rfl⟩
  generalize (match event.description with
      | some description => { d with console := d.console.outputLine description }
      | none => d) = d0 at h0 ⊢
  obtain ⟨h0t, h0r⟩ := h0
  simp only [h0t, hrun]
  cases hs : stoppedThreads d.threads event with
  | none => exact ⟨by simp [h0t], by simp [h0r], by simp⟩
  | some r =>
    cases r with
    | error e => exact ⟨by simp [h0t], by simp [h0r], by simp⟩
    | ok stopped =>
      refine ⟨?_, by simp [h0r], by simp⟩
      simp [stoppedThreads_focus d.threads stopped event hs]

/-- C15 (amended): first stop.  If every tracked thread is running when a stop
event names tracked thread `t`, then after handling it thread `t` is stopped
with its selected stack frame cleared (every tracked thread, when the event
claims all stopped) and the focus thread is `t`; if the event names no thread
but claims all threads stopped and a thread is tracked, every tracked thread is
stopped with its selected frame cleared and the focus thread is the first of
them.  In both cases, with an active running session, the top-of-stack fetch
runs once: exactly one stack-trace request, for the focus thread and one level,
is sent, followed at most by source requests.  The outcome of the handler is
the outcome of that fetch: when the fetch succeeds the handler completes and
the input loop is open; when the fetch fails the handler fails with the same
error and the input loop is as it was before the event.  In particular a
rejected stack-trace request makes the handler fail with the rejection, and a
stack trace whose top frame has no source makes it complete.  If some thread
was already stopped before the event, the focus thread is unchanged and no
request is sent. -/
theorem onStopped_first_stop (d : Debugger) (event : StoppedEvent) :
    (∀ t th, d.threads.allThreadsRunning = true → event.threadId = some t →
      d.threads.getThreadById t = .ok th →
      (d._onStopped event).1.threads.getThreadById t =
        .ok { th with running := false, selectedStackFrame := none } ∧
      (event.allThreadsStopped = some true →
        ∀ x ∈ (d._onStopped event).1.threads.threads,
          x.running = false ∧ x.selectedStackFrame = none) ∧
      (d._onStopped event).1.threads.focusThreadId = some t ∧
      (∀ session, d._ensureDebugSession false = .ok session →
        ∃ rest, (d._onStopped event).1.requests = d.requests ++ Request.stackTrace t 1 :: rest ∧
          ∀ r ∈ rest, ∃ ref, r = Request.source ref) ∧
      ((d._onStopped event).2 = .ok () → (d._onStopped event).1.console.inputOpen = true) ∧
      (∀ e, (d._onStopped event).2 = .error e →
        (d._onStopped event).1.console.inputOpen = d.console.inputOpen) ∧
      (d._onStopped event).2 = Except.map (fun _ => ()) (d._getTopOfStackSourceInfo t).2 ∧
      (∀ session e, d._ensureDebugSession false = .ok session →
        session.stackTrace t 1 = .error e → (d._onStopped event).2 = .error e) ∧
      (∀ session frames, d._ensureDebugSession false = .ok session →
        session.stackTrace t 1 = .ok frames → _sourceFromTopFrame frames = none →
        (d._onStopped event).2 = .ok ())) ∧
    (∀ first, d.threads.allThreadsRunning = true → event.threadId = none →
      event.allThreadsStopped = some true → d.threads.threads.head? = some first →
      (∀ x ∈ (d._onStopped event).1.threads.threads,
        x.running = false ∧ x.selectedStackFrame = none) ∧
      (d._onStopped event).1.threads.threads.length = d.threads.threads.length ∧
      (d._onStopped event).1.threads.focusThreadId = some first.id ∧
      (∀ session, d._ensureDebugSession false = .ok session →
        ∃ rest, (d._onStopped event).1.requests =
            d.requests ++ Request.stackTrace first.id 1 :: rest ∧
          ∀ r ∈ rest, ∃ ref, r = Request.source ref) ∧
      ((d._onStopped event).2 = .ok () → (d._onStopped event).1.console.inputOpen = true) ∧
      (∀ e, (d._onStopped event).2 = .error e →
        (d._onStopped event).1.console.inputOpen = d.console.inputOpen) ∧
      (d._onStopped event).2 =
        Except.map (fun _ => ()) (d._getTopOfStackSourceInfo first.id).2 ∧
      (∀ session e, d._ensureDebugSession false = .ok session →
        session.stackTrace first.id 1 = .error e → (d._onStopped event).2 = .error e) ∧
      (∀ session frames, d._ensureDebugSession false = .ok session →
        session.stackTrace first.id 1 = .ok frames → _sourceFromTopFrame frames = none →
        (d._onStopped event).2 = .ok ())) ∧
    (d.threads.allThreadsRunning = false →
      (d._onStopped event).1.threads.focusThreadId = d.threads.focusThreadId ∧
      (d._onStopped event).1.requests = d.requests) := by
  have hfetch : ∀ f : Nat,
      (d._onStopped event).2 = Except.map (fun _ => ()) (d._getTopOfStackSourceInfo f).2 →
      (∀ session e, d._ensureDebugSession false = .ok session →
        session.stackTrace f 1 = .error e → (d._onStopped event).2 = .error e) ∧
      (∀ session frames, d._ensureDebugSession false = .ok session →
        session.stackTrace f 1 = .ok frames → _sourceFromTopFrame frames = none →
        (d._onStopped event).2 = .ok ()) := by
    intro f h
    constructor
    · intro session e hg he
      rw [h, getTopOfStackSourceInfo_rejected d session f e hg he]
      rfl
    · intro session frames hg hf hn
      rw [h, getTopOfStackSourceInfo_no_source d session f frames hg hf hn]
      rfl
  refine ⟨?_, ?_, ?_⟩
  · intro t th hrun ht hth
    have hfind := (getThreadById_eq_ok d.threads t th).1 hth
    have hid : th.id = t := by simpa using List.find?_some hfind
    by_cases hall : event.allThreadsStopped = some true
    · obtain ⟨h1, h2, h3, h4, h5⟩ := onStopped_first_shape d event _ t hrun
        (stoppedThreads_all d.threads event hall) (Or.inl ht)
      refine ⟨?_, ?_, ?_, h2, h3, h4, h5, hfetch t h5⟩
      · rw [h1, getThreadById_eq_ok]
        simp only [ThreadCollection.setFocusThread]
        rw [find_id_map _ t (fun x => { x with running := false, selectedStackFrame := none })
          (fun _ => rfl), hfind]
        rfl
      · intro _ x hx
        rw [h1] at hx
        simp only [ThreadCollection.setFocusThread, List.mem_map] at hx
        obtain ⟨y, _, rfl⟩ := hx
        exact ⟨rfl, rfl⟩
      · rw [h1]; rfl
    · obtain ⟨h1, h2, h3, h4, h5⟩ := onStopped_first_shape d event _ t hrun
        (stoppedThreads_named d.threads event t th hall ht hth) (Or.inl ht)
      refine ⟨?_, fun h => absurd h hall, ?_, h2, h3, h4, h5, hfetch t h5⟩
      · rw [h1, getThreadById_eq_ok]
        simp only [ThreadCollection.setFocusThread]
        rw [find_id_map _ t (fun x =>
          if x.id = t then { x with running := false, selectedStackFrame := none } else x)
          (by intro x; by_cases hx : x.id = t <;> simp [hx]), hfind]
        simp [hid]
      · rw [h1]; rfl
  · intro first hrun ht hall hhead
    have hfirst : (⟨d.threads.threads.map
        (fun x => { x with running := false, selectedStackFrame := none }),
        d.threads.focusThreadId⟩ : ThreadCollection).firstStoppedThread = some first.id := by
      cases hl : d.threads.threads with
      | nil => rw [hl] at hhead; cases hhead
      | cons y ys =>
        rw [hl] at hhead
        simp only [List.head?_cons, Option.some.injEq] at hhead
        subst hhead
        simp [ThreadCollection.firstStoppedThread]
    obtain ⟨h1, h2, h3, h4, h5⟩ := onStopped_first_shape d event _ first.id hrun
      (stoppedThreads_all d.threads event hall) (Or.inr ⟨ht, hfirst⟩)
    refine ⟨?_, ?_, ?_, h2, h3, h4, h5, hfetch first.id h5⟩
    · intro x hx
      rw [h1] at hx
      simp only [ThreadCollection.setFocusThread, List.mem_map] at hx
      obtain ⟨y, _, rfl⟩ := hx
      exact ⟨rfl, rfl⟩
    · rw [h1]; simp [ThreadCollection.setFocusThread]
    · rw [h1]; rfl
  · intro hrun
    exact ⟨(onStopped_later_shape d event hrun).1, (onStopped_later_shape d event hrun).2.1⟩

/-- C15, witness: one running thread with id 3 and the event
`{threadId: 3, allThreadsStopped: true}`, on an adapter that answers the
stack-trace request with no frame: the handler completes, thread 3 is stopped
and focused, one stack-trace request was sent and the input loop is open.  On
an adapter that rejects the stack-trace request the handler fails with the
rejection and the input loop stays closed.  Afterwards, a second stop event for
thread 3 sends nothing. -/
theorem onStopped_first_stop_witness :
    ((engine (some (adapterAnswering (.ok scenarioResponse))) .RUNNING scenarioRegistry
        oneRunningThread)._onStopped ⟨none, some 3, some true⟩).2 = .ok () ∧
    ((engine (some (adapterAnswering (.ok scenarioResponse))) .RUNNING scenarioRegistry
        oneRunningThread)._onStopped ⟨none, some 3, some true⟩).1.threads =
      ⟨[⟨3, "main", false, none⟩], some 3⟩ ∧
    ((engine (some (adapterAnswering (.ok scenarioResponse))) .RUNNING scenarioRegistry
        oneRunningThread)._onStopped ⟨none, some 3, some true⟩).1.requests =
      [.stackTrace 3 1] ∧
    ((engine (some (adapterAnswering (.ok scenarioResponse))) .RUNNING scenarioRegistry
        oneRunningThread)._onStopped ⟨none, some 3, some true⟩).1.console.inputOpen = true ∧
    (((engine (some adapterRejectingStackTrace) .RUNNING scenarioRegistry
        oneRunningThread)._onStopped ⟨none, some 3, some true⟩).2 =
      .error (.error "rejected") ∧
    ((engine (some adapterRejectingStackTrace) .RUNNING scenarioRegistry
        oneRunningThread)._onStopped ⟨none, some 3, some true⟩).1.console.inputOpen = false) ∧
    ((engine (some (adapterAnswering (.ok scenarioResponse))) .RUNNING scenarioRegistry
        ⟨[⟨3, "main", false, none⟩], some 3⟩)._onStopped ⟨none, some 3, none⟩).1.requests =
      [] := by
  have h := (onStopped_first_stop (engine (some (adapterAnswering (.ok scenarioResponse)))
    .RUNNING scenarioRegistry oneRunningThread) ⟨none, some 3, some true⟩).1 3
    (Thread.new 3 "main") rfl rfl rfl
  have hok := h.2.2.2.2.2.2.2.2 (adapterAnswering (.ok scenarioResponse)) [] rfl rfl rfl
  have hr := (onStopped_first_stop (engine (some adapterRejectingStackTrace)
    .RUNNING scenarioRegistry oneRunningThread) ⟨none, some 3, some true⟩).1 3
    (Thread.new 3 "main") rfl rfl rfl
  have herr := hr.2.2.2.2.2.2.2.1 adapterRejectingStackTrace (.error "rejected") rfl rfl
  have h2 := (onStopped_first_stop (engine (some (adapterAnswering (.ok scenarioResponse)))
    .RUNNING scenarioRegistry ⟨[⟨3, "main", false, none⟩], some 3⟩)
    ⟨none, some 3, none⟩).2.2 rfl
  exact ⟨hok, rfl, rfl, h.2.2.2.2.1 hok, ⟨herr, hr.2.2.2.2.2.1 _ herr⟩, h2.2⟩

/-- C15, counterexample: a first stop after which the input loop is not
opened.  One running thread with id 3 is tracked, the input loop is closed, and
the event `{threadId: 3, allThreadsStopped: true}` arrives.  On an adapter that
rejects the stack-trace request the handler stops and focuses thread 3, sends
the stack-trace request, and fails with the rejection; the input loop is still
closed.  The same happens on an adapter whose top frame lies in a source file
that cannot be read. -/
theorem onStopped_first_stop_input_loop_counterexample :
    ((engine (some adapterRejectingStackTrace) .RUNNING scenarioRegistry
        oneRunningThread).threads.allThreadsRunning = true ∧
      ((engine (some adapterRejectingStackTrace) .RUNNING scenarioRegistry
        oneRunningThread)._onStopped ⟨none, some 3, some true⟩).2 =
        .error (.error "rejected") ∧
      ((engine (some adapterRejectingStackTrace) .RUNNING scenarioRegistry
        oneRunningThread)._onStopped ⟨none, some 3, some true⟩).1.threads =
        ⟨[⟨3, "main", false, none⟩], some 3⟩ ∧
      ((engine (some adapterRejectingStackTrace) .RUNNING scenarioRegistry
        oneRunningThread)._onStopped ⟨none, some 3, some true⟩).1.requests =
        [.stackTrace 3 1] ∧
      ((engine (some adapterRejectingStackTrace) .RUNNING scenarioRegistry
        oneRunningThread)._onStopped ⟨none, some 3, some true⟩).1.console.inputOpen =
        false) ∧
    (((engine (some adapterWithMissingSource) .RUNNING scenarioRegistry
        oneRunningThread)._onStopped ⟨none, some 3, some true⟩).2 =
        .error (.error "no such file") ∧
      ((engine (some adapterWithMissingSource) .RUNNING scenarioRegistry
        oneRunningThread)._onStopped ⟨none, some 3, some true⟩).1.threads =
        ⟨[⟨3, "main", false, none⟩], some 3⟩ ∧
      ((engine (some adapterWithMissingSource) .RUNNING scenarioRegistry
        oneRunningThread)._onStopped ⟨none, some 3, some true⟩).1.requests =
        [.stackTrace 3 1] ∧
      ((engine (some adapterWithMissingSource) .RUNNING scenarioRegistry
        oneRunningThread)._onStopped ⟨none, some 3, some true⟩).1.console.inputOpen =
        false) := by
  exact ⟨⟨rfl, rfl, rfl, rfl, rfl⟩, ⟨rfl, rfl, rfl, rfl⟩⟩

/-- C16: a stop event that carries no thread id and does not claim all threads
stopped is discarded.  Handling it raises no error and changes nothing but the
text written to the console (the event's description, if any, and the line
'stop event with no thread information ignored.'): every thread's status and
selected frame, the focus thread, the session state and the input loop are as
before, and no request is sent. -/
theorem onStopped_no_thread_information (d : Debugger) (event : StoppedEvent)
    (ht : event.threadId = none) (hall : event.allThreadsStopped ≠ some true) :
    d._onStopped event =
      ({ d with console :=
          { d.console with output := d.console.output ++
              (match event.description with
               | some description => [description]
               | none => []) ++
              ["stop event with no thread information ignored."] } }, .ok ()) ∧
    (d._onStopped event).1.threads = d.threads ∧
    (d._onStopped event).1.state = d.state ∧
    (d._onStopped event).1.console.inputOpen = d.console.inputOpen ∧
    (d._onStopped event).1.requests = d.requests := by
  have hs : ∀ ts, stoppedThreads ts event = none := by
    intro ts
    simp [stoppedThreads, hall, ht]
  have h : d._onStopped event =
      ({ d with console :=
          { d.console with output := d.console.output ++
              (match event.description with
               | some description => [description]
               | none => []) ++
              ["stop event with no thread information ignored."] } }, .ok ()) := by
    simp only [_onStopped, hs]
    cases event.description <;> simp [Console.outputLine]
  refine ⟨h, ?_, ?_, ?_, ?_⟩ <;> rw [h]

/-- C16, witness: the event `{}` on the engine of the first-stop scenario. -/
theorem onStopped_no_thread_information_witness :
    (engine (some (adapterAnswering (.ok scenarioResponse))) .RUNNING scenarioRegistry
        oneRunningThread)._onStopped ⟨none, none, none⟩ =
      ({ engine (some (adapterAnswering (.ok scenarioResponse))) .RUNNING scenarioRegistry
          oneRunningThread with
         console := ⟨false, ["stop event with no thread information ignored."]⟩ }, .ok ()) :=
  (onStopped_no_thread_information (engine (some (adapterAnswering (.ok scenarioResponse)))
    .RUNNING scenarioRegistry oneRunningThread) ⟨none, none, none⟩ rfl (by decide)).1

/-! ## Breakpoint events -/

theorem getBreakpointById_eq_ok (c : BreakpointCollection) (id : Nat) (b : Breakpoint) :
    c.getBreakpointById id = .ok b ↔
      c.breakpoints.find? (fun x => x.adapterId == some id) = some b := by
  unfold BreakpointCollection.getBreakpointById
  cases h : c.breakpoints.find? (fun x => x.adapterId == some id) <;> simp

theorem getBreakpointById_error (c : BreakpointCollection) (id : Nat)
    (h : ∀ x ∈ c.breakpoints, x.adapterId ≠ some id) :
    ∃ e, c.getBreakpointById id = .error e := by
  unfold BreakpointCollection.getBreakpointById
  have : c.breakpoints.find? (fun x => x.adapterId == some id) = none := by
    rw [List.find?_eq_none]
    intro x hx
    simpa using h x hx
  rw [this]
  exact ⟨_, rfl⟩

/-- C17: handling a breakpoint event never raises.  If the event's descriptor
carries an id, its reason is "new" or "changed" and the registry lookup by
that adapter id finds breakpoint `b`, then `b` gets the event's verified flag
and nothing else in the registry changes; if the id is absent, or the reason is
anything else, or no registry breakpoint has that adapter id, the breakpoint
registry is unchanged. -/
theorem onBreakpointEvent_spec (d : Debugger) (event : BreakpointEvent) :
    (d._onBreakpointEvent event).2 = .ok () ∧
    (∀ id b, event.breakpoint.id = some id →
      event.reason = "new" ∨ event.reason = "changed" →
      d.breakpoints.getBreakpointById id = .ok b → d.breakpoints.WF →
      (d._onBreakpointEvent event).1.breakpoints =
        ⟨d.breakpoints.breakpoints.map
            (fun x => if x = b then { x with verified := event.breakpoint.verified } else x),
          d.breakpoints.nextIndex⟩) ∧
    (event.breakpoint.id = none → (d._onBreakpointEvent event).1.breakpoints = d.breakpoints) ∧
    (¬ (event.reason = "new" ∨ event.reason = "changed") →
      (d._onBreakpointEvent event).1.breakpoints = d.breakpoints) ∧
    (∀ id, event.breakpoint.id = some id →
      (∀ x ∈ d.breakpoints.breakpoints, x.adapterId ≠ some id) →
      (d._onBreakpointEvent event).1.breakpoints = d.breakpoints) := by
  refine ⟨?_, ?_, ?_, ?_, ?_⟩
  · unfold _onBreakpointEvent
    split
    · split
      · split <;> rfl
      · rfl
    · rfl
  · intro id b hid hr hb hwf
    have hfind := (getBreakpointById_eq_ok _ _ _).1 hb
    have hmem : b ∈ d.breakpoints.breakpoints := List.mem_of_find?_eq_some hfind
    simp only [_onBreakpointEvent, hid, hr, if_true, hb, BreakpointCollection.setVerified,
      BreakpointCollection.modify]
    congr 1
    apply List.map_congr_left
    intro x hx
    by_cases hxb : x = b
    · simp [hxb]
    · have hne : x.index ≠ b.index := fun hi =>
        hxb (List.inj_on_of_nodup_map hwf.1 hx hmem hi)
      simp [hxb, hne]
  · intro hid
    simp [_onBreakpointEvent, hid]
  · intro hr
    unfold _onBreakpointEvent
    split
    · simp [hr]
    · rfl
  · intro id hid hno
    obtain ⟨e, he⟩ := getBreakpointById_error d.breakpoints id hno
    unfold _onBreakpointEvent
    simp only [hid, he]
    split <;> rfl

/-- C17, witness: the breakpoint of line 10 with adapter id 1, unverified, and
the event `{reason: "changed", breakpoint: {id: 1, verified: true}}`; then an
event for the unknown id 9. -/
theorem onBreakpointEvent_spec_witness :
    ((engine none .RUNNING ⟨[⟨0, some "/a.js", 10, true, false, some 1, none⟩], 1⟩
        oneRunningThread)._onBreakpointEvent
          ⟨"changed", ⟨some 1, true, none, none⟩⟩).1.breakpoints =
      ⟨[⟨0, some "/a.js", 10, true, true, some 1, none⟩], 1⟩ ∧
    ((engine none .RUNNING ⟨[⟨0, some "/a.js", 10, true, false, some 1, none⟩], 1⟩
        oneRunningThread)._onBreakpointEvent
          ⟨"changed", ⟨some 9, true, none, none⟩⟩).1.breakpoints =
      ⟨[⟨0, some "/a.js", 10, true, false, some 1, none⟩], 1⟩ := by
  have h := (onBreakpointEvent_spec
    (engine none .RUNNING ⟨[⟨0, some "/a.js", 10, true, false, some 1, none⟩], 1⟩
      oneRunningThread) ⟨"changed", ⟨some 1, true, none, none⟩⟩).2.1 1
    ⟨0, some "/a.js", 10, true, false, some 1, none⟩ rfl (Or.inr rfl) rfl (by decide)
  have h2 := (onBreakpointEvent_spec
    (engine none .RUNNING ⟨[⟨0, some "/a.js", 10, true, false, some 1, none⟩], 1⟩
      oneRunningThread) ⟨"changed", ⟨some 9, true, none, none⟩⟩).2.2.2.2 9 rfl (by decide)
  refine ⟨?_, h2⟩
  rw [h]
  decide

/-! ## Variables and stack frames -/

theorem getActiveThread_focused (d : Debugger) (session : VsDebugSession) (thread : Thread)
    (hg : d._ensureDebugSession false = .ok session)
    (hf : d.threads.focusThread = some thread) : d.getActiveThread = (d, .ok thread) := by
  simp [getActiveThread, hg, hf]

theorem fetchVariables_ok (session : VsDebugSession) (queries : List Scope)
    (vars : Nat → List Variable)
    (hv : ∀ q ∈ queries, session.variablesReq q.variablesReference =
      .ok (vars q.variablesReference)) :
    fetchVariables session queries =
      .ok (queries.map (fun q => (q.variablesReference, vars q.variablesReference))) := by
  induction queries with
  | nil => rfl
  | cons q rest ih =>
    have h1 := hv q (List.mem_cons_self _ _)
    have h2 := ih (fun x hx => hv x (List.mem_cons_of_mem _ hx))
    simp [fetchVariables, h1, h2]

theorem fetchVariables_error (session : VsDebugSession) (queries : List Scope) (e : Err)
    (h : fetchVariables session queries = .error e) :
    ∃ q ∈ queries, session.variablesReq q.variablesReference = .error e := by
  induction queries with
  | nil => simp [fetchVariables] at h
  | cons q rest ih =>
    simp only [fetchVariables] at h
    cases h1 : session.variablesReq q.variablesReference with
    | error e1 =>
      rw [h1] at h
      simp only [Except.error.injEq] at h
      subst h
      exact ⟨q, List.mem_cons_self _ _, h1⟩
    | ok vs =>
      rw [h1] at h
      cases h2 : fetchVariables session rest with
      | error e2 =>
        rw [h2] at h
        simp only [Except.error.injEq] at h
        subst h
        obtain ⟨x, hx, hxe⟩ := ih h2
        exact ⟨x, List.mem_cons_of_mem _ hx, hxe⟩
      | ok results =>
        rw [h2] at h
        simp at h

theorem lookup_map_vars (l : List Scope) (vars : Nat → List Variable) (ref : Nat) :
    (l.map (fun q => (q.variablesReference, vars q.variablesReference))).lookup ref =
      if ref ∈ l.map (fun q => q.variablesReference) then some (vars ref) else none := by
  induction l with
  | nil => simp
  | cons q rest ih =>
    simp only [List.map_cons, List.lookup_cons, List.mem_cons]
    by_cases h : ref = q.variablesReference
    · subst h
      simp
    · have h2 : (ref == q.variablesReference) = false := by simpa using h
      rw [h2, ih]
      simp [h]

theorem mapGet_map_vars (l : List Scope) (vars : Nat → List Variable) (ref : Nat) :
    mapGet (l.map (fun q => (q.variablesReference, vars q.variablesReference))) ref =
      if ref ∈ l.map (fun q => q.variablesReference) then some (vars ref) else none := by
  unfold mapGet
  rw [← List.map_reverse, lookup_map_vars]
  simp

/-- The operation `getVariables` when the requested scope name matches no scope
of the selected frame. -/
theorem getVariables_no_scope (d : Debugger) (session : VsDebugSession) (thread : Thread)
    (stack : List StackFrame) (frame : StackFrame) (scopes : List Scope) (name : String)
    (hg : d._ensureDebugSession false = .ok session)
    (hf : d.threads.focusThread = some thread)
    (hst : session.stackTrace thread.id (thread.selectedStackFrameIndex + 1) = .ok stack)
    (hfr : stack[thread.selectedStackFrameIndex]? = some frame)
    (hsc : session.scopes frame.id = .ok scopes)
    (hq : selectedScopes scopes (some name) = []) :
    d.getVariables (some name) =
      ({ d with
          requests :=
            d.requests ++
              [.stackTrace thread.id (thread.selectedStackFrameIndex + 1), .scopes frame.id] },
        .error (.error (noScopeMessage name))) := by
  simp only [selectedScopes] at hq
  simp [getVariables, hg, getActiveThread_focused d session thread hg hf,
    getStackTrace_guarded d session _ _ hg, hst, _stackFrameId, hfr, send,
    hsc, noScopeMessage, hq]

/-- The operation `getVariables` once the scopes of the selected frame have
been obtained and some scope is queried: what is sent and what is returned. -/
theorem getVariables_flow (d : Debugger) (session : VsDebugSession) (thread : Thread)
    (stack : List StackFrame) (frame : StackFrame) (scopes : List Scope)
    (selectedScope : Option String)
    (hg : d._ensureDebugSession false = .ok session)
    (hf : d.threads.focusThread = some thread)
    (hst : session.stackTrace thread.id (thread.selectedStackFrameIndex + 1) = .ok stack)
    (hfr : stack[thread.selectedStackFrameIndex]? = some frame)
    (hsc : session.scopes frame.id = .ok scopes)
    (hq : ∀ name, selectedScope = some name → selectedScopes scopes selectedScope ≠ []) :
    d.getVariables selectedScope =
      ({ d with
          requests :=
            d.requests ++
              [.stackTrace thread.id (thread.selectedStackFrameIndex + 1), .scopes frame.id] ++
              (selectedScopes scopes selectedScope).map
                (fun scope => Request.variablesReq scope.variablesReference) },
        match fetchVariables session (selectedScopes scopes selectedScope) with
        | .error e => .error e
        | .ok results =>
          .ok (scopes.map (fun scope =>
            { expensive := scope.expensive, scopeName := scope.name,
              variableList := mapGet results scope.variablesReference }))) := by
  simp only [getVariables, hg, getActiveThread_focused d session thread hg hf,
    getStackTrace_guarded d session _ _ hg, hst, _stackFrameId, hfr, Option.map_some', send,
    hsc, selectedScopes]
  cases selectedScope with
  | none =>
    simp only
    cases fetchVariables session (scopes.filter (fun scope => !scope.expensive)) <;> simp
  | some name =>
    have hne := hq name rfl
    simp only [selectedScopes] at hne
    have hlen : ¬ (scopes.filter (fun scope => scope.name == name)).length = 0 := by
      simpa using hne
    simp only [hlen, if_false]
    cases fetchVariables session (scopes.filter (fun scope => scope.name == name)) <;> simp

/-- C18 (amended): once the adapter has returned the scopes of the selected
frame and answered the variables requests, `getVariables(selectedScope)`
returns one entry for every scope the adapter returned, in the adapter's
order, each carrying that scope's name and expensive flag.  The variables
requests are sent for the selected scopes only (the scopes with the requested
name when a name is given, otherwise every scope that is not expensive), and
an entry carries the variable list fetched for its scope's variablesReference
exactly when that reference is the reference of a selected scope; the other
entries carry no variable list. -/
theorem getVariables_lists_every_scope (d : Debugger) (session : VsDebugSession)
    (thread : Thread) (stack : List StackFrame) (frame : StackFrame) (scopes : List Scope)
    (selectedScope : Option String) (vars : Nat → List Variable)
    (hg : d._ensureDebugSession false = .ok session)
    (hf : d.threads.focusThread = some thread)
    (hst : session.stackTrace thread.id (thread.selectedStackFrameIndex + 1) = .ok stack)
    (hfr : stack[thread.selectedStackFrameIndex]? = some frame)
    (hsc : session.scopes frame.id = .ok scopes)
    (hq : ∀ name, selectedScope = some name → selectedScopes scopes selectedScope ≠ [])
    (hv : ∀ q ∈ selectedScopes scopes selectedScope,
      session.variablesReq q.variablesReference = .ok (vars q.variablesReference)) :
    (d.getVariables selectedScope).2 =
      .ok (scopes.map (fun scope =>
        { expensive := scope.expensive, scopeName := scope.name,
          variableList :=
            if scope.variablesReference ∈
                (selectedScopes scopes selectedScope).map (fun q => q.variablesReference)
            then some (vars scope.variablesReference) else none })) ∧
    (d.getVariables selectedScope).1.requests =
      d.requests ++
        [.stackTrace thread.id (thread.selectedStackFrameIndex + 1), .scopes frame.id] ++
        (selectedScopes scopes selectedScope).map
          (fun scope => Request.variablesReq scope.variablesReference) := by
  rw [getVariables_flow d session thread stack frame scopes selectedScope hg hf hst hfr hsc hq,
    fetchVariables_ok session _ vars hv]
  refine ⟨?_, rfl⟩
  simp only [mapGet_map_vars]

/-- C18, witness: the variables scenario with no scope name: `Locals` is
fetched, `Globals` is listed without variables. -/
theorem getVariables_lists_every_scope_witness :
    (scopesEngine.getVariables none).2 =
      .ok [⟨false, "Locals", some [⟨"x", "0"⟩]⟩, ⟨true, "Globals", none⟩] ∧
    (scopesEngine.getVariables none).1.requests =
      [.stackTrace 3 1, .scopes 1000, .variablesReq 1] := by
  have h := getVariables_lists_every_scope scopesEngine scopesAdapter
    ⟨3, "main", false, none⟩ [⟨1000, "main", none, 1⟩] ⟨1000, "main", none, 1⟩
    [⟨"Locals", 1, false⟩, ⟨"Globals", 2, true⟩] none
    (fun ref => [if ref = 1 then ⟨"x", "0"⟩ else ⟨"g", "1"⟩])
    rfl rfl rfl rfl rfl (by intro name h; cases h) (by intro q _; rfl)
  refine ⟨?_, ?_⟩
  · rw [h.1]; rfl
  · rw [h.2]; rfl

/-- C18, counterexample: in the variables scenario with no scope name the only
selected scope is `Locals`, yet the result has an entry for `Globals` too (with
no variable list): it is not the list of the selected scopes only. -/
theorem getVariables_selected_only_counterexample :
    selectedScopes [⟨"Locals", 1, false⟩, ⟨"Globals", 2, true⟩] none =
      [⟨"Locals", 1, false⟩] ∧
    (scopesEngine.getVariables none).2 =
      .ok [⟨false, "Locals", some [⟨"x", "0"⟩]⟩, ⟨true, "Globals", none⟩] ∧
    (scopesEngine.getVariables none).2 ≠ .ok [⟨false, "Locals", some [⟨"x", "0"⟩]⟩] := by
  have h : (scopesEngine.getVariables none).2 =
      .ok [⟨false, "Locals", some [⟨"x", "0"⟩]⟩, ⟨true, "Globals", none⟩] := rfl
  refine ⟨by decide, h, ?_⟩
  rw [h]
  intro hc
  simp at hc

/-- C19: when the selected frame exists and its scopes have been obtained,
`getVariables(name)` with a name fails with "There is no scope named '<name>'
in the current context." if and only if no scope returned by the adapter has
exactly that name (provided the adapter itself rejects no variables request
with that very message), and in that case the only requests sent are the
stack-trace and the scopes request: no variables request is issued. -/
theorem getVariables_unknown_scope (d : Debugger) (session : VsDebugSession)
    (thread : Thread) (stack : List StackFrame) (frame : StackFrame) (scopes : List Scope)
    (name : String)
    (hg : d._ensureDebugSession false = .ok session)
    (hf : d.threads.focusThread = some thread)
    (hst : session.stackTrace thread.id (thread.selectedStackFrameIndex + 1) = .ok stack)
    (hfr : stack[thread.selectedStackFrameIndex]? = some frame)
    (hsc : session.scopes frame.id = .ok scopes)
    (hno : ∀ s ∈ scopes, s.name = name →
      session.variablesReq s.variablesReference ≠ .error (.error (noScopeMessage name))) :
    ((d.getVariables (some name)).2 =
        .error (.error ("There is no scope named '" ++ name ++ "' in the current context.")) ↔
      ∀ s ∈ scopes, s.name ≠ name) ∧
    ((∀ s ∈ scopes, s.name ≠ name) →
      (d.getVariables (some name)).1.requests =
        d.requests ++
          [.stackTrace thread.id (thread.selectedStackFrameIndex + 1), .scopes frame.id]) := by
  have hiff : selectedScopes scopes (some name) = [] ↔ ∀ s ∈ scopes, s.name ≠ name := by
    simp [selectedScopes, List.filter_eq_nil_iff]
  have hfail : (∀ s ∈ scopes, s.name ≠ name) →
      d.getVariables (some name) =
        ({ d with
            requests :=
              d.requests ++
                [.stackTrace thread.id (thread.selectedStackFrameIndex + 1),
                  .scopes frame.id] },
          .error (.error (noScopeMessage name))) := fun h =>
    getVariables_no_scope d session thread stack frame scopes name hg hf hst hfr hsc
      (hiff.2 h)
  constructor
  · constructor
    · intro herr
      by_contra hex
      have hq : ∀ n, some name = some n → selectedScopes scopes (some name) ≠ [] :=
        fun _ _ hnil => hex (hiff.1 hnil)
      rw [getVariables_flow d session thread stack frame scopes (some name) hg hf hst hfr hsc hq]
        at herr
      simp only at herr
      cases hfetch : fetchVariables session (selectedScopes scopes (some name)) with
      | ok results => rw [hfetch] at herr; simp at herr
      | error e =>
        rw [hfetch] at herr
        simp only [Except.error.injEq] at herr
        obtain ⟨q, hq1, hq2⟩ := fetchVariables_error session _ e hfetch
        simp only [selectedScopes, List.mem_filter, beq_iff_eq] at hq1
        rw [herr] at hq2
        exact hno q hq1.1 hq1.2 hq2
    · intro h
      rw [hfail h]
      rfl
  · intro h
    rw [hfail h]

/-- C19, witness: the variables scenario asked for the scope `Registers`, which
the adapter did not return, and for `Locals`, which it did. -/
theorem getVariables_unknown_scope_witness :
    (scopesEngine.getVariables (some "Registers")).2 =
      .error (.error "There is no scope named 'Registers' in the current context.") ∧
    (scopesEngine.getVariables (some "Registers")).1.requests =
      [.stackTrace 3 1, .scopes 1000] ∧
    (scopesEngine.getVariables (some "Locals")).2 ≠
      .error (.error "There is no scope named 'Locals' in the current context.") := by
  have h := getVariables_unknown_scope scopesEngine scopesAdapter
    ⟨3, "main", false, none⟩ [⟨1000, "main", none, 1⟩] ⟨1000, "main", none, 1⟩
    [⟨"Locals", 1, false⟩, ⟨"Globals", 2, true⟩] "Registers"
    rfl rfl rfl rfl rfl (by intro s _ _ hc; cases hc)
  have h2 := getVariables_unknown_scope scopesEngine scopesAdapter
    ⟨3, "main", false, none⟩ [⟨1000, "main", none, 1⟩] ⟨1000, "main", none, 1⟩
    [⟨"Locals", 1, false⟩, ⟨"Globals", 2, true⟩] "Locals"
    rfl rfl rfl rfl rfl (by intro s _ _ hc; cases hc)
  refine ⟨h.1.2 (by decide), h.2 (by decide), ?_⟩
  intro hc
  exact absurd (h2.1.1 hc) (by decide)

/-- C20: with an active running session that answers the stack-trace request,
`setSelectedStackFrame(thread, k)` requests `k + 1` stack levels for the
thread.  If the returned stack has no frame at position `k` it fails with
"There are only <m> frames in the thread's stack trace.", `m` being the number
of frames returned, and the thread registry is unchanged; otherwise it succeeds
and the selected stack frame of the thread becomes `k`. -/
theorem setSelectedStackFrame_spec (d : Debugger) (session : VsDebugSession) (thread : Thread)
    (k : Nat) (frames : List StackFrame)
    (hg : d._ensureDebugSession false = .ok session)
    (hst : session.stackTrace thread.id (k + 1) = .ok frames) :
    (d.setSelectedStackFrame thread k).1.requests =
      d.requests ++ [.stackTrace thread.id (k + 1)] ∧
    (frames[k]? = none →
      (d.setSelectedStackFrame thread k).2 =
        .error (.error ("There are only " ++ toString frames.length ++
          " frames in the thread's stack trace.")) ∧
      (d.setSelectedStackFrame thread k).1.threads = d.threads) ∧
    (∀ frame, frames[k]? = some frame →
      (d.setSelectedStackFrame thread k).2 = .ok () ∧
      ∀ tracked, d.threads.getThreadById thread.id = .ok tracked →
        (d.setSelectedStackFrame thread k).1.threads.getThreadById thread.id =
          .ok { tracked with selectedStackFrame := some k }) := by
  simp only [setSelectedStackFrame, getStackTrace_guarded d session _ _ hg, hst]
  cases hk : frames[k]? with
  | none =>
    dsimp only
    exact ⟨rfl, fun _ => ⟨rfl, rfl⟩, fun frame hc => by cases hc⟩
  | some fr =>
    dsimp only
    refine ⟨rfl, fun hc => (by cases hc), fun frame _ => ⟨rfl, ?_⟩⟩
    intro tracked htr
    have hfind := (getThreadById_eq_ok d.threads thread.id tracked).1 htr
    have hid : tracked.id = thread.id := by simpa using List.find?_some hfind
    rw [getThreadById_eq_ok]
    simp only [send, ThreadCollection.modify]
    rw [find_id_map _ thread.id
      (fun t => if t.id = thread.id then t.setSelectedStackFrame k else t)
      (by intro x; by_cases hx : x.id = thread.id <;> simp [hx, Thread.setSelectedStackFrame]),
      hfind]
    simp [hid, Thread.setSelectedStackFrame]

/-- C20, witness: in the variables scenario the stack of thread 3 has one
frame: selecting frame 0 succeeds, selecting frame 2 fails. -/
theorem setSelectedStackFrame_spec_witness :
    (scopesEngine.setSelectedStackFrame ⟨3, "main", false, none⟩ 0).2 = .ok () ∧
    (scopesEngine.setSelectedStackFrame ⟨3, "main", false, none⟩ 0).1.threads.getThreadById 3 =
      .ok ⟨3, "main", false, some 0⟩ ∧
    (scopesEngine.setSelectedStackFrame ⟨3, "main", false, none⟩ 2).1.requests =
      [.stackTrace 3 3] ∧
    (scopesEngine.setSelectedStackFrame ⟨3, "main", false, none⟩ 2).2 =
      .error (.error "There are only 1 frames in the thread's stack trace.") ∧
    (scopesEngine.setSelectedStackFrame ⟨3, "main", false, none⟩ 2).1.threads =
      scopesEngine.threads := by
  have h := setSelectedStackFrame_spec scopesEngine scopesAdapter ⟨3, "main", false, none⟩ 0
    [⟨1000, "main", none, 1⟩] rfl rfl
  have h2 := setSelectedStackFrame_spec scopesEngine scopesAdapter ⟨3, "main", false, none⟩ 2
    [⟨1000, "main", none, 1⟩] rfl rfl
  have hmsg : ("There are only " ++ toString [(⟨1000, "main", none, 1⟩ : StackFrame)].length ++
      " frames in the thread's stack trace.") =
      "There are only 1 frames in the thread's stack trace." := by decide
  refine ⟨(h.2.2 _ rfl).1, (h.2.2 _ rfl).2 _ rfl, h2.1, ?_, (h2.2.1 rfl).2⟩
  rw [(h2.2.1 rfl).1, hmsg]

/-! ## The run and break commands -/

/-- C21: `run()` fails with 'There is nothing to run, or already attached to a
process.', the engine being exactly as before (no state change, no request), if
and only if the state is not CONFIGURING, or no adapter is configured, or the
configured action is not launch.  Otherwise it is the configuration-done
sequence, and with a session present the state becomes RUNNING. -/
theorem run_spec (d : Debugger) :
    (d.run = (d, .error (.error "There is nothing to run, or already attached to a process.")) ↔
      (d.state ≠ .CONFIGURING ∨ d.adapter = none ∨
        ∃ adapter, d.adapter = some adapter ∧ adapter.action ≠ .launch)) ∧
    (¬ (d.state ≠ .CONFIGURING ∨ d.adapter = none ∨
        ∃ adapter, d.adapter = some adapter ∧ adapter.action ≠ .launch) →
      d.run = d._configurationDone ∧
      ∀ session, d.debugSession = some session → d.run.1.state = .RUNNING) := by
  have hfail : (d.state ≠ .CONFIGURING ∨ d.adapter = none ∨
      ∃ adapter, d.adapter = some adapter ∧ adapter.action ≠ .launch) →
      d.run = (d, .error (.error "There is nothing to run, or already attached to a process.")) := by
    intro h
    unfold run
    cases ha : d.adapter with
    | none => rfl
    | some adapter =>
      have hc : d.state ≠ .CONFIGURING ∨ adapter.action ≠ .launch := by
        rcases h with h | h | ⟨a, h1, h2⟩
        · exact Or.inl h
        · rw [ha] at h; cases h
        · rw [ha] at h1
          cases h1
          exact Or.inr h2
      simp only [hc, if_true]
  have hrun : ¬ (d.state ≠ .CONFIGURING ∨ d.adapter = none ∨
      ∃ adapter, d.adapter = some adapter ∧ adapter.action ≠ .launch) →
      d.run = d._configurationDone := by
    intro h
    unfold run
    cases ha : d.adapter with
    | none => exact absurd (Or.inr (Or.inl ha)) h
    | some adapter =>
      have hc : ¬ (d.state ≠ .CONFIGURING ∨ adapter.action ≠ .launch) := by
        intro hc
        rcases hc with hc | hc
        · exact h (Or.inl hc)
        · exact h (Or.inr (Or.inr ⟨adapter, ha, hc⟩))
      simp only [hc, if_false]
  refine ⟨⟨?_, hfail⟩, fun h => ⟨hrun h, ?_⟩⟩
  · intro heq
    by_contra hc
    have hst : d.state = .CONFIGURING := by
      by_contra hne
      exact hc (Or.inl hne)
    rw [hrun hc] at heq
    cases hs : d.debugSession with
    | none =>
      have hg : d._configurationDone =
          (d, .error (.error "There is no active debugging session.")) := by
        simp [_configurationDone, _ensureDebugSession, hs]
      rw [hg] at heq
      simp only [Prod.mk.injEq, true_and, Except.error.injEq, Err.error.injEq] at heq
      exact absurd heq (by decide)
    | some session =>
      have h1 := (configurationDone_session d session hs).1
      rw [heq] at h1
      simp only at h1
      rw [hst] at h1
      cases h1
  · intro session hs
    rw [hrun h]
    exact (configurationDone_session d session hs).1

/-- C21, witness: `run` on a launched engine in CONFIGURING, on the same
engine once RUNNING, and on an attached engine in CONFIGURING. -/
theorem run_spec_witness :
    (engineFor (adapterFor .launch) .CONFIGURING oneRunningThread).run.1.state = .RUNNING ∧
    (engineFor (adapterFor .launch) .CONFIGURING oneRunningThread).run.1.requests =
      [.setBreakpoints "/a.js" [⟨10, some false⟩, ⟨20, some false⟩],
       .setExceptionBreakpoints [], .configurationDone, .threads] ∧
    (engineFor (adapterFor .launch) .RUNNING oneRunningThread).run =
      (engineFor (adapterFor .launch) .RUNNING oneRunningThread,
        .error (.error "There is nothing to run, or already attached to a process.")) ∧
    (engineFor (adapterFor .attach) .CONFIGURING oneRunningThread).run =
      (engineFor (adapterFor .attach) .CONFIGURING oneRunningThread,
        .error (.error "There is nothing to run, or already attached to a process.")) := by
  have h1 := ((run_spec (engineFor (adapterFor .launch) .CONFIGURING oneRunningThread)).2
    (by
      intro hc
      rcases hc with hc | hc | ⟨a, h1, h2⟩
      · exact hc rfl
      · cases hc
      · cases h1
        exact h2 rfl)).2 (adapterAnswering (.ok [])) rfl
  have h2 := (run_spec (engineFor (adapterFor .launch) .RUNNING oneRunningThread)).1.2
    (Or.inl (by decide))
  have h3 := (run_spec (engineFor (adapterFor .attach) .CONFIGURING oneRunningThread)).1.2
    (Or.inr (Or.inr ⟨adapterFor .attach, rfl, by decide⟩))
  exact ⟨h1, rfl, h2, h3⟩

/-- C22: `breakInto()` pauses the focus thread when one exists and otherwise
the first thread of the registry.  With a session that passes the guard, the
engine afterwards is the engine before with exactly one request added, a pause
request carrying the focus thread's id if a focus thread is set, else the id of
the first tracked thread.  When no thread is tracked it returns without raising
and leaves the engine as it was (no request), whether or not a session
exists. -/
theorem breakInto_spec (d : Debugger) :
    (∀ session thread, d._ensureDebugSession false = .ok session →
      d.threads.focusThread = some thread →
      d.breakInto = (d.send (.pause thread.id), .ok ()) ∧
      d.breakInto.1.requests = d.requests ++ [.pause thread.id]) ∧
    (∀ session thread, d._ensureDebugSession false = .ok session →
      d.threads.focusThread = none → d.threads.allThreads[0]? = some thread →
      d.breakInto = (d.send (.pause thread.id), .ok ()) ∧
      d.breakInto.1.requests = d.requests ++ [.pause thread.id]) ∧
    (d.threads.threads = [] → d.breakInto = (d, .ok ())) := by
  refine ⟨?_, ?_, ?_⟩
  · intro session thread hg hf
    have h : d.breakInto = (d.send (.pause thread.id), .ok ()) := by
      simp [breakInto, hf, hg]
    exact ⟨h, by rw [h]; rfl⟩
  · intro session thread hg hf h0
    have h : d.breakInto = (d.send (.pause thread.id), .ok ()) := by
      simp [breakInto, hf, h0, hg]
    exact ⟨h, by rw [h]; rfl⟩
  · intro hempty
    have hf : d.threads.focusThread = none := by
      unfold ThreadCollection.focusThread
      rw [hempty]
      cases d.threads.focusThreadId <;> rfl
    have h0 : d.threads.allThreads[0]? = none := by
      simp [ThreadCollection.allThreads, hempty]
    simp [breakInto, hf, h0]

/-- C22, witness: with threads 3 and 4 tracked, thread 4 is paused when it has
the focus and thread 3 when there is no focus; with no thread and no session
nothing happens. -/
theorem breakInto_spec_witness :
    ((engine (some (adapterAnswering (.ok []))) .RUNNING scenarioRegistry
        ⟨[Thread.new 3 "main", Thread.new 4 "worker"], some 4⟩).breakInto).1.requests =
      [.pause 4] ∧
    ((engine (some (adapterAnswering (.ok []))) .RUNNING scenarioRegistry
        ⟨[Thread.new 3 "main", Thread.new 4 "worker"], none⟩).breakInto).1.requests =
      [.pause 3] ∧
    (engine none .RUNNING scenarioRegistry ThreadCollection.empty).breakInto =
      (engine none .RUNNING scenarioRegistry ThreadCollection.empty, .ok ()) := by
  have h1 := ((breakInto_spec (engine (some (adapterAnswering (.ok []))) .RUNNING
    scenarioRegistry ⟨[Thread.new 3 "main", Thread.new 4 "worker"], some 4⟩)).1
    (adapterAnswering (.ok [])) (Thread.new 4 "worker") rfl rfl).2
  have h2 := ((breakInto_spec (engine (some (adapterAnswering (.ok []))) .RUNNING
    scenarioRegistry ⟨[Thread.new 3 "main", Thread.new 4 "worker"], none⟩)).2.1
    (adapterAnswering (.ok [])) (Thread.new 3 "main") rfl rfl rfl).2
  have h3 := (breakInto_spec (engine none .RUNNING scenarioRegistry
    ThreadCollection.empty)).2.2 rfl
  exact ⟨h1, h2, h3⟩

/-! ## Responses of another length than the request -/

theorem pairByPosition_take (bs : List Breakpoint) (as : List AdapterBreakpoint) :
    pairByPosition bs (as.take bs.length) = pairByPosition bs as := by
  induction bs generalizing as with
  | nil => simp [pairByPosition]
  | cons b bs ih =>
    cases as with
    | nil => simp [pairByPosition]
    | cons a as => simp [pairByPosition, ih]

theorem reconcileLoop_short (c : BreakpointCollection) (bs : List Breakpoint)
    (as : List AdapterBreakpoint) (h : as.length < bs.length) :
    (reconcileLoop c (pairByPosition bs as)).2 = .error .typeError := by
  induction bs generalizing as c with
  | nil => simp at h
  | cons b bs ih =>
    cases as with
    | nil => simp [pairByPosition, reconcileLoop]
    | cons a as =>
      have hl : as.length < bs.length := by simpa using h
      have h2 := ih (reconcilePair c b a).1 as hl
      simp only [pairByPosition, reconcileLoop]
      split
      · rename_i c2 ps2 heq
        rw [heq] at h2
        simp at h2
      · rename_i c2 e heq
        rw [heq] at h2
        exact h2

theorem loopUpd_unpaired (bs : List Breakpoint) (as : List AdapterBreakpoint) (i : Nat)
    (b : Breakpoint) (x : Breakpoint) (hnd : (bs.map (fun b => b.index)).Nodup)
    (hb : bs[i]? = some b) (hi : as.length ≤ i) (hx : x.index = b.index) :
    loopUpd (pairByPosition bs as) x = x := by
  induction bs generalizing as i with
  | nil => simp at hb
  | cons b0 bs ih =>
    cases as with
    | nil => simp [pairByPosition, loopUpd]
    | cons a0 as =>
      rw [List.map_cons, List.nodup_cons] at hnd
      cases i with
      | zero => simp at hi
      | succ i =>
        simp only [List.getElem?_cons_succ] at hb
        have hne : x.index ≠ b0.index := by
          intro e
          apply hnd.1
          rw [← e, hx]
          exact List.mem_map_of_mem _ (List.getElem?_mem hb)
        simp only [pairByPosition, loopUpd, if_neg hne]
        exact ih as i hnd.2 hb (by simpa using hi)

/-- C23: in the single-path push with `k` enabled breakpoints requested and a
response of `m` descriptors.  If `m ≥ k` the reconciliation completes without
error.  Only the first `k` descriptors are read: two responses that agree on
their first `k` descriptors give the same engine and the same result.  If
`m < k` the push fails with the `TypeError` raised at the first unpaired
breakpoint (position `m`), and every breakpoint at a position `≥ m` is
afterwards exactly as it was before, its id and verified flag included. -/
theorem setSourceBreakpointsForPath_count (d : Debugger) (session : VsDebugSession)
    (path : String) (indexOfInterest : Nat) (resp : List AdapterBreakpoint)
    (hwf : d.breakpoints.WF)
    (hresp : session.setBreakpoints path
      ((d.breakpoints.getAllEnabledBreakpointsForSource path).map (fun x => ⟨x.line, none⟩)) =
        .ok resp) :
    ((d.breakpoints.getAllEnabledBreakpointsForSource path).length ≤ resp.length →
      ∃ r, (d._setSourceBreakpointsForPath session path indexOfInterest).2 = .ok r) ∧
    (∀ (session2 : VsDebugSession) (resp2 : List AdapterBreakpoint),
      session2.setBreakpoints path
        ((d.breakpoints.getAllEnabledBreakpointsForSource path).map (fun x => ⟨x.line, none⟩)) =
          .ok resp2 →
      resp2.take (d.breakpoints.getAllEnabledBreakpointsForSource path).length =
        resp.take (d.breakpoints.getAllEnabledBreakpointsForSource path).length →
      d._setSourceBreakpointsForPath session2 path indexOfInterest =
        d._setSourceBreakpointsForPath session path indexOfInterest) ∧
    (resp.length < (d.breakpoints.getAllEnabledBreakpointsForSource path).length →
      (d._setSourceBreakpointsForPath session path indexOfInterest).2 = .error .typeError ∧
      ∀ i b, resp.length ≤ i →
        (d.breakpoints.getAllEnabledBreakpointsForSource path)[i]? = some b →
        ((d._setSourceBreakpointsForPath session path
          indexOfInterest).1.breakpoints.getAllEnabledBreakpointsForSource path)[i]? =
            some b) := by
  refine ⟨?_, ?_, ?_⟩
  · intro hlen
    exact ⟨_, setSourceBreakpointsForPath_result d session path indexOfInterest resp hresp hlen⟩
  · intro session2 resp2 hresp2 htake
    have hp : pairByPosition (d.breakpoints.getAllEnabledBreakpointsForSource path) resp2 =
        pairByPosition (d.breakpoints.getAllEnabledBreakpointsForSource path) resp := by
      rw [← pairByPosition_take _ resp2, htake, pairByPosition_take]
    simp only [_setSourceBreakpointsForPath, hresp, hresp2, hp]
  · intro hlen
    constructor
    · have h := reconcileLoop_short d.breakpoints
        (d.breakpoints.getAllEnabledBreakpointsForSource path) resp hlen
      simp only [_setSourceBreakpointsForPath, hresp, send]
      split
      · rename_i c e heq
        rw [heq] at h
        simp only [Except.error.injEq] at h
        rw [h]
      · rename_i c ps heq
        rw [heq] at h
        simp at h
    · intro i b hi hb
      rw [setSourceBreakpointsForPath_registry d session path indexOfInterest resp hresp]
      unfold BreakpointCollection.getAllEnabledBreakpointsForSource at hb ⊢
      simp only
      rw [enabled_map_loopUpd, List.getElem?_map, hb, Option.map_some']
      congr 1
      exact loopUpd_unpaired _ resp i b b (enabled_nodup d.breakpoints path hwf) hb hi rfl

/-- C23, witness: the two breakpoints of `/a.js` with a response of one
descriptor (the push fails, line 20 is untouched) and with a response of three
(the third is ignored). -/
theorem setSourceBreakpointsForPath_count_witness :
    ((engine (some (adapterAnswering (.ok [⟨some 1, true, none, some 10⟩]))) .RUNNING
        scenarioRegistry ThreadCollection.empty)._setSourceBreakpointsForPath
          (adapterAnswering (.ok [⟨some 1, true, none, some 10⟩])) "/a.js" 1).2 =
      .error .typeError ∧
    (((engine (some (adapterAnswering (.ok [⟨some 1, true, none, some 10⟩]))) .RUNNING
        scenarioRegistry ThreadCollection.empty)._setSourceBreakpointsForPath
          (adapterAnswering (.ok [⟨some 1, true, none, some 10⟩])) "/a.js"
            1).1.breakpoints.getAllEnabledBreakpointsForSource "/a.js")[1]? =
      some { index := 1, path := some "/a.js", line := 20, enabled := true, verified := false,
             adapterId := none, message := none } ∧
    scenarioEngine._setSourceBreakpointsForPath
        (adapterAnswering (.ok (scenarioResponse ++ [AdapterBreakpoint.mk (some 7) false none none]))) "/a.js" 1 =
      scenarioEngine._setSourceBreakpointsForPath (adapterAnswering (.ok scenarioResponse))
        "/a.js" 1 := by
  have h := (setSourceBreakpointsForPath_count
    (engine (some (adapterAnswering (.ok [⟨some 1, true, none, some 10⟩]))) .RUNNING
      scenarioRegistry ThreadCollection.empty)
    (adapterAnswering (.ok [⟨some 1, true, none, some 10⟩])) "/a.js" 1
    [⟨some 1, true, none, some 10⟩] (by decide) rfl).2.2 (by decide)
  have h2 := (setSourceBreakpointsForPath_count scenarioEngine
    (adapterAnswering (.ok scenarioResponse)) "/a.js" 1 scenarioResponse (by decide) rfl).2.1
    (adapterAnswering (.ok (scenarioResponse ++ [AdapterBreakpoint.mk (some 7) false none none])))
    (scenarioResponse ++ [AdapterBreakpoint.mk (some 7) false none none]) rfl (by decide)
  exact ⟨h.1, h.2 1 _ (by decide) rfl, h2⟩

end DebuggerCli
